import Mathlib

/-!
Verification of the host-side NoC controller library
(`demonstrator_runner/demonstratorlib`): routing-path search
(`path_util.py`), the TDM slot-table store (`tdm_util.py`), the control
module client channel/path orchestration (`ctrl_mod_cl.py`), the bridge
client packetization (`noc_bridge_cl.py`) and the gateway dispatch
(`noc_gateway.py`).

Python integers are modelled as `Int` where the source can go negative
(mesh coordinates during the detour of `find_path_B`) and as `Nat`
where the source only ever holds non-negative values (slots, ports,
endpoint indices, ids).  Python lists indexed by node are modelled as
total functions; `None` sentinels become `Option`.
-/

namespace Demonstrator

/-- Value used for empty slots in a slot table (`constants.py`). -/
def EMPTY : Nat := 15

/-! ## path_util.py -/

/-- `check_valid_path(x_dim, path)`: every consecutive pair of nodes must
differ by exactly `±1` or `±x_dim`.  The source's early-exit `while` loop
is the same conjunction. -/
def check_valid_path (x_dim : Int) : List Int → Bool
  | hop :: nhop :: rest =>
      ((nhop == hop + x_dim) || (nhop == hop - x_dim) ||
       (nhop == hop + 1) || (nhop == hop - 1)) && check_valid_path x_dim (nhop :: rest)
  | _ => true

/-- `find_path_x_y`: recursively find a path using x-y-routing.
The accumulator `path` mirrors the Python list that is appended to. -/
def find_path_x_y (x_dim curr_x curr_y dest_x dest_y : Int) (path : List Int) : List Int :=
  let path' := path ++ [x_dim * curr_y + curr_x]
  if hx : curr_x = dest_x then
    if hy : curr_y = dest_y then path'
    else if hlt : curr_y < dest_y then
      find_path_x_y x_dim curr_x (curr_y + 1) dest_x dest_y path'
    else
      find_path_x_y x_dim curr_x (curr_y - 1) dest_x dest_y path'
  else if hlt : curr_x < dest_x then
    find_path_x_y x_dim (curr_x + 1) curr_y dest_x dest_y path'
  else
    find_path_x_y x_dim (curr_x - 1) curr_y dest_x dest_y path'
termination_by (curr_x - dest_x).natAbs + (curr_y - dest_y).natAbs
decreasing_by all_goals omega

/-- `find_path_y_x`: recursively find a path using y-x-routing. -/
def find_path_y_x (x_dim curr_x curr_y dest_x dest_y : Int) (path : List Int) : List Int :=
  let path' := path ++ [x_dim * curr_y + curr_x]
  if hy : curr_y = dest_y then
    if hx : curr_x = dest_x then path'
    else if hlt : curr_x < dest_x then
      find_path_y_x x_dim (curr_x + 1) curr_y dest_x dest_y path'
    else
      find_path_y_x x_dim (curr_x - 1) curr_y dest_x dest_y path'
  else if hlt : curr_y < dest_y then
    find_path_y_x x_dim curr_x (curr_y + 1) dest_x dest_y path'
  else
    find_path_y_x x_dim curr_x (curr_y - 1) dest_x dest_y path'
termination_by (curr_x - dest_x).natAbs + (curr_y - dest_y).natAbs
decreasing_by all_goals omega

/-- `find_path_A(x_dim, source, dest)`: shortest path using x-y-routing.
Node ids handed in by the control module client are non-negative, so the
coordinate extraction `source % x_dim`, `source // x_dim` is `Nat`
division/modulo, cast into the `Int` world of the recursive helpers. -/
def find_path_A (x_dim source dest : Nat) : List Int :=
  find_path_x_y x_dim (source % x_dim : Nat) (source / x_dim : Nat)
    (dest % x_dim : Nat) (dest / x_dim : Nat) []

/-- `find_path_B(x_dim, y_dim, source, dest)`: alternative path.  If source
and destination share a row or column the first step is a detour away from
that row/column; afterwards y-x-routing (detour in x) or x-y-routing
(detour in y) is used.  Python operator precedence: `a and b or c` is
`(a ∧ b) ∨ c`. -/
def find_path_B (x_dim y_dim source dest : Nat) : List Int :=
  let curr_x : Int := (source % x_dim : Nat)
  let curr_y : Int := (source / x_dim : Nat)
  let dest_x : Int := (dest % x_dim : Nat)
  let dest_y : Int := (dest / x_dim : Nat)
  if curr_x ≠ dest_x ∧ curr_y ≠ dest_y then
    find_path_y_x x_dim curr_x curr_y dest_x dest_y []
  else
    let path := [x_dim * curr_y + curr_x]
    if curr_x = dest_x ∧ curr_y = dest_y then path
    else if curr_x = dest_x then
      let curr_x' := if (curr_x ≤ (x_dim : Int) / 2 ∧ curr_x > 0) ∨ curr_x = (x_dim : Int) - 1
        then curr_x - 1 else curr_x + 1
      find_path_y_x x_dim curr_x' curr_y dest_x dest_y path
    else
      let curr_y' := if (curr_y ≤ (y_dim : Int) / 2 ∧ curr_y > 0) ∨ curr_y = (y_dim : Int) - 1
        then curr_y - 1 else curr_y + 1
      find_path_x_y x_dim curr_x curr_y' dest_x dest_y path

/-- The directed hops of a route: the list of consecutive pairs. -/
def hops (l : List Int) : List (Int × Int) := l.zip l.tail

/-! ### Structure lemmas for the path search -/

theorem last?_cons {a : α} {l : List α} (h : l ≠ []) :
    (a :: l).getLast? = l.getLast? := by
  have he : a :: l = [a] ++ l := rfl
  rw [he, List.getLast?_append_of_ne_nil _ h]

theorem find_path_x_y_acc (X : Int) (cx cy dx dy : Int) (p : List Int) :
    find_path_x_y X cx cy dx dy p = p ++ find_path_x_y X cx cy dx dy [] := by
  have H : ∀ (cx cy dx dy : Int) (p : List Int), ∀ q : List Int,
      find_path_x_y X cx cy dx dy q = q ++ find_path_x_y X cx cy dx dy [] := by
    intro cx cy dx dy p
    induction cx, cy, dx, dy, p using find_path_x_y.induct X with
    | case1 dx dy p =>
        intro q
        conv_lhs => rw [find_path_x_y]
        conv_rhs => rw [find_path_x_y]
        simp
    | case2 cy dx dy p hy hlt pa ih =>
        intro q
        conv_lhs => rw [find_path_x_y]
        conv_rhs => rw [find_path_x_y]
        simp only [hy, hlt, dite_true, dite_false, dif_pos, dif_neg, not_false_iff,
          eq_self_iff_true, List.nil_append]
        rw [ih (q ++ [X * cy + dx]), ih ([X * cy + dx])]
        simp
    | case3 cy dx dy p hy hlt pa ih =>
        intro q
        conv_lhs => rw [find_path_x_y]
        conv_rhs => rw [find_path_x_y]
        simp only [hy, hlt, dite_true, dite_false, dif_pos, dif_neg, not_false_iff,
          eq_self_iff_true, List.nil_append]
        rw [ih (q ++ [X * cy + dx]), ih ([X * cy + dx])]
        simp
    | case4 cx cy dx dy p pa hx hlt ih =>
        intro q
        conv_lhs => rw [find_path_x_y]
        conv_rhs => rw [find_path_x_y]
        simp only [hx, hlt, dite_true, dite_false, dif_pos, dif_neg, not_false_iff,
          eq_self_iff_true, List.nil_append]
        rw [ih (q ++ [X * cy + cx]), ih ([X * cy + cx])]
        simp
    | case5 cx cy dx dy p pa hx hlt ih =>
        intro q
        conv_lhs => rw [find_path_x_y]
        conv_rhs => rw [find_path_x_y]
        simp only [hx, hlt, dite_true, dite_false, dif_pos, dif_neg, not_false_iff,
          eq_self_iff_true, List.nil_append]
        rw [ih (q ++ [X * cy + cx]), ih ([X * cy + cx])]
        simp
  exact H cx cy dx dy [] p

theorem find_path_y_x_acc (X : Int) (cx cy dx dy : Int) (p : List Int) :
    find_path_y_x X cx cy dx dy p = p ++ find_path_y_x X cx cy dx dy [] := by
  have H : ∀ (cx cy dx dy : Int) (p : List Int), ∀ q : List Int,
      find_path_y_x X cx cy dx dy q = q ++ find_path_y_x X cx cy dx dy [] := by
    intro cx cy dx dy p
    induction cx, cy, dx, dy, p using find_path_y_x.induct X with
    | case1 dx dy p =>
        intro q
        conv_lhs => rw [find_path_y_x]
        conv_rhs => rw [find_path_y_x]
        simp
    | case2 cx dx dy p hx hlt pa ih =>
        intro q
        conv_lhs => rw [find_path_y_x]
        conv_rhs => rw [find_path_y_x]
        simp only [hx, hlt, dite_true, dite_false, dif_pos, dif_neg, not_false_iff,
          eq_self_iff_true, List.nil_append]
        rw [ih (q ++ [X * dy + cx]), ih ([X * dy + cx])]
        simp
    | case3 cx dx dy p hx hlt pa ih =>
        intro q
        conv_lhs => rw [find_path_y_x]
        conv_rhs => rw [find_path_y_x]
        simp only [hx, hlt, dite_true, dite_false, dif_pos, dif_neg, not_false_iff,
          eq_self_iff_true, List.nil_append]
        rw [ih (q ++ [X * dy + cx]), ih ([X * dy + cx])]
        simp
    | case4 cx cy dx dy p pa hy hlt ih =>
        intro q
        conv_lhs => rw [find_path_y_x]
        conv_rhs => rw [find_path_y_x]
        simp only [hy, hlt, dite_true, dite_false, dif_pos, dif_neg, not_false_iff,
          eq_self_iff_true, List.nil_append]
        rw [ih (q ++ [X * cy + cx]), ih ([X * cy + cx])]
        simp
    | case5 cx cy dx dy p pa hy hlt ih =>
        intro q
        conv_lhs => rw [find_path_y_x]
        conv_rhs => rw [find_path_y_x]
        simp only [hy, hlt, dite_true, dite_false, dif_pos, dif_neg, not_false_iff,
          eq_self_iff_true, List.nil_append]
        rw [ih (q ++ [X * cy + cx]), ih ([X * cy + cx])]
        simp
  exact H cx cy dx dy [] p

/-- One-step unfolding of `find_path_x_y` on the empty accumulator: the
current node is emitted first, then the recursion continues. -/
theorem find_path_x_y_nil (X cx cy dx dy : Int) :
    find_path_x_y X cx cy dx dy [] =
      (X * cy + cx) ::
        (if cx = dx then
          if cy = dy then []
          else if cy < dy then find_path_x_y X cx (cy + 1) dx dy []
          else find_path_x_y X cx (cy - 1) dx dy []
        else if cx < dx then find_path_x_y X (cx + 1) cy dx dy []
        else find_path_x_y X (cx - 1) cy dx dy []) := by
  conv_lhs => rw [find_path_x_y]
  split_ifs with h1 h2 h3 h4 <;>
    simp only [List.nil_append] <;>
    rw [find_path_x_y_acc] <;> simp

theorem find_path_y_x_nil (X cx cy dx dy : Int) :
    find_path_y_x X cx cy dx dy [] =
      (X * cy + cx) ::
        (if cy = dy then
          if cx = dx then []
          else if cx < dx then find_path_y_x X (cx + 1) cy dx dy []
          else find_path_y_x X (cx - 1) cy dx dy []
        else if cy < dy then find_path_y_x X cx (cy + 1) dx dy []
        else find_path_y_x X cx (cy - 1) dx dy []) := by
  conv_lhs => rw [find_path_y_x]
  split_ifs with h1 h2 h3 h4 <;>
    simp only [List.nil_append] <;>
    rw [find_path_y_x_acc] <;> simp

theorem find_path_x_y_cons (X cx cy dx dy : Int) :
    ∃ t, find_path_x_y X cx cy dx dy [] = (X * cy + cx) :: t :=
  ⟨_, find_path_x_y_nil X cx cy dx dy⟩

theorem find_path_y_x_cons (X cx cy dx dy : Int) :
    ∃ t, find_path_y_x X cx cy dx dy [] = (X * cy + cx) :: t :=
  ⟨_, find_path_y_x_nil X cx cy dx dy⟩

theorem find_path_x_y_ne_nil (X cx cy dx dy : Int) :
    find_path_x_y X cx cy dx dy [] ≠ [] := by
  obtain ⟨t, ht⟩ := find_path_x_y_cons X cx cy dx dy
  simp [ht]

theorem find_path_y_x_ne_nil (X cx cy dx dy : Int) :
    find_path_y_x X cx cy dx dy [] ≠ [] := by
  obtain ⟨t, ht⟩ := find_path_y_x_cons X cx cy dx dy
  simp [ht]

theorem find_path_x_y_last (X : Int) (cx cy dx dy : Int) :
    (find_path_x_y X cx cy dx dy []).getLast? = some (X * dy + dx) := by
  have H : ∀ (cx cy dx dy : Int) (p : List Int),
      (find_path_x_y X cx cy dx dy []).getLast? = some (X * dy + dx) := by
    intro cx cy dx dy p
    induction cx, cy, dx, dy, p using find_path_x_y.induct X with
    | case1 dx dy p => rw [find_path_x_y_nil]; simp
    | case2 cy dx dy p hy hlt pa ih =>
        rw [find_path_x_y_nil]
        simp only [hy, hlt, if_true, if_false, eq_self_iff_true, ite_true, ite_false,
          if_pos, if_neg, not_false_iff]
        rw [last?_cons (find_path_x_y_ne_nil X dx (cy + 1) dx dy)]
        exact ih
    | case3 cy dx dy p hy hlt pa ih =>
        rw [find_path_x_y_nil]
        simp only [hy, hlt, if_true, if_false, eq_self_iff_true, ite_true, ite_false,
          if_pos, if_neg, not_false_iff]
        rw [last?_cons (find_path_x_y_ne_nil X dx (cy - 1) dx dy)]
        exact ih
    | case4 cx cy dx dy p pa hx hlt ih =>
        rw [find_path_x_y_nil]
        simp only [hx, hlt, if_true, if_false, eq_self_iff_true, ite_true, ite_false,
          if_pos, if_neg, not_false_iff]
        rw [last?_cons (find_path_x_y_ne_nil X (cx + 1) cy dx dy)]
        exact ih
    | case5 cx cy dx dy p pa hx hlt ih =>
        rw [find_path_x_y_nil]
        simp only [hx, hlt, if_true, if_false, eq_self_iff_true, ite_true, ite_false,
          if_pos, if_neg, not_false_iff]
        rw [last?_cons (find_path_x_y_ne_nil X (cx - 1) cy dx dy)]
        exact ih
  exact H cx cy dx dy []

theorem find_path_y_x_last (X : Int) (cx cy dx dy : Int) :
    (find_path_y_x X cx cy dx dy []).getLast? = some (X * dy + dx) := by
  have H : ∀ (cx cy dx dy : Int) (p : List Int),
      (find_path_y_x X cx cy dx dy []).getLast? = some (X * dy + dx) := by
    intro cx cy dx dy p
    induction cx, cy, dx, dy, p using find_path_y_x.induct X with
    | case1 dx dy p => rw [find_path_y_x_nil]; simp
    | case2 cx dx dy p hx hlt pa ih =>
        rw [find_path_y_x_nil]
        simp only [hx, hlt, if_true, if_false, eq_self_iff_true, ite_true, ite_false,
          if_pos, if_neg, not_false_iff]
        rw [last?_cons (find_path_y_x_ne_nil X (cx + 1) dy dx dy)]
        exact ih
    | case3 cx dx dy p hx hlt pa ih =>
        rw [find_path_y_x_nil]
        simp only [hx, hlt, if_true, if_false, eq_self_iff_true, ite_true, ite_false,
          if_pos, if_neg, not_false_iff]
        rw [last?_cons (find_path_y_x_ne_nil X (cx - 1) dy dx dy)]
        exact ih
    | case4 cx cy dx dy p pa hy hlt ih =>
        rw [find_path_y_x_nil]
        simp only [hy, hlt, if_true, if_false, eq_self_iff_true, ite_true, ite_false,
          if_pos, if_neg, not_false_iff]
        rw [last?_cons (find_path_y_x_ne_nil X cx (cy + 1) dx dy)]
        exact ih
    | case5 cx cy dx dy p pa hy hlt ih =>
        rw [find_path_y_x_nil]
        simp only [hy, hlt, if_true, if_false, eq_self_iff_true, ite_true, ite_false,
          if_pos, if_neg, not_false_iff]
        rw [last?_cons (find_path_y_x_ne_nil X cx (cy - 1) dx dy)]
        exact ih
  exact H cx cy dx dy []

/-! ### Hop characterization -/

/-- A horizontal hop in row `y`: both endpoints lie in row `y`, with
x-coordinates inside `[lo, hi]` and one step apart. -/
def HopH (X y lo hi : Int) (h : Int × Int) : Prop :=
  ∃ t t', lo ≤ t ∧ t ≤ hi ∧ lo ≤ t' ∧ t' ≤ hi ∧ (t' = t + 1 ∨ t' = t - 1) ∧
    h.1 = X * y + t ∧ h.2 = X * y + t'

/-- A vertical hop in column `x`: both endpoints lie in column `x`, with
y-coordinates inside `[lo, hi]` and one step apart. -/
def HopV (X x lo hi : Int) (h : Int × Int) : Prop :=
  ∃ u u', lo ≤ u ∧ u ≤ hi ∧ lo ≤ u' ∧ u' ≤ hi ∧ (u' = u + 1 ∨ u' = u - 1) ∧
    h.1 = X * u + x ∧ h.2 = X * u' + x

theorem hops_cons_cons (a b : Int) (l : List Int) :
    hops (a :: b :: l) = (a, b) :: hops (b :: l) := rfl

theorem hops_single (a : Int) : hops [a] = [] := rfl

/-- Injectivity of the node encoding `X * y + x` for `0 ≤ x < X`. -/
theorem node_code_inj {X y y' t t' : Int} (h0 : 0 ≤ t) (h1 : t < X)
    (h2 : 0 ≤ t') (h3 : t' < X) (he : X * y + t = X * y' + t') :
    y = y' ∧ t = t' := by
  have hX : (0 : Int) < X := by omega
  have e1 : (t + X * y) % X = t := by
    rw [Int.add_mul_emod_self_left]
    exact Int.emod_eq_of_lt h0 h1
  have e2 : (t' + X * y') % X = t' := by
    rw [Int.add_mul_emod_self_left]
    exact Int.emod_eq_of_lt h2 h3
  have e3 : t + X * y = t' + X * y' := by omega
  have htt : t = t' := by rw [← e1, ← e2, e3]
  refine ⟨?_, htt⟩
  have : X * y = X * y' := by omega
  exact mul_left_cancel₀ (by omega : X ≠ 0) this

/-- Every hop of the x-y route is horizontal in the start row (x between
the two x-coordinates) or vertical in the destination column (y between
the two y-coordinates). -/
theorem find_path_x_y_hops (X : Int) (cx cy dx dy : Int) :
    ∀ h ∈ hops (find_path_x_y X cx cy dx dy []),
      HopH X cy (min cx dx) (max cx dx) h ∨ HopV X dx (min cy dy) (max cy dy) h := by
  have H : ∀ (cx cy dx dy : Int) (p : List Int),
      ∀ h ∈ hops (find_path_x_y X cx cy dx dy []),
        HopH X cy (min cx dx) (max cx dx) h ∨ HopV X dx (min cy dy) (max cy dy) h := by
    intro cx cy dx dy p
    induction cx, cy, dx, dy, p using find_path_x_y.induct X with
    | case1 dx dy p =>
        intro h hm
        rw [find_path_x_y_nil] at hm
        simp [hops] at hm
    | case2 cy dx dy p hy hlt pa ih =>
        intro h hm
        rw [find_path_x_y_nil] at hm
        simp only [hy, hlt, if_true, if_false, eq_self_iff_true, ite_true, ite_false,
          if_pos, if_neg, not_false_iff] at hm
        obtain ⟨t0, ht0⟩ := find_path_x_y_cons X dx (cy + 1) dx dy
        rw [ht0, hops_cons_cons, ← ht0] at hm
        rcases List.mem_cons.mp hm with h1 | h2
        · subst h1
          exact Or.inr ⟨cy, cy + 1, by omega, by omega, by omega, by omega, Or.inl rfl, rfl, rfl⟩
        · rcases ih h h2 with hH | hV
          · obtain ⟨t, t', ha, hb, hc, hd, he, _, _⟩ := hH
            rcases he with he | he <;> omega
          · obtain ⟨u, u', ha, hb, hc, hd, he, hf, hg⟩ := hV
            exact Or.inr ⟨u, u', by omega, by omega, by omega, by omega, he, hf, hg⟩
    | case3 cy dx dy p hy hlt pa ih =>
        intro h hm
        rw [find_path_x_y_nil] at hm
        simp only [hy, hlt, if_true, if_false, eq_self_iff_true, ite_true, ite_false,
          if_pos, if_neg, not_false_iff] at hm
        obtain ⟨t0, ht0⟩ := find_path_x_y_cons X dx (cy - 1) dx dy
        rw [ht0, hops_cons_cons, ← ht0] at hm
        rcases List.mem_cons.mp hm with h1 | h2
        · subst h1
          exact Or.inr ⟨cy, cy - 1, by omega, by omega, by omega, by omega, Or.inr rfl, rfl, rfl⟩
        · rcases ih h h2 with hH | hV
          · obtain ⟨t, t', ha, hb, hc, hd, he, _, _⟩ := hH
            rcases he with he | he <;> omega
          · obtain ⟨u, u', ha, hb, hc, hd, he, hf, hg⟩ := hV
            exact Or.inr ⟨u, u', by omega, by omega, by omega, by omega, he, hf, hg⟩
    | case4 cx cy dx dy p pa hx hlt ih =>
        intro h hm
        rw [find_path_x_y_nil] at hm
        simp only [hx, hlt, if_true, if_false, eq_self_iff_true, ite_true, ite_false,
          if_pos, if_neg, not_false_iff] at hm
        obtain ⟨t0, ht0⟩ := find_path_x_y_cons X (cx + 1) cy dx dy
        rw [ht0, hops_cons_cons, ← ht0] at hm
        rcases List.mem_cons.mp hm with h1 | h2
        · subst h1
          exact Or.inl ⟨cx, cx + 1, by omega, by omega, by omega, by omega, Or.inl rfl, rfl, rfl⟩
        · rcases ih h h2 with hH | hV
          · obtain ⟨t, t', ha, hb, hc, hd, he, hf, hg⟩ := hH
            exact Or.inl ⟨t, t', by omega, by omega, by omega, by omega, he, hf, hg⟩
          · obtain ⟨u, u', ha, hb, hc, hd, he, hf, hg⟩ := hV
            exact Or.inr ⟨u, u', ha, hb, hc, hd, he, hf, hg⟩
    | case5 cx cy dx dy p pa hx hlt ih =>
        intro h hm
        rw [find_path_x_y_nil] at hm
        simp only [hx, hlt, if_true, if_false, eq_self_iff_true, ite_true, ite_false,
          if_pos, if_neg, not_false_iff] at hm
        obtain ⟨t0, ht0⟩ := find_path_x_y_cons X (cx - 1) cy dx dy
        rw [ht0, hops_cons_cons, ← ht0] at hm
        rcases List.mem_cons.mp hm with h1 | h2
        · subst h1
          exact Or.inl ⟨cx, cx - 1, by omega, by omega, by omega, by omega, Or.inr rfl, rfl, rfl⟩
        · rcases ih h h2 with hH | hV
          · obtain ⟨t, t', ha, hb, hc, hd, he, hf, hg⟩ := hH
            exact Or.inl ⟨t, t', by omega, by omega, by omega, by omega, he, hf, hg⟩
          · obtain ⟨u, u', ha, hb, hc, hd, he, hf, hg⟩ := hV
            exact Or.inr ⟨u, u', ha, hb, hc, hd, he, hf, hg⟩
  exact H cx cy dx dy []

/-- Every hop of the y-x route is vertical in the start column or
horizontal in the destination row. -/
theorem find_path_y_x_hops (X : Int) (cx cy dx dy : Int) :
    ∀ h ∈ hops (find_path_y_x X cx cy dx dy []),
      HopV X cx (min cy dy) (max cy dy) h ∨ HopH X dy (min cx dx) (max cx dx) h := by
  have H : ∀ (cx cy dx dy : Int) (p : List Int),
      ∀ h ∈ hops (find_path_y_x X cx cy dx dy []),
        HopV X cx (min cy dy) (max cy dy) h ∨ HopH X dy (min cx dx) (max cx dx) h := by
    intro cx cy dx dy p
    induction cx, cy, dx, dy, p using find_path_y_x.induct X with
    | case1 dx dy p =>
        intro h hm
        rw [find_path_y_x_nil] at hm
        simp [hops] at hm
    | case2 cx dx dy p hx hlt pa ih =>
        intro h hm
        rw [find_path_y_x_nil] at hm
        simp only [hx, hlt, if_true, if_false, eq_self_iff_true, ite_true, ite_false,
          if_pos, if_neg, not_false_iff] at hm
        obtain ⟨t0, ht0⟩ := find_path_y_x_cons X (cx + 1) dy dx dy
        rw [ht0, hops_cons_cons, ← ht0] at hm
        rcases List.mem_cons.mp hm with h1 | h2
        · subst h1
          exact Or.inr ⟨cx, cx + 1, by omega, by omega, by omega, by omega, Or.inl rfl, rfl, rfl⟩
        · rcases ih h h2 with hV | hH
          · obtain ⟨u, u', ha, hb, hc, hd, he, _, _⟩ := hV
            rcases he with he | he <;> omega
          · obtain ⟨t, t', ha, hb, hc, hd, he, hf, hg⟩ := hH
            exact Or.inr ⟨t, t', by omega, by omega, by omega, by omega, he, hf, hg⟩
    | case3 cx dx dy p hx hlt pa ih =>
        intro h hm
        rw [find_path_y_x_nil] at hm
        simp only [hx, hlt, if_true, if_false, eq_self_iff_true, ite_true, ite_false,
          if_pos, if_neg, not_false_iff] at hm
        obtain ⟨t0, ht0⟩ := find_path_y_x_cons X (cx - 1) dy dx dy
        rw [ht0, hops_cons_cons, ← ht0] at hm
        rcases List.mem_cons.mp hm with h1 | h2
        · subst h1
          exact Or.inr ⟨cx, cx - 1, by omega, by omega, by omega, by omega, Or.inr rfl, rfl, rfl⟩
        · rcases ih h h2 with hV | hH
          · obtain ⟨u, u', ha, hb, hc, hd, he, _, _⟩ := hV
            rcases he with he | he <;> omega
          · obtain ⟨t, t', ha, hb, hc, hd, he, hf, hg⟩ := hH
            exact Or.inr ⟨t, t', by omega, by omega, by omega, by omega, he, hf, hg⟩
    | case4 cx cy dx dy p pa hy hlt ih =>
        intro h hm
        rw [find_path_y_x_nil] at hm
        simp only [hy, hlt, if_true, if_false, eq_self_iff_true, ite_true, ite_false,
          if_pos, if_neg, not_false_iff] at hm
        obtain ⟨t0, ht0⟩ := find_path_y_x_cons X cx (cy + 1) dx dy
        rw [ht0, hops_cons_cons, ← ht0] at hm
        rcases List.mem_cons.mp hm with h1 | h2
        · subst h1
          exact Or.inl ⟨cy, cy + 1, by omega, by omega, by omega, by omega, Or.inl rfl, rfl, rfl⟩
        · rcases ih h h2 with hV | hH
          · obtain ⟨u, u', ha, hb, hc, hd, he, hf, hg⟩ := hV
            exact Or.inl ⟨u, u', by omega, by omega, by omega, by omega, he, hf, hg⟩
          · obtain ⟨t, t', ha, hb, hc, hd, he, hf, hg⟩ := hH
            exact Or.inr ⟨t, t', ha, hb, hc, hd, he, hf, hg⟩
    | case5 cx cy dx dy p pa hy hlt ih =>
        intro h hm
        rw [find_path_y_x_nil] at hm
        simp only [hy, hlt, if_true, if_false, eq_self_iff_true, ite_true, ite_false,
          if_pos, if_neg, not_false_iff] at hm
        obtain ⟨t0, ht0⟩ := find_path_y_x_cons X cx (cy - 1) dx dy
        rw [ht0, hops_cons_cons, ← ht0] at hm
        rcases List.mem_cons.mp hm with h1 | h2
        · subst h1
          exact Or.inl ⟨cy, cy - 1, by omega, by omega, by omega, by omega, Or.inr rfl, rfl, rfl⟩
        · rcases ih h h2 with hV | hH
          · obtain ⟨u, u', ha, hb, hc, hd, he, hf, hg⟩ := hV
            exact Or.inl ⟨u, u', by omega, by omega, by omega, by omega, he, hf, hg⟩
          · obtain ⟨t, t', ha, hb, hc, hd, he, hf, hg⟩ := hH
            exact Or.inr ⟨t, t', ha, hb, hc, hd, he, hf, hg⟩
  exact H cx cy dx dy []


/-- A horizontal and a vertical hop can never be the same directed hop
(assuming the x-coordinates lie inside the mesh). -/
theorem hopH_hopV_disjoint {X y x lo1 hi1 lo2 hi2 : Int} (h : Int × Int)
    (hh : HopH X y lo1 hi1 h) (hv : HopV X x lo2 hi2 h)
    (h1 : 0 ≤ lo1) (h2 : hi1 < X) (h3 : 0 ≤ x) (h4 : x < X) : False := by
  obtain ⟨t, t', ta, tb, tc, td, te, tf, tg⟩ := hh
  obtain ⟨u, u', ua, ub, uc, ud, ue, uf, ug⟩ := hv
  obtain ⟨e1, e2⟩ := node_code_inj (by omega) (by omega) h3 h4 (tf ▸ uf ▸ rfl : X * y + t = X * u + x)
  obtain ⟨e3, e4⟩ := node_code_inj (by omega) (by omega) h3 h4 (tg ▸ ug ▸ rfl : X * y + t' = X * u' + x)
  rcases ue with ue | ue <;> omega

/-- Two identical horizontal hops lie in the same row. -/
theorem hopH_hopH_row {X y y' lo1 hi1 lo2 hi2 : Int} (h : Int × Int)
    (hh : HopH X y lo1 hi1 h) (hh' : HopH X y' lo2 hi2 h)
    (h1 : 0 ≤ lo1) (h2 : hi1 < X) (h3 : 0 ≤ lo2) (h4 : hi2 < X) : y = y' := by
  obtain ⟨t, t', ta, tb, tc, td, te, tf, tg⟩ := hh
  obtain ⟨u, u', ua, ub, uc, ud, ue, uf, ug⟩ := hh'
  exact (node_code_inj (by omega) (by omega) (by omega) (by omega)
    (tf ▸ uf ▸ rfl : X * y + t = X * y' + u)).1

/-- Two identical vertical hops lie in the same column. -/
theorem hopV_hopV_col {X x x' lo1 hi1 lo2 hi2 : Int} (h : Int × Int)
    (hv : HopV X x lo1 hi1 h) (hv' : HopV X x' lo2 hi2 h)
    (h1 : 0 ≤ x) (h2 : x < X) (h3 : 0 ≤ x') (h4 : x' < X) : x = x' := by
  obtain ⟨u, u', ua, ub, uc, ud, ue, uf, ug⟩ := hv
  obtain ⟨v, v', va, vb, vc, vd, ve, vf, vg⟩ := hv'
  exact (node_code_inj h1 h2 h3 h4 (uf ▸ vf ▸ rfl : X * u + x = X * v + x')).2

/-- Disjointness of x-y and y-x routes when source and destination share
neither row nor column. -/
theorem disjoint_case_diff {X cx cy dx dy : Int}
    (hcx1 : 0 ≤ cx) (hcx2 : cx < X) (hdx1 : 0 ≤ dx) (hdx2 : dx < X)
    (hx : cx ≠ dx) (hy : cy ≠ dy) :
    ∀ h ∈ hops (find_path_x_y X cx cy dx dy []),
      h ∉ hops (find_path_y_x X cx cy dx dy []) := by
  intro h hA hB
  rcases find_path_x_y_hops X cx cy dx dy h hA with hH | hV
  · rcases find_path_y_x_hops X cx cy dx dy h hB with hV' | hH'
    · exact hopH_hopV_disjoint h hH hV' (by omega) (by omega) hcx1 hcx2
    · exact hy (hopH_hopH_row h hH hH' (by omega) (by omega) (by omega) (by omega))
  · rcases find_path_y_x_hops X cx cy dx dy h hB with hV' | hH'
    · exact hx ((hopV_hopV_col h hV hV' hdx1 hdx2 hcx1 hcx2).symm)
    · exact hopH_hopV_disjoint h hH' hV (by omega) (by omega) hdx1 hdx2

/-- Disjointness for the shared-column case: the alternative route starts
with a horizontal detour to column `cx'` and then runs y-x. -/
theorem disjoint_case_col {X cx cy dy cx' : Int}
    (hcx1 : 0 ≤ cx) (hcx2 : cx < X) (hcx'1 : 0 ≤ cx') (hcx'2 : cx' < X)
    (hcol : cx' ≠ cx) :
    ∀ h ∈ hops (find_path_x_y X cx cy cx dy []),
      h ∉ hops ((X * cy + cx) :: find_path_y_x X cx' cy cx dy []) := by
  intro h hA hB
  rcases find_path_x_y_hops X cx cy cx dy h hA with hH | hV
  · obtain ⟨t, t', ta, tb, tc, td, te, _, _⟩ := hH
    rcases te with te | te <;> omega
  · obtain ⟨t1, ht1⟩ := find_path_y_x_cons X cx' cy cx dy
    rw [ht1, hops_cons_cons, ← ht1] at hB
    rcases List.mem_cons.mp hB with h1 | h2
    · obtain ⟨u, u', ua, ub, uc, ud, ue, uf, ug⟩ := hV
      subst h1
      obtain ⟨e1, e2⟩ := node_code_inj hcx1 hcx2 hcx1 hcx2 uf.symm
      obtain ⟨e3, e4⟩ := node_code_inj hcx1 hcx2 hcx'1 hcx'2 ug.symm
      rcases ue with ue | ue <;> omega
    · rcases find_path_y_x_hops X cx' cy cx dy h h2 with hV' | hH'
      · exact hcol (hopV_hopV_col h hV' hV hcx'1 hcx'2 hcx1 hcx2).symm.symm
      · exact hopH_hopV_disjoint h hH' hV (by omega) (by omega) hcx1 hcx2

/-- Disjointness for the shared-row case: the alternative route starts
with a vertical detour to row `cy'` and then runs x-y. -/
theorem disjoint_case_row {X cx cy dx cy' : Int}
    (hcx1 : 0 ≤ cx) (hcx2 : cx < X) (hdx1 : 0 ≤ dx) (hdx2 : dx < X)
    (hrow : cy' ≠ cy) :
    ∀ h ∈ hops (find_path_x_y X cx cy dx cy []),
      h ∉ hops ((X * cy + cx) :: find_path_x_y X cx cy' dx cy []) := by
  intro h hA hB
  rcases find_path_x_y_hops X cx cy dx cy h hA with hH | hV
  · obtain ⟨t1, ht1⟩ := find_path_x_y_cons X cx cy' dx cy
    rw [ht1, hops_cons_cons, ← ht1] at hB
    rcases List.mem_cons.mp hB with h1 | h2
    · obtain ⟨t, t', ta, tb, tc, td, te, tf, tg⟩ := hH
      subst h1
      obtain ⟨e1, e2⟩ := node_code_inj (by omega) (by omega) hcx1 hcx2 tf.symm
      obtain ⟨e3, e4⟩ := node_code_inj (by omega) (by omega) hcx1 hcx2 tg.symm
      omega
    · rcases find_path_x_y_hops X cx cy' dx cy h h2 with hH' | hV'
      · exact hrow (hopH_hopH_row h hH' hH (by omega) (by omega) (by omega) (by omega))
      · exact hopH_hopV_disjoint h hH hV' (by omega) (by omega) hdx1 hdx2
  · obtain ⟨u, u', ua, ub, uc, ud, ue, _, _⟩ := hV
    rcases ue with ue | ue <;> omega


theorem check_valid_path_iff (X : Int) (l : List Int) :
    check_valid_path X l = true ↔
      ∀ h ∈ hops l, h.2 = h.1 + X ∨ h.2 = h.1 - X ∨ h.2 = h.1 + 1 ∨ h.2 = h.1 - 1 := by
  induction l with
  | nil => simp [check_valid_path, hops]
  | cons a l ih =>
      cases l with
      | nil => simp [check_valid_path, hops]
      | cons b t =>
          rw [show check_valid_path X (a :: b :: t) =
            (((b == a + X) || (b == a - X) || (b == a + 1) || (b == a - 1)) &&
              check_valid_path X (b :: t)) from rfl]
          rw [hops_cons_cons]
          simp only [Bool.and_eq_true, Bool.or_eq_true, beq_iff_eq, List.forall_mem_cons, ih]
          tauto

/-- Any route whose hops are all horizontal or vertical single steps
passes `check_valid_path`. -/
theorem hop_step_valid (X : Int) (l : List Int)
    (H : ∀ h ∈ hops l, (∃ y lo hi, HopH X y lo hi h) ∨ (∃ x lo hi, HopV X x lo hi h)) :
    check_valid_path X l = true := by
  rw [check_valid_path_iff]
  intro h hm
  rcases H h hm with ⟨y, lo, hi, t, t', _, _, _, _, te, tf, tg⟩ |
    ⟨x, lo, hi, u, u', _, _, _, _, ue, uf, ug⟩
  · rcases te with te | te
    · right; right; left; rw [tf, tg, te]; ring
    · right; right; right; rw [tf, tg, te]; ring
  · rcases ue with ue | ue
    · left; rw [uf, ug, ue]; ring
    · right; left; rw [uf, ug, ue]; ring

/-- Shape of `find_path_B` when source and destination lie in the same
column (and differ): detour in x, then y-x routing. -/
theorem find_path_B_col (X Y src dest : Nat)
    (hcol : ((src % X : Nat) : Int) = ((dest % X : Nat) : Int))
    (hrow : ((src / X : Nat) : Int) ≠ ((dest / X : Nat) : Int)) :
    find_path_B X Y src dest =
      ((X : Int) * ((src / X : Nat) : Int) + ((src % X : Nat) : Int)) ::
        find_path_y_x X
          (if (((src % X : Nat) : Int) ≤ (X : Int) / 2 ∧ ((src % X : Nat) : Int) > 0) ∨
              ((src % X : Nat) : Int) = (X : Int) - 1
            then ((src % X : Nat) : Int) - 1 else ((src % X : Nat) : Int) + 1)
          ((src / X : Nat) : Int) ((dest % X : Nat) : Int) ((dest / X : Nat) : Int) [] := by
  have c1 : ¬(((src % X : Nat) : Int) ≠ ((dest % X : Nat) : Int) ∧
      ((src / X : Nat) : Int) ≠ ((dest / X : Nat) : Int)) := by
    intro hc; exact hc.1 hcol
  have c2 : ¬(((src % X : Nat) : Int) = ((dest % X : Nat) : Int) ∧
      ((src / X : Nat) : Int) = ((dest / X : Nat) : Int)) := by
    intro hc; exact hrow hc.2
  simp only [find_path_B]
  rw [if_neg c1, if_neg c2, if_pos hcol]
  rw [find_path_y_x_acc]
  simp

/-- Shape of `find_path_B` when source and destination lie in the same
row (and differ): detour in y, then x-y routing. -/
theorem find_path_B_row (X Y src dest : Nat)
    (hcol : ((src % X : Nat) : Int) ≠ ((dest % X : Nat) : Int))
    (hrow : ((src / X : Nat) : Int) = ((dest / X : Nat) : Int)) :
    find_path_B X Y src dest =
      ((X : Int) * ((src / X : Nat) : Int) + ((src % X : Nat) : Int)) ::
        find_path_x_y X ((src % X : Nat) : Int)
          (if (((src / X : Nat) : Int) ≤ (Y : Int) / 2 ∧ ((src / X : Nat) : Int) > 0) ∨
              ((src / X : Nat) : Int) = (Y : Int) - 1
            then ((src / X : Nat) : Int) - 1 else ((src / X : Nat) : Int) + 1)
          ((dest % X : Nat) : Int) ((dest / X : Nat) : Int) [] := by
  have c1 : ¬(((src % X : Nat) : Int) ≠ ((dest % X : Nat) : Int) ∧
      ((src / X : Nat) : Int) ≠ ((dest / X : Nat) : Int)) := by
    intro hc; exact hc.2 hrow
  have c2 : ¬(((src % X : Nat) : Int) = ((dest % X : Nat) : Int) ∧
      ((src / X : Nat) : Int) = ((dest / X : Nat) : Int)) := by
    intro hc; exact hcol hc.1
  simp only [find_path_B]
  rw [if_neg c1, if_neg c2, if_neg hcol]
  rw [find_path_x_y_acc]
  simp

/-- Shape of `find_path_B` when source and destination share neither row
nor column: plain y-x routing. -/
theorem find_path_B_diff (X Y src dest : Nat)
    (hcol : ((src % X : Nat) : Int) ≠ ((dest % X : Nat) : Int))
    (hrow : ((src / X : Nat) : Int) ≠ ((dest / X : Nat) : Int)) :
    find_path_B X Y src dest =
      find_path_y_x X ((src % X : Nat) : Int) ((src / X : Nat) : Int)
        ((dest % X : Nat) : Int) ((dest / X : Nat) : Int) [] := by
  simp only [find_path_B]
  rw [if_pos ⟨hcol, hrow⟩]


/-- C2 (corrected, amended to meshes with `x_dim ≥ 2`): for every such mesh
and every pair of distinct in-mesh nodes, the routes returned by
`find_path_A` and `find_path_B` both satisfy `check_valid_path`, begin with
`src`, end with `dest`, and share no identical directed hop. -/
theorem C2_amended (X Y src dest : Nat) (hX : 2 ≤ X)
    (hs : src < X * Y) (hd : dest < X * Y) (hne : src ≠ dest) :
    check_valid_path X (find_path_A X src dest) = true ∧
    check_valid_path X (find_path_B X Y src dest) = true ∧
    (find_path_A X src dest).head? = some (src : Int) ∧
    (find_path_A X src dest).getLast? = some (dest : Int) ∧
    (find_path_B X Y src dest).head? = some (src : Int) ∧
    (find_path_B X Y src dest).getLast? = some (dest : Int) ∧
    ∀ h ∈ hops (find_path_A X src dest), h ∉ hops (find_path_B X Y src dest) := by
  have hX0 : 0 < X := by omega
  have hsx1 : (0 : Int) ≤ ((src % X : Nat) : Int) := Int.natCast_nonneg _
  have hsx2 : ((src % X : Nat) : Int) < (X : Int) := by
    exact_mod_cast Nat.mod_lt _ hX0
  have hdx1 : (0 : Int) ≤ ((dest % X : Nat) : Int) := Int.natCast_nonneg _
  have hdx2 : ((dest % X : Nat) : Int) < (X : Int) := by
    exact_mod_cast Nat.mod_lt _ hX0
  have hsrcn : (X : Int) * ((src / X : Nat) : Int) + ((src % X : Nat) : Int) = (src : Int) := by
    exact_mod_cast Nat.div_add_mod src X
  have hdestn : (X : Int) * ((dest / X : Nat) : Int) + ((dest % X : Nat) : Int) = (dest : Int) := by
    exact_mod_cast Nat.div_add_mod dest X
  have hheadA : (find_path_A X src dest).head? = some (src : Int) := by
    obtain ⟨t, ht⟩ := find_path_x_y_cons X ((src % X : Nat) : Int) ((src / X : Nat) : Int)
      ((dest % X : Nat) : Int) ((dest / X : Nat) : Int)
    rw [find_path_A, ht]
    rw [List.head?_cons, hsrcn]
  have hlastA : (find_path_A X src dest).getLast? = some (dest : Int) := by
    rw [find_path_A, find_path_x_y_last, hdestn]
  have hvalidA : check_valid_path X (find_path_A X src dest) = true := by
    rw [find_path_A]
    apply hop_step_valid
    intro h hm
    rcases find_path_x_y_hops X _ _ _ _ h hm with hH | hV
    · exact Or.inl ⟨_, _, _, hH⟩
    · exact Or.inr ⟨_, _, _, hV⟩
  have key : check_valid_path X (find_path_B X Y src dest) = true ∧
      (find_path_B X Y src dest).head? = some (src : Int) ∧
      (find_path_B X Y src dest).getLast? = some (dest : Int) ∧
      (∀ h ∈ hops (find_path_A X src dest), h ∉ hops (find_path_B X Y src dest)) := by
    by_cases hcol : ((src % X : Nat) : Int) = ((dest % X : Nat) : Int) <;>
      by_cases hrow : ((src / X : Nat) : Int) = ((dest / X : Nat) : Int)
    · exfalso
      apply hne
      have e1 : src % X = dest % X := by exact_mod_cast hcol
      have e2 : src / X = dest / X := by exact_mod_cast hrow
      calc src = X * (src / X) + src % X := (Nat.div_add_mod src X).symm
        _ = X * (dest / X) + dest % X := by rw [e1, e2]
        _ = dest := Nat.div_add_mod dest X
    · -- same column, detour in x
      rw [find_path_B_col X Y src dest hcol hrow]
      set cx' : Int := (if (((src % X : Nat) : Int) ≤ (X : Int) / 2 ∧
            ((src % X : Nat) : Int) > 0) ∨ ((src % X : Nat) : Int) = (X : Int) - 1
        then ((src % X : Nat) : Int) - 1 else ((src % X : Nat) : Int) + 1) with hcxdef
      have hcx' : (cx' = ((src % X : Nat) : Int) - 1 ∨ cx' = ((src % X : Nat) : Int) + 1) ∧
          0 ≤ cx' ∧ cx' < X ∧ cx' ≠ ((src % X : Nat) : Int) := by
        rw [hcxdef]
        split_ifs with hdet
        · exact ⟨Or.inl rfl, by omega, by omega, by omega⟩
        · exact ⟨Or.inr rfl, by omega, by omega, by omega⟩
      obtain ⟨hpm, hb0, hbX, hdiff⟩ := hcx'
      refine ⟨?_, ?_, ?_, ?_⟩
      · apply hop_step_valid
        intro h hm
        obtain ⟨t1, ht1⟩ := find_path_y_x_cons X cx' ((src / X : Nat) : Int)
          ((dest % X : Nat) : Int) ((dest / X : Nat) : Int)
        rw [ht1, hops_cons_cons, ← ht1] at hm
        rcases List.mem_cons.mp hm with h1 | h2
        · subst h1
          refine Or.inl ⟨((src / X : Nat) : Int), min ((src % X : Nat) : Int) cx',
            max ((src % X : Nat) : Int) cx', ((src % X : Nat) : Int), cx',
            by omega, by omega, by omega, by omega, ?_, rfl, rfl⟩
          rcases hpm with h | h
          · exact Or.inr h
          · exact Or.inl h
        · rcases find_path_y_x_hops X cx' _ _ _ h h2 with hV | hH
          · exact Or.inr ⟨_, _, _, hV⟩
          · exact Or.inl ⟨_, _, _, hH⟩
      · rw [List.head?_cons, hsrcn]
      · rw [last?_cons (find_path_y_x_ne_nil X cx' _ _ _), find_path_y_x_last, hdestn]
      · intro h hA
        rw [find_path_A, ← hcol] at hA
        rw [← hcol]
        exact disjoint_case_col hsx1 hsx2 hb0 hbX hdiff h hA
    · -- same row, detour in y
      rw [find_path_B_row X Y src dest hcol hrow]
      set cy' : Int := (if (((src / X : Nat) : Int) ≤ (Y : Int) / 2 ∧
            ((src / X : Nat) : Int) > 0) ∨ ((src / X : Nat) : Int) = (Y : Int) - 1
        then ((src / X : Nat) : Int) - 1 else ((src / X : Nat) : Int) + 1) with hcydef
      have hpm : cy' = ((src / X : Nat) : Int) - 1 ∨ cy' = ((src / X : Nat) : Int) + 1 := by
        rw [hcydef]
        split_ifs with hdet
        · exact Or.inl rfl
        · exact Or.inr rfl
      have hdiff : cy' ≠ ((src / X : Nat) : Int) := by omega
      refine ⟨?_, ?_, ?_, ?_⟩
      · apply hop_step_valid
        intro h hm
        obtain ⟨t1, ht1⟩ := find_path_x_y_cons X ((src % X : Nat) : Int) cy'
          ((dest % X : Nat) : Int) ((dest / X : Nat) : Int)
        rw [ht1, hops_cons_cons, ← ht1] at hm
        rcases List.mem_cons.mp hm with h1 | h2
        · subst h1
          refine Or.inr ⟨((src % X : Nat) : Int), min ((src / X : Nat) : Int) cy',
            max ((src / X : Nat) : Int) cy', ((src / X : Nat) : Int), cy',
            by omega, by omega, by omega, by omega, ?_, rfl, rfl⟩
          rcases hpm with h | h
          · exact Or.inr h
          · exact Or.inl h
        · rcases find_path_x_y_hops X _ cy' _ _ h h2 with hH | hV
          · exact Or.inl ⟨_, _, _, hH⟩
          · exact Or.inr ⟨_, _, _, hV⟩
      · rw [List.head?_cons, hsrcn]
      · rw [last?_cons (find_path_x_y_ne_nil X _ cy' _ _), find_path_x_y_last, hdestn]
      · intro h hA
        rw [find_path_A, ← hrow] at hA
        rw [← hrow]
        exact disjoint_case_row hsx1 hsx2 hdx1 hdx2 hdiff h hA
    · -- different row and column
      rw [find_path_B_diff X Y src dest hcol hrow]
      refine ⟨?_, ?_, ?_, ?_⟩
      · apply hop_step_valid
        intro h hm
        rcases find_path_y_x_hops X _ _ _ _ h hm with hV | hH
        · exact Or.inr ⟨_, _, _, hV⟩
        · exact Or.inl ⟨_, _, _, hH⟩
      · obtain ⟨t, ht⟩ := find_path_y_x_cons X ((src % X : Nat) : Int) ((src / X : Nat) : Int)
          ((dest % X : Nat) : Int) ((dest / X : Nat) : Int)
        rw [ht]
        rw [List.head?_cons, hsrcn]
      · rw [find_path_y_x_last, hdestn]
      · intro h hA
        rw [find_path_A] at hA
        exact disjoint_case_diff hsx1 hsx2 hdx1 hdx2 hcol hrow h hA
  exact ⟨hvalidA, key.1, hheadA, hlastA, key.2.1, key.2.2.1, key.2.2.2⟩


/-- C2 counterexample: in the 1×2 mesh the primary route and the
alternative route from node 0 to node 1 share the directed hop `(0, 1)`,
so the claim (which quantifies over *every* rectangular mesh) fails. -/
theorem C2_counterexample :
    0 < 1 * 2 ∧ 1 < 1 * 2 ∧ (0 : Nat) ≠ 1 ∧
    find_path_A 1 0 1 = [0, 1] ∧ find_path_B 1 2 0 1 = [0, -1, 0, 1] ∧
    (0, 1) ∈ hops (find_path_A 1 0 1) ∧ (0, 1) ∈ hops (find_path_B 1 2 0 1) := by
  have hA : find_path_A 1 0 1 = [0, 1] := by simp [find_path_A, find_path_x_y]
  have hB : find_path_B 1 2 0 1 = [0, -1, 0, 1] := by
    simp [find_path_B, find_path_x_y, find_path_y_x]
  refine ⟨by norm_num, by norm_num, by norm_num, hA, hB, ?_, ?_⟩
  · rw [hA]; decide
  · rw [hB]; decide

/-- Witness for C2 at the 3×3 mesh, source 3, destination 5. -/
theorem C2_amended_witness :
    check_valid_path 3 (find_path_A 3 3 5) = true ∧
    check_valid_path 3 (find_path_B 3 3 3 5) = true ∧
    (find_path_A 3 3 5).head? = some (3 : Int) ∧
    (find_path_A 3 3 5).getLast? = some (5 : Int) ∧
    (find_path_B 3 3 3 5).head? = some (3 : Int) ∧
    (find_path_B 3 3 3 5).getLast? = some (5 : Int) ∧
    ∀ h ∈ hops (find_path_A 3 3 5), h ∉ hops (find_path_B 3 3 3 5) :=
  C2_amended 3 3 3 5 (by norm_num) (by norm_num) (by norm_num) (by norm_num)

/-- Modelled from the spec: the spec's tie-break for the detour step of the
alternative path — "toward the half of the mesh farther from the boundary,
and toward the smaller index when not at a boundary": step inward (`+1`)
at index `0`, inward (`-1`) at index `dim - 1`, and toward the smaller
index (`-1`) at every non-boundary position. -/
def spec_detour_step (dim pos : Int) : Int :=
  if pos = 0 then pos + 1
  else if pos = dim - 1 then pos - 1
  else pos - 1

/-- C8 counterexample: in a 5×2 mesh, nodes 3 and 8 share column 3, which
is in the upper half of the mesh and not at a boundary.  The spec's
tie-break predicts a step toward the smaller index (to node 2), but the
code steps toward the larger index (to node 4). -/
theorem C8_counterexample :
    3 % 5 = 8 % 5 ∧ (3 : Nat) ≠ 8 ∧
    find_path_B 5 2 3 8 = [3, 4, 9, 8] ∧
    (find_path_B 5 2 3 8).get? 1 = some 4 ∧
    (5 * (3 / 5 : Nat) : Int) + spec_detour_step 5 ((3 : Nat) % 5 : Nat) = 2 ∧
    (4 : Int) ≠ 2 := by
  have hB : find_path_B 5 2 3 8 = [3, 4, 9, 8] := by
    simp [find_path_B, find_path_x_y, find_path_y_x]
  refine ⟨by norm_num, by norm_num, hB, ?_, by decide, by norm_num⟩
  rw [hB]; decide

/-- C8 (corrected): for distinct in-mesh nodes sharing a column (resp. a
row), the first hop of `find_path_B` is a detour that steps in x (resp. y)
by `d = ±1`, where `d = -1` exactly when the coordinate is in the lower
half of the mesh but not 0, or at the far boundary — not the tie-break
direction stated in the spec. -/
theorem C8_amended (X Y src dest : Nat) (hX : 0 < X)
    (hs : src < X * Y) (hd : dest < X * Y) (hne : src ≠ dest) :
    (src % X = dest % X →
      ∃ d : Int, (d = -1 ∨ d = 1) ∧
        d = (if (((src % X : Nat) : Int) ≤ (X : Int) / 2 ∧ ((src % X : Nat) : Int) > 0) ∨
            ((src % X : Nat) : Int) = (X : Int) - 1 then -1 else 1) ∧
        (find_path_B X Y src dest).get? 0 =
          some ((X : Int) * ((src / X : Nat) : Int) + ((src % X : Nat) : Int)) ∧
        (find_path_B X Y src dest).get? 1 =
          some ((X : Int) * ((src / X : Nat) : Int) + (((src % X : Nat) : Int) + d))) ∧
    (src / X = dest / X →
      ∃ d : Int, (d = -1 ∨ d = 1) ∧
        d = (if (((src / X : Nat) : Int) ≤ (Y : Int) / 2 ∧ ((src / X : Nat) : Int) > 0) ∨
            ((src / X : Nat) : Int) = (Y : Int) - 1 then -1 else 1) ∧
        (find_path_B X Y src dest).get? 0 =
          some ((X : Int) * ((src / X : Nat) : Int) + ((src % X : Nat) : Int)) ∧
        (find_path_B X Y src dest).get? 1 =
          some ((X : Int) * (((src / X : Nat) : Int) + d) + ((src % X : Nat) : Int))) := by
  constructor
  · intro hcolN
    have hcol : ((src % X : Nat) : Int) = ((dest % X : Nat) : Int) := by exact_mod_cast hcolN
    have hrow : ((src / X : Nat) : Int) ≠ ((dest / X : Nat) : Int) := by
      intro hr
      apply hne
      have e2 : src / X = dest / X := by exact_mod_cast hr
      calc src = X * (src / X) + src % X := (Nat.div_add_mod src X).symm
        _ = X * (dest / X) + dest % X := by rw [hcolN, e2]
        _ = dest := Nat.div_add_mod dest X
    refine ⟨if (((src % X : Nat) : Int) ≤ (X : Int) / 2 ∧ ((src % X : Nat) : Int) > 0) ∨
        ((src % X : Nat) : Int) = (X : Int) - 1 then -1 else 1, ?_, rfl, ?_, ?_⟩
    · split_ifs
      · exact Or.inl rfl
      · exact Or.inr rfl
    · rw [find_path_B_col X Y src dest hcol hrow]
      rfl
    · rw [find_path_B_col X Y src dest hcol hrow]
      obtain ⟨t1, ht1⟩ := find_path_y_x_cons X
        (if (((src % X : Nat) : Int) ≤ (X : Int) / 2 ∧ ((src % X : Nat) : Int) > 0) ∨
            ((src % X : Nat) : Int) = (X : Int) - 1
          then ((src % X : Nat) : Int) - 1 else ((src % X : Nat) : Int) + 1)
        ((src / X : Nat) : Int) ((dest % X : Nat) : Int) ((dest / X : Nat) : Int)
      rw [ht1]
      show some _ = some _
      congr 1
      split_ifs <;> ring
  · intro hrowN
    have hrow : ((src / X : Nat) : Int) = ((dest / X : Nat) : Int) := by exact_mod_cast hrowN
    have hcol : ((src % X : Nat) : Int) ≠ ((dest % X : Nat) : Int) := by
      intro hc
      apply hne
      have e1 : src % X = dest % X := by exact_mod_cast hc
      calc src = X * (src / X) + src % X := (Nat.div_add_mod src X).symm
        _ = X * (dest / X) + dest % X := by rw [e1, hrowN]
        _ = dest := Nat.div_add_mod dest X
    refine ⟨if (((src / X : Nat) : Int) ≤ (Y : Int) / 2 ∧ ((src / X : Nat) : Int) > 0) ∨
        ((src / X : Nat) : Int) = (Y : Int) - 1 then -1 else 1, ?_, rfl, ?_, ?_⟩
    · split_ifs
      · exact Or.inl rfl
      · exact Or.inr rfl
    · rw [find_path_B_row X Y src dest hcol hrow]
      rfl
    · rw [find_path_B_row X Y src dest hcol hrow]
      obtain ⟨t1, ht1⟩ := find_path_x_y_cons X ((src % X : Nat) : Int)
        (if (((src / X : Nat) : Int) ≤ (Y : Int) / 2 ∧ ((src / X : Nat) : Int) > 0) ∨
            ((src / X : Nat) : Int) = (Y : Int) - 1
          then ((src / X : Nat) : Int) - 1 else ((src / X : Nat) : Int) + 1)
        ((dest % X : Nat) : Int) ((dest / X : Nat) : Int)
      rw [ht1]
      show some _ = some _
      congr 1
      split_ifs <;> ring

/-- Witness for C8 at the 3×3 mesh with source 3 and destination 5, which
share row 1. -/
theorem C8_amended_witness :
    (3 % 3 = 5 % 3 →
      ∃ d : Int, (d = -1 ∨ d = 1) ∧
        d = (if (((3 % 3 : Nat) : Int) ≤ (3 : Int) / 2 ∧ ((3 % 3 : Nat) : Int) > 0) ∨
            ((3 % 3 : Nat) : Int) = (3 : Int) - 1 then -1 else 1) ∧
        (find_path_B 3 3 3 5).get? 0 =
          some ((3 : Int) * ((3 / 3 : Nat) : Int) + ((3 % 3 : Nat) : Int)) ∧
        (find_path_B 3 3 3 5).get? 1 =
          some ((3 : Int) * ((3 / 3 : Nat) : Int) + (((3 % 3 : Nat) : Int) + d))) ∧
    (3 / 3 = 5 / 3 →
      ∃ d : Int, (d = -1 ∨ d = 1) ∧
        d = (if (((3 / 3 : Nat) : Int) ≤ (3 : Int) / 2 ∧ ((3 / 3 : Nat) : Int) > 0) ∨
            ((3 / 3 : Nat) : Int) = (3 : Int) - 1 then -1 else 1) ∧
        (find_path_B 3 3 3 5).get? 0 =
          some ((3 : Int) * ((3 / 3 : Nat) : Int) + ((3 % 3 : Nat) : Int)) ∧
        (find_path_B 3 3 3 5).get? 1 =
          some ((3 : Int) * (((3 / 3 : Nat) : Int) + d) + ((3 % 3 : Nat) : Int))) :=
  C8_amended 3 3 3 5 (by norm_num) (by norm_num) (by norm_num) (by norm_num)


/-! ## tdm_util.py -/

/-- `TDMPath`: a single TDM path — route, reserved start slots, link
selector, endpoints and (once attached) back references to its channel.
`path_idx` is `Int` because the source can store the `-1` failure value of
`TDMChannel.add_path` through `assign_channel`. -/
structure TDMPath where
  path : List Int
  slots : List Nat
  link : Nat
  ep_src : Nat
  ep_dest : Nat
  channel : Option Nat
  path_idx : Option Int
deriving DecidableEq

instance : Inhabited TDMPath := ⟨⟨[], [], 0, 0, 0, none, none⟩⟩

/-- `TDMPath.__init__` (channel/path_idx start as `None`). -/
def TDMPath.init (path : List Int) (slots : List Nat) (link ep_src ep_dest : Nat) : TDMPath :=
  ⟨path, slots, link, ep_src, ep_dest, none, none⟩

def TDMPath.assign_channel (p : TDMPath) (chid : Nat) (path_idx : Int) : TDMPath :=
  { p with channel := some chid, path_idx := some path_idx }

/-- `TDMPath.valid_alternative_path`: same endpoints, same number of
slots, different link, same start/end node, and no shared directed hop. -/
def TDMPath.valid_alternative_path (self tdm_path : TDMPath) : Bool :=
  if self.slots.length ≠ tdm_path.slots.length ∨
      self.link = tdm_path.link ∨
      self.ep_src ≠ tdm_path.ep_src ∨
      self.ep_dest ≠ tdm_path.ep_dest ∨
      self.path.headI ≠ tdm_path.path.headI ∨
      self.path.getLastI ≠ tdm_path.path.getLastI then
    false
  else
    !((List.range (self.path.length - 1)).any fun hop_self =>
        (List.range (tdm_path.path.length - 1)).any fun hop_other =>
          (self.path.getD hop_self 0 == tdm_path.path.getD hop_other 0) &&
          (self.path.getD (hop_self + 1) 0 == tdm_path.path.getD (hop_other + 1) 0))

/-- Read slot `i` (0 or 1) of a two-slot pair (Python `lst[i]` on a
two-element list). -/
def getPair (pr : Option α × Option α) (i : Nat) : Option α :=
  if i = 0 then pr.1 else pr.2

/-- Write slot `i` (0 or 1) of a two-slot pair. -/
def setPair (pr : Option α × Option α) (i : Nat) (v : Option α) : Option α × Option α :=
  if i = 0 then (v, pr.2) else (pr.1, v)

/-- `TDMChannel`: up to two protected paths between fixed endpoints.
The two-element Python lists `paths`/`pids`/`errors` are pairs; `errors`
entries can be `False`/`True`/`None` in the source, hence `Option Bool`. -/
structure TDMChannel where
  paths : Option TDMPath × Option TDMPath
  pids : Option Nat × Option Nat
  errors : Option Bool × Option Bool
  src : Nat
  dest : Nat
  ep_src : Nat
  ep_dest : Nat
  numslots : Nat
deriving DecidableEq

/-- `TDMChannel.__init__`. -/
def TDMChannel.init (src dest ep_src ep_dest numslots : Nat) : TDMChannel :=
  ⟨(none, none), (none, none), (some false, some false), src, dest, ep_src, ep_dest, numslots⟩

/-- `TDMChannel._check_valid_path_parameters`. -/
def TDMChannel.check_valid_path_parameters (self : TDMChannel) (path : TDMPath) : Bool :=
  !(path.path.headI ≠ (self.src : Int) ∨
    path.path.getLastI ≠ (self.dest : Int) ∨
    path.ep_src ≠ self.ep_src ∨
    path.ep_dest ≠ self.ep_dest ∨
    path.slots.length ≠ self.numslots)

/-- `TDMChannel.add_path`: returns the index of the added path, or `-1`,
together with the updated channel. -/
def TDMChannel.add_path (self : TDMChannel) (path : TDMPath) (pid : Nat) : Int × TDMChannel :=
  if self.check_valid_path_parameters path then
    if self.paths.1 = none then
      (0, { self with paths := (some path, self.paths.2),
                      pids := (some pid, self.pids.2),
                      errors := (none, self.errors.2) })
    else if self.paths.2 = none then
      (1, { self with paths := (self.paths.1, some path),
                      pids := (self.pids.1, some pid),
                      errors := (self.errors.1, none) })
    else (-1, self)
  else (-1, self)

/-- `TDMChannel.clear_path`: returns the detached pid and the updated
channel. -/
def TDMChannel.clear_path (self : TDMChannel) (path_idx : Nat) : Option Nat × TDMChannel :=
  (getPair self.pids path_idx,
   { self with paths := setPair self.paths path_idx none,
               pids := setPair self.pids path_idx none,
               errors := setPair self.errors path_idx none })

def TDMChannel.get_free_path_idx (self : TDMChannel) : Int :=
  if self.paths.1 = none then 0
  else if self.paths.2 = none then 1
  else -1

/-- `TDMinfo`: per-node endpoint allocation (`nodes`) and the local mirror
of all slot tables (`table_config`).  The Python nested lists of fixed
shape (`x_dim*y_dim` nodes, router/NI, 6 resp. 4 ports, `slot_table_size`
slots) are modelled as total functions; entries outside the allocated
shape are never read by in-range executions. -/
structure TDMinfo where
  x_dim : Nat
  y_dim : Nat
  num_ep : Int → Nat
  slot_table_size : Nat
  nodes : Int → Nat → Option Nat × Option Nat
  table_config : Int → Bool → Nat → Nat → Nat × Option Nat

/-- `TDMinfo.__init__` / `_initialize_variables`: every endpoint free and
every slot-table entry `(EMPTY, None)`. -/
def TDMinfo.init (x_dim y_dim : Nat) (num_ep : Int → Nat) (slot_table_size : Nat) : TDMinfo :=
  { x_dim := x_dim, y_dim := y_dim, num_ep := num_ep, slot_table_size := slot_table_size,
    nodes := fun _ _ => (none, none),
    table_config := fun _ _ _ _ => (EMPTY, none) }

/-- `TDMinfo.reset`. -/
def TDMinfo.reset (s : TDMinfo) : TDMinfo :=
  { s with nodes := fun _ _ => (none, none),
           table_config := fun _ _ _ _ => (EMPTY, none) }

/-- `TDMinfo.set_table_entry`. -/
def TDMinfo.set_table_entry (s : TDMinfo) (node : Int) (ni : Bool) (port slot config : Nat)
    (pid : Option Nat) : TDMinfo :=
  { s with table_config := fun n b p sl =>
      if n = node ∧ b = ni ∧ p = port ∧ sl = slot then (config, pid)
      else s.table_config n b p sl }

/-- `TDMinfo.get_free_ep`: first endpoint free in the requested direction
(`-1` in the source becomes `none`). -/
def TDMinfo.get_free_ep (s : TDMinfo) (node : Int) (out : Bool) : Option Nat :=
  (List.range (s.num_ep node)).find? fun ep =>
    (if out then (s.nodes node ep).1 else (s.nodes node ep).2).isNone

/-- `TDMinfo.assign_ep`: claim an outbound endpoint at the source and an
inbound endpoint at the destination, if both are free. -/
def TDMinfo.assign_ep (s : TDMinfo) (src dest : Int) (ep_src ep_dest : Nat) (chid : Nat) :
    Bool × TDMinfo :=
  if (s.nodes src ep_src).1 = none ∧ (s.nodes dest ep_dest).2 = none then
    (true, { s with nodes := fun n e =>
      let v := s.nodes n e
      let v := if n = src ∧ e = ep_src then (some chid, v.2) else v
      if n = dest ∧ e = ep_dest then (v.1, some chid) else v })
  else (false, s)

/-- Router output port towards the next node
(north = 0, east = 1, south = 2, west = 3). -/
def out_port (X : Int) (c_node n_node : Int) : Nat :=
  if c_node - X = n_node then 0
  else if c_node + 1 = n_node then 1
  else if c_node + X = n_node then 2
  else 3

/-- The slot-walking loop of `TDMinfo.check_path`: for each hop check the
router output port (the final hop uses the NI drop port `link + 4`), the
slot index advancing by `(slot + 1) % slot_table_size`; after the last hop
check the NI ingress port `link + 2`. -/
def check_path_go (s : TDMinfo) (link : Nat) : List Int → Nat → Bool
  | [], _ => true
  | [n], slot =>
      ((s.table_config n false (link + 4) slot).1 == EMPTY) &&
      ((s.table_config n true (link + 2) ((slot + 1) % s.slot_table_size)).1 == EMPTY)
  | a :: b :: rest, slot =>
      ((s.table_config a false (out_port s.x_dim a b) slot).1 == EMPTY) &&
      check_path_go s link (b :: rest) ((slot + 1) % s.slot_table_size)

/-- `TDMinfo.check_path`: NI egress at the head node, sanity checks, the
hop loop and the final NI ingress check.  The Python loop exits early once
`free` is false; the overall boolean value equals this conjunction. -/
def TDMinfo.check_path (s : TDMinfo) (path : List Int) (start_slot link ep_src ep_dest : Nat) :
    Bool :=
  ((s.table_config path.headI true link start_slot).1 == EMPTY) &&
  (check_valid_path s.x_dim path &&
    decide (ep_src < s.num_ep path.headI) &&
    decide (ep_dest < s.num_ep path.getLastI) &&
    decide (link ≤ 1) &&
    decide (start_slot < s.slot_table_size)) &&
  check_path_go s link path start_slot

/-- The scan loop of `TDMinfo.get_free_slots`: collect free start slots in
ascending order, returning as soon as `numslots` are found. -/
def get_free_slots_go (s : TDMinfo) (path : List Int) (ep_src ep_dest link numslots : Nat) :
    List Nat → List Nat → List Nat
  | [], _ => []
  | slot :: rest, acc =>
      let acc' := if s.check_path path slot link ep_src ep_dest then acc ++ [slot] else acc
      if acc'.length = numslots then acc'
      else get_free_slots_go s path ep_src ep_dest link numslots rest acc'

/-- `TDMinfo.get_free_slots`. -/
def TDMinfo.get_free_slots (s : TDMinfo) (path : List Int) (ep_src ep_dest link numslots : Nat) :
    List Nat :=
  get_free_slots_go s path ep_src ep_dest link numslots (List.range s.slot_table_size) []


/-! ## ctrl_mod_cl.py -/

/-- A hardware-facing configuration command emitted over the debug
interconnect (`event_send` in the source). -/
inductive Cmd where
  | slotCfg (node : Int) (ni : Bool) (port slot config : Nat) (pid : Option Nat)
  | epLink (node : Int) (ep link : Nat) (enable : Bool)
deriving DecidableEq

/-- One slot-table write (arguments of `_configure_slot_table`). -/
structure Write where
  node : Int
  ni : Bool
  port : Nat
  slot : Nat
  config : Nat
  pid : Option Nat
deriving DecidableEq

/-- Host-side state of `CtrlModClient`: mesh/table parameters, the
`TDMinfo` mirror, the two id counters, both id-keyed dictionaries and the
log of emitted configuration commands. -/
structure CtrlModClient where
  x_dim : Nat
  y_dim : Nat
  slot_table_size : Nat
  tdm_info : TDMinfo
  nxt_pid : Nat
  tdm_paths : Nat → Option TDMPath
  nxt_chid : Nat
  tdm_channels : Nat → Option TDMChannel
  sent : List Cmd

/-- Fresh client over an empty mirror (post `set_num_tdm_ep`). -/
def CtrlModClient.init (x_dim y_dim : Nat) (num_ep : Int → Nat) (slot_table_size : Nat) :
    CtrlModClient :=
  { x_dim := x_dim, y_dim := y_dim, slot_table_size := slot_table_size,
    tdm_info := TDMinfo.init x_dim y_dim num_ep slot_table_size,
    nxt_pid := 0, tdm_paths := fun _ => none,
    nxt_chid := 0, tdm_channels := fun _ => none, sent := [] }

/-- `_configure_slot_table`: emit the command and mirror the write into
`tdm_info`. -/
def CtrlModClient.configure_slot_table (c : CtrlModClient) (node : Int)
    (port slot config : Nat) (pid : Option Nat) (ni : Bool) : CtrlModClient :=
  { c with sent := c.sent ++ [Cmd.slotCfg node ni port slot config pid],
           tdm_info := c.tdm_info.set_table_entry node ni port slot config pid }

/-- `_configure_ep_link`: emit the link enable/disable command. -/
def CtrlModClient.configure_ep_link (c : CtrlModClient) (node : Int) (ep link : Nat)
    (enable : Bool) : CtrlModClient :=
  { c with sent := c.sent ++ [Cmd.epLink node ep link enable] }

/-- The input port a flit arrives on after leaving through `out_port`
(the `in_port` update at the end of the hop loop). -/
def flip_port (op : Nat) : Nat :=
  if op = 2 then 0 else if op = 3 then 1 else if op = 0 then 2 else 3

/-- The router writes of the hop loop shared by `_configure_tdm_path` and
`_clear_tdm_path` (which differ only in the written config (`cfgOf`) and
owner pid), together with the slot index after the final hop.  The final
hop writes to the NI drop port `link + 4`. -/
def hop_writes (X : Int) (st link : Nat) (cfgOf : Nat → Nat) (pid : Option Nat) :
    List Int → Nat → Nat → List Write × Nat
  | [], slot, _ => ([], slot)
  | [n], slot, in_port => ([⟨n, false, link + 4, slot, cfgOf in_port, pid⟩], (slot + 1) % st)
  | a :: b :: rest, slot, in_port =>
      let op := out_port X a b
      let pr := hop_writes X st link cfgOf pid (b :: rest) ((slot + 1) % st) (flip_port op)
      (⟨a, false, op, slot, cfgOf in_port, pid⟩ :: pr.1, pr.2)

/-- All writes for one start slot: NI egress entry at the source, the hop
loop, then the NI ingress entry at the destination at the rotated slot. -/
def slot_writes (X : Int) (st link : Nat) (cfgOf : Nat → Nat) (cfg_src cfg_dest : Nat)
    (pid : Option Nat) (path : List Int) (slot : Nat) : List Write :=
  let pr := hop_writes X st link cfgOf pid path slot (link + 4)
  ⟨path.headI, true, link, slot, cfg_src, pid⟩ ::
    (pr.1 ++ [⟨path.getLastI, true, link + 2, pr.2, cfg_dest, pid⟩])

/-- All writes of a path configuration / clearing, one group per start
slot, in source order. -/
def path_writes (X : Int) (st link : Nat) (cfgOf : Nat → Nat) (cfg_src cfg_dest : Nat)
    (pid : Option Nat) (path : List Int) (slots : List Nat) : List Write :=
  slots.flatMap (slot_writes X st link cfgOf cfg_src cfg_dest pid path)

/-- Issue a list of slot-table writes in order. -/
def apply_writes (c : CtrlModClient) (ws : List Write) : CtrlModClient :=
  ws.foldl (fun c w => c.configure_slot_table w.node w.port w.slot w.config w.pid w.ni) c

/-- `_configure_tdm_path`: allocate the next pid, record the path, write
every slot-table entry of the path for every start slot (router entries
carry the incoming port as config, the two NI entries carry the endpoint
indices), then enable the source NI link. -/
def CtrlModClient.configure_tdm_path (c : CtrlModClient) (path : List Int)
    (start_slots : List Nat) (ep_src ep_dest link : Nat) : Nat × CtrlModClient :=
  let pid := c.nxt_pid
  let c1 := { c with
    tdm_paths := fun k => if k = pid then some (TDMPath.init path start_slots link ep_src ep_dest)
      else c.tdm_paths k,
    nxt_pid := pid + 1 }
  let c2 := apply_writes c1
    (path_writes c.x_dim c.slot_table_size link id ep_src ep_dest (some pid) path start_slots)
  let c3 := c2.configure_ep_link path.headI ep_src link true
  (pid, c3)

/-- `_clear_tdm_path`: disable the source link, overwrite every slot-table
entry of the path with `(EMPTY, None)`, then drop the path record. -/
def CtrlModClient.clear_tdm_path (c : CtrlModClient) (pid : Nat) : Bool × CtrlModClient :=
  match c.tdm_paths pid with
  | none => (false, c)
  | some p =>
      let c1 := c.configure_ep_link p.path.headI p.ep_src p.link false
      let c2 := apply_writes c1
        (path_writes c.x_dim c.slot_table_size p.link (fun _ => EMPTY) EMPTY EMPTY none
          p.path p.slots)
      (true, { c2 with tdm_paths := fun k => if k = pid then none else c2.tdm_paths k })

/-- `_clear_tdm_path` on a possibly-`None` pid (`pid not in self.tdm_paths`
is true for `None`, so nothing happens). -/
def CtrlModClient.clear_tdm_path_opt (c : CtrlModClient) : Option Nat → CtrlModClient
  | none => c
  | some pid => (c.clear_tdm_path pid).2

/-- The channel/path cross-linking at the end of `create_tdm_channel`:
`path_idx = channel.add_path(tdm_paths[pid], pid)` followed by
`tdm_paths[pid].assign_channel(chid, path_idx)`. -/
def CtrlModClient.add_auto_path (c : CtrlModClient) (chid pid : Nat) : CtrlModClient :=
  match c.tdm_channels chid, c.tdm_paths pid with
  | some ch, some p =>
      let r := ch.add_path p pid
      { c with
        tdm_channels := fun k => if k = chid then some r.2 else c.tdm_channels k,
        tdm_paths := fun k => if k = pid then some (p.assign_channel chid r.1)
          else c.tdm_paths k }
  | _, _ => c

/-- `create_tdm_channel`: reserve endpoints, search both auto paths, fail
with `-1`/`-2` without any side effect, otherwise configure both paths,
create the channel, claim the endpoints and attach the paths. -/
def CtrlModClient.create_tdm_channel (c : CtrlModClient) (src dest : Nat)
    (numslots : Nat) (autopaths : Bool) : Int × CtrlModClient :=
  match c.tdm_info.get_free_ep src true, c.tdm_info.get_free_ep dest false with
  | some ep_src, some ep_dest =>
      if autopaths then
        let path_A := find_path_A c.x_dim src dest
        let path_B := find_path_B c.x_dim c.y_dim src dest
        let start_slots_A := c.tdm_info.get_free_slots path_A ep_src ep_dest 0 numslots
        let start_slots_B := c.tdm_info.get_free_slots path_B ep_src ep_dest 1 numslots
        if start_slots_A.length = 0 ∨ start_slots_B.length = 0 then (-2, c)
        else
          let rA := c.configure_tdm_path path_A start_slots_A ep_src ep_dest 0
          let rB := rA.2.configure_tdm_path path_B start_slots_B ep_src ep_dest 1
          let c2 := rB.2
          let chid := c2.nxt_chid
          let c3 := { c2 with
            tdm_channels := fun k =>
              if k = chid then some (TDMChannel.init src dest ep_src ep_dest numslots)
              else c2.tdm_channels k }
          let c4 := { c3 with
            tdm_info := (c3.tdm_info.assign_ep src dest ep_src ep_dest chid).2,
            nxt_chid := chid + 1 }
          let c5 := c4.add_auto_path chid rA.1
          let c6 := c5.add_auto_path chid rB.1
          ((chid : Int), c6)
      else
        let chid := c.nxt_chid
        let c3 := { c with
          tdm_channels := fun k =>
            if k = chid then some (TDMChannel.init src dest ep_src ep_dest numslots)
            else c.tdm_channels k }
        let c4 := { c3 with
          tdm_info := (c3.tdm_info.assign_ep src dest ep_src ep_dest chid).2,
          nxt_chid := chid + 1 }
        ((chid : Int), c4)
  | _, _ => (-1, c)

/-- `delete_tdm_channel`: clear both attached paths (index 0 then 1), then
drop the channel record.  A missing channel id is a no-op. -/
def CtrlModClient.delete_tdm_channel (c : CtrlModClient) (chid : Nat) : CtrlModClient :=
  match c.tdm_channels chid with
  | none => c
  | some ch =>
      let c1 := c.clear_tdm_path_opt ch.pids.1
      let c2 := c1.clear_tdm_path_opt ch.pids.2
      { c2 with tdm_channels := fun k => if k = chid then none else c2.tdm_channels k }

/-- The disjointness re-validation of `add_path_to_channel`: if the other
path slot holds a pid, validate the freshly stored path against it. -/
def CtrlModClient.disjoint_check (c1 : CtrlModClient) (ch : TDMChannel)
    (path_idx pid : Nat) : Bool :=
  match getPair ch.pids ((path_idx + 1) % 2) with
  | none => true
  | some pid_alt =>
      match c1.tdm_paths pid_alt, c1.tdm_paths pid with
      | some palt, some pnew => palt.valid_alternative_path pnew
      | _, _ => true

/-- `self.tdm_channels[chid].add_path(self.tdm_paths[pid], pid)`: mutate
the channel in the dictionary and hand back `add_path`'s return value. -/
def CtrlModClient.attach_new_path (c1 : CtrlModClient) (chid pid : Nat) :
    Int × CtrlModClient :=
  match c1.tdm_channels chid, c1.tdm_paths pid with
  | some ch1, some pnew =>
      let r := ch1.add_path pnew pid
      (r.1, { c1 with
        tdm_channels := fun k => if k = chid then some r.2 else c1.tdm_channels k })
  | _, _ => (-1, c1)

/-- The tail of `add_path_to_channel` after the new path has been
configured with fresh pid `pid`: check disjointness against the other
path (if present), attach the path to the channel, and on any failure
unwind the just-written configuration with `_clear_tdm_path`. -/
def CtrlModClient.add_path_finish (c1 : CtrlModClient) (ch : TDMChannel)
    (chid path_idx pid : Nat) : Nat × CtrlModClient :=
  if c1.disjoint_check ch path_idx pid then
    if (c1.attach_new_path chid pid).1 < 0 then
      (2, ((c1.attach_new_path chid pid).2.clear_tdm_path pid).2)
    else (0, (c1.attach_new_path chid pid).2)
  else (1, (c1.clear_tdm_path pid).2)

/-- `add_path_to_channel`: returns the source's retval
(0 = ok, 1 = overlap with the other path, 2 = could not configure) and the
new state.  A `chid` not in the dictionary raises `KeyError` in the
source; such calls are modelled as rejected without mutation. -/
def CtrlModClient.add_path_to_channel (c : CtrlModClient) (chid path_idx : Nat)
    (path : List Int) : Nat × CtrlModClient :=
  match c.tdm_channels chid with
  | none => (2, c)
  | some ch =>
      if getPair ch.paths path_idx = none then
        let start_slots := c.tdm_info.get_free_slots path ch.ep_src ch.ep_dest path_idx
          ch.numslots
        if 0 < start_slots.length then
          let res := c.configure_tdm_path path start_slots ch.ep_src ch.ep_dest path_idx
          res.2.add_path_finish ch chid path_idx res.1
        else (2, c)
      else (2, c)

/-- `remove_path_from_channel`: detach the path at `path_idx` and clear
it.  A missing channel id raises in the source and is modelled as a
no-op. -/
def CtrlModClient.remove_path_from_channel (c : CtrlModClient) (chid path_idx : Nat) :
    CtrlModClient :=
  match c.tdm_channels chid with
  | none => c
  | some ch =>
      let r := ch.clear_path path_idx
      let c1 := { c with tdm_channels := fun k => if k = chid then some r.2
        else c.tdm_channels k }
      c1.clear_tdm_path_opt r.1


/-! ### get_free_slots: all-or-nothing scan (C7) -/

theorem get_free_slots_go_zero (s : TDMinfo) (path : List Int) (es ed link : Nat) :
    ∀ (l acc : List Nat), get_free_slots_go s path es ed link 0 l acc = [] := by
  intro l
  induction l with
  | nil => intro acc; rfl
  | cons a rest ih =>
      intro acc
      rw [get_free_slots_go]
      split_ifs with h1 h2 h3
      · exact List.length_eq_zero.mp h2
      · exact ih _
      · exact List.length_eq_zero.mp h3
      · exact ih _

theorem get_free_slots_go_spec (s : TDMinfo) (path : List Int) (es ed link k : Nat)
    (hk : 0 < k) :
    ∀ (l acc : List Nat), acc.length < k →
      get_free_slots_go s path es ed link k l acc =
        (if k ≤ acc.length + (l.filter fun sl => s.check_path path sl link es ed).length
         then acc ++ (l.filter fun sl => s.check_path path sl link es ed).take (k - acc.length)
         else []) := by
  intro l
  induction l with
  | nil =>
      intro acc hacc
      rw [show get_free_slots_go s path es ed link k [] acc = [] from rfl]
      rw [if_neg (by simp; omega)]
  | cons a rest ih =>
      intro acc hacc
      rw [get_free_slots_go]
      by_cases hca : s.check_path path a link es ed = true
      · simp only [hca, if_true]
        by_cases heq : (acc ++ [a]).length = k
        · rw [if_pos heq]
          have hflt : (a :: rest).filter (fun sl => s.check_path path sl link es ed) =
              a :: rest.filter (fun sl => s.check_path path sl link es ed) := by
            simp [List.filter_cons, hca]
          rw [hflt]
          rw [if_pos (by simp at heq ⊢; omega)]
          have h1 : k - acc.length = acc.length + 1 - acc.length := by simp at heq; omega
          rw [h1]
          have h2 : acc.length + 1 - acc.length = 1 := by omega
          rw [h2]
          simp
        · rw [if_neg heq]
          have hlt : (acc ++ [a]).length < k := by
            simp at heq ⊢
            omega
          rw [ih (acc ++ [a]) hlt]
          have hflt : (a :: rest).filter (fun sl => s.check_path path sl link es ed) =
              a :: rest.filter (fun sl => s.check_path path sl link es ed) := by
            simp [List.filter_cons, hca]
          rw [hflt]
          by_cases hc2 : k ≤ acc.length + 1 +
              (rest.filter fun sl => s.check_path path sl link es ed).length
          · rw [if_pos (by simp; omega), if_pos (by simp; omega)]
            have h3 : k - acc.length = (k - (acc.length + 1)) + 1 := by omega
            rw [h3, List.take_succ_cons]
            simp
          · rw [if_neg (by simp; omega), if_neg (by simp; omega)]
      · simp only [hca, Bool.false_eq_true, if_false]
        have hne : ¬acc.length = k := by omega
        rw [if_neg hne]
        rw [ih acc hacc]
        have hflt : (a :: rest).filter (fun sl => s.check_path path sl link es ed) =
            rest.filter (fun sl => s.check_path path sl link es ed) := by
          simp [List.filter_cons, hca]
        rw [hflt]

/-- Closed form of `get_free_slots`: the first `numslots` elements of the
ascending list of free start slots, or `[]` if there are fewer. -/
theorem get_free_slots_eq (s : TDMinfo) (path : List Int) (es ed link k : Nat) :
    s.get_free_slots path es ed link k =
      (if k ≤ ((List.range s.slot_table_size).filter
          fun sl => s.check_path path sl link es ed).length
       then ((List.range s.slot_table_size).filter
          fun sl => s.check_path path sl link es ed).take k
       else []) := by
  rcases Nat.eq_zero_or_pos k with hk | hk
  · subst hk
    rw [TDMinfo.get_free_slots, get_free_slots_go_zero]
    rw [if_pos (Nat.zero_le _)]
    simp
  · rw [TDMinfo.get_free_slots, get_free_slots_go_spec s path es ed link k hk _ _ (by simp [hk])]
    simp


/-- C7: `get_free_slots` scans start slots in ascending order and returns
either exactly `numslots` distinct start slots, each satisfying
`check_path`, or the empty list when fewer than `numslots` free start
slots exist — never a non-empty list shorter than `numslots`. -/
theorem C7_get_free_slots_all_or_nothing (s : TDMinfo) (path : List Int)
    (ep_src ep_dest link numslots : Nat) :
    (s.get_free_slots path ep_src ep_dest link numslots = [] ∨
      ((s.get_free_slots path ep_src ep_dest link numslots).length = numslots ∧
       (s.get_free_slots path ep_src ep_dest link numslots).Pairwise (· < ·) ∧
       ∀ sl ∈ s.get_free_slots path ep_src ep_dest link numslots,
         s.check_path path sl link ep_src ep_dest = true)) ∧
    (((List.range s.slot_table_size).filter
        fun sl => s.check_path path sl link ep_src ep_dest).length < numslots →
      s.get_free_slots path ep_src ep_dest link numslots = []) ∧
    (numslots ≤ ((List.range s.slot_table_size).filter
        fun sl => s.check_path path sl link ep_src ep_dest).length →
      s.get_free_slots path ep_src ep_dest link numslots =
        ((List.range s.slot_table_size).filter
          fun sl => s.check_path path sl link ep_src ep_dest).take numslots) := by
  rw [get_free_slots_eq]
  by_cases hc : numslots ≤ ((List.range s.slot_table_size).filter
      fun sl => s.check_path path sl link ep_src ep_dest).length
  · rw [if_pos hc]
    refine ⟨Or.inr ⟨?_, ?_, ?_⟩, fun hlt => absurd hlt (by omega), fun _ => rfl⟩
    · rw [List.length_take]; omega
    · exact List.Pairwise.sublist (List.take_sublist _ _)
        ((List.pairwise_lt_range s.slot_table_size).filter _)
    · intro sl hsl
      have h1 := List.take_subset numslots _ hsl
      exact (List.mem_filter.mp h1).2
  · rw [if_neg hc]
    exact ⟨Or.inl rfl, fun _ => rfl, fun h => absurd h hc⟩

/-! ### C9: the queries do not mutate the store -/

/-- State-passing translation of the hop loop of `check_path`: the
`TDMinfo` (`self`) is threaded through every iteration. -/
def check_path_go_st (link : Nat) : List Int → Nat → TDMinfo → Bool × TDMinfo
  | [], _, s => (true, s)
  | [n], slot, s =>
      (((s.table_config n false (link + 4) slot).1 == EMPTY) &&
       ((s.table_config n true (link + 2) ((slot + 1) % s.slot_table_size)).1 == EMPTY), s)
  | a :: b :: rest, slot, s =>
      let first := (s.table_config a false (out_port s.x_dim a b) slot).1 == EMPTY
      let r := check_path_go_st link (b :: rest) ((slot + 1) % s.slot_table_size) s
      (first && r.1, r.2)

/-- State-passing translation of `TDMinfo.check_path`. -/
def TDMinfo.check_path_st (s : TDMinfo) (path : List Int) (start_slot link ep_src ep_dest : Nat) :
    Bool × TDMinfo :=
  let r := check_path_go_st link path start_slot s
  (((s.table_config path.headI true link start_slot).1 == EMPTY) &&
    (check_valid_path s.x_dim path &&
      decide (ep_src < s.num_ep path.headI) &&
      decide (ep_dest < s.num_ep path.getLastI) &&
      decide (link ≤ 1) &&
      decide (start_slot < s.slot_table_size)) &&
    r.1, r.2)

/-- State-passing translation of the scan loop of `get_free_slots`. -/
def get_free_slots_go_st (path : List Int) (es ed link k : Nat) :
    List Nat → List Nat → TDMinfo → List Nat × TDMinfo
  | [], _, s => ([], s)
  | slot :: rest, acc, s =>
      let cp := s.check_path_st path slot link es ed
      let acc' := if cp.1 then acc ++ [slot] else acc
      if acc'.length = k then (acc', cp.2)
      else get_free_slots_go_st path es ed link k rest acc' cp.2

/-- State-passing translation of `TDMinfo.get_free_slots`. -/
def TDMinfo.get_free_slots_st (s : TDMinfo) (path : List Int) (es ed link k : Nat) :
    List Nat × TDMinfo :=
  get_free_slots_go_st path es ed link k (List.range s.slot_table_size) [] s

theorem check_path_go_st_pure (link : Nat) (path : List Int) (slot : Nat) (s : TDMinfo) :
    check_path_go_st link path slot s = (check_path_go s link path slot, s) := by
  induction path generalizing slot with
  | nil => rfl
  | cons a rest ih =>
      cases rest with
      | nil => rfl
      | cons b t =>
          rw [check_path_go_st, check_path_go, ih]

theorem get_free_slots_go_st_pure (path : List Int) (es ed link k : Nat)
    (l acc : List Nat) (s : TDMinfo) :
    get_free_slots_go_st path es ed link k l acc s =
      (get_free_slots_go s path es ed link k l acc, s) := by
  induction l generalizing acc with
  | nil => rfl
  | cons slot rest ih =>
      rw [get_free_slots_go_st, get_free_slots_go]
      rw [show s.check_path_st path slot link es ed =
        (s.check_path path slot link es ed, s) by
          rw [TDMinfo.check_path_st, check_path_go_st_pure, TDMinfo.check_path]]
      by_cases hc : s.check_path path slot link es ed = true
      · simp only [hc, if_true]
        by_cases h2 : (acc ++ [slot]).length = k
        · rw [if_pos h2, if_pos h2]
        · rw [if_neg h2, if_neg h2, ih]
      · simp only [hc, Bool.false_eq_true, if_false]
        by_cases h2 : acc.length = k
        · rw [if_pos h2, if_pos h2]
        · rw [if_neg h2, if_neg h2, ih]

/-- C9: `check_path` and `get_free_slots` are pure queries — the threaded
store comes back exactly unchanged and the returned values coincide with
the pure definitions — while `set_table_entry` rewrites exactly the
addressed table entry (and no endpoint), and `assign_ep` rewrites only the
two addressed endpoint cells (and no table entry). -/
theorem C9_queries_pure (s : TDMinfo) (path : List Int)
    (start_slot link ep_src ep_dest k : Nat) :
    (s.check_path_st path start_slot link ep_src ep_dest).2 = s ∧
    (s.check_path_st path start_slot link ep_src ep_dest).1 =
      s.check_path path start_slot link ep_src ep_dest ∧
    (s.get_free_slots_st path ep_src ep_dest link k).2 = s ∧
    (s.get_free_slots_st path ep_src ep_dest link k).1 =
      s.get_free_slots path ep_src ep_dest link k ∧
    (∀ (node : Int) (ni : Bool) (port slot config : Nat) (pid : Option Nat),
      (s.set_table_entry node ni port slot config pid).nodes = s.nodes ∧
      (s.set_table_entry node ni port slot config pid).table_config node ni port slot =
        (config, pid) ∧
      ∀ (n : Int) (b : Bool) (p sl : Nat), ¬(n = node ∧ b = ni ∧ p = port ∧ sl = slot) →
        (s.set_table_entry node ni port slot config pid).table_config n b p sl =
          s.table_config n b p sl) ∧
    (∀ (src dest : Int) (es ed chid : Nat),
      (s.assign_ep src dest es ed chid).2.table_config = s.table_config ∧
      ∀ (n : Int) (e : Nat), ¬(n = src ∧ e = es) → ¬(n = dest ∧ e = ed) →
        (s.assign_ep src dest es ed chid).2.nodes n e = s.nodes n e) := by
  refine ⟨?_, ?_, ?_, ?_, ?_, ?_⟩
  · rw [TDMinfo.check_path_st, check_path_go_st_pure]
  · rw [TDMinfo.check_path_st, check_path_go_st_pure, TDMinfo.check_path]
  · rw [TDMinfo.get_free_slots_st, get_free_slots_go_st_pure]
  · rw [TDMinfo.get_free_slots_st, get_free_slots_go_st_pure, TDMinfo.get_free_slots]
  · intro node ni port slot config pid
    refine ⟨rfl, ?_, ?_⟩
    · rw [TDMinfo.set_table_entry]
      simp
    · intro n b p sl hne
      rw [TDMinfo.set_table_entry]
      simp only [if_neg hne]
  · intro src dest es ed chid
    rw [TDMinfo.assign_ep]
    split_ifs with h
    · refine ⟨rfl, ?_⟩
      intro n e h1 h2
      simp only [if_neg h1, if_neg h2]
    · exact ⟨rfl, fun n e h1 h2 => rfl⟩

/-- C4: with `autopaths=True`, `create_tdm_channel` either fails with `-1`
because an endpoint is missing, or with `-2` because a free-slot search
came back empty — in both cases returning the state entirely unchanged —
or succeeds with a non-negative channel id. -/
theorem C4_create_fails_atomically (c : CtrlModClient) (src dest numslots : Nat) :
    (c.create_tdm_channel src dest numslots true = (-1, c) ∧
      (c.tdm_info.get_free_ep src true = none ∨ c.tdm_info.get_free_ep dest false = none)) ∨
    (c.create_tdm_channel src dest numslots true = (-2, c) ∧
      ∃ ep_src ep_dest,
        c.tdm_info.get_free_ep src true = some ep_src ∧
        c.tdm_info.get_free_ep dest false = some ep_dest ∧
        (c.tdm_info.get_free_slots (find_path_A c.x_dim src dest) ep_src ep_dest 0 numslots = [] ∨
         c.tdm_info.get_free_slots (find_path_B c.x_dim c.y_dim src dest) ep_src ep_dest 1
            numslots = [])) ∨
    0 ≤ (c.create_tdm_channel src dest numslots true).1 := by
  rcases h1 : c.tdm_info.get_free_ep src true with _ | es
  · left
    constructor
    · rw [CtrlModClient.create_tdm_channel, h1]
    · exact Or.inl rfl
  · rcases h2 : c.tdm_info.get_free_ep dest false with _ | ed
    · left
      refine ⟨?_, Or.inr rfl⟩
      rw [CtrlModClient.create_tdm_channel, h1, h2]
    · by_cases h3 : (c.tdm_info.get_free_slots (find_path_A c.x_dim src dest) es ed 0
          numslots).length = 0 ∨
        (c.tdm_info.get_free_slots (find_path_B c.x_dim c.y_dim src dest) es ed 1
          numslots).length = 0
      · right; left
        constructor
        · rw [CtrlModClient.create_tdm_channel, h1, h2]
          simp only [if_true, if_pos h3]
        · refine ⟨es, ed, rfl, rfl, ?_⟩
          rcases h3 with h3 | h3
          · exact Or.inl (List.length_eq_zero.mp h3)
          · exact Or.inr (List.length_eq_zero.mp h3)
      · right; right
        rw [CtrlModClient.create_tdm_channel, h1, h2]
        simp only [if_true, if_neg h3]
        exact Int.natCast_nonneg _


/-! ### C10: id monotonicity and freshness -/

/-- The channel/path CRUD operations exposed by `CtrlModClient`. -/
inductive Op where
  | create (src dest numslots : Nat) (autopaths : Bool)
  | addPath (chid path_idx : Nat) (route : List Int)
  | removePath (chid path_idx : Nat)
  | delete (chid : Nat)

def CtrlModClient.step (c : CtrlModClient) : Op → CtrlModClient
  | .create src dest n a => (c.create_tdm_channel src dest n a).2
  | .addPath chid idx route => (c.add_path_to_channel chid idx route).2
  | .removePath chid idx => c.remove_path_from_channel chid idx
  | .delete chid => c.delete_tdm_channel chid

def CtrlModClient.exec (c : CtrlModClient) : List Op → CtrlModClient
  | [] => c
  | op :: ops => (c.step op).exec ops

/-- `apply_writes` touches only `sent` and the table mirror. -/
theorem apply_writes_frame (ws : List Write) : ∀ c : CtrlModClient,
    (apply_writes c ws).nxt_pid = c.nxt_pid ∧
    (apply_writes c ws).nxt_chid = c.nxt_chid ∧
    (apply_writes c ws).tdm_paths = c.tdm_paths ∧
    (apply_writes c ws).tdm_channels = c.tdm_channels ∧
    (apply_writes c ws).x_dim = c.x_dim ∧
    (apply_writes c ws).y_dim = c.y_dim ∧
    (apply_writes c ws).slot_table_size = c.slot_table_size ∧
    (apply_writes c ws).tdm_info.x_dim = c.tdm_info.x_dim ∧
    (apply_writes c ws).tdm_info.y_dim = c.tdm_info.y_dim ∧
    (apply_writes c ws).tdm_info.num_ep = c.tdm_info.num_ep ∧
    (apply_writes c ws).tdm_info.slot_table_size = c.tdm_info.slot_table_size ∧
    (apply_writes c ws).tdm_info.nodes = c.tdm_info.nodes := by
  induction ws with
  | nil => intro c; exact ⟨rfl, rfl, rfl, rfl, rfl, rfl, rfl, rfl, rfl, rfl, rfl, rfl⟩
  | cons w ws ih =>
      intro c
      rw [show apply_writes c (w :: ws) =
        apply_writes (c.configure_slot_table w.node w.port w.slot w.config w.pid w.ni) ws
        from rfl]
      exact ih _

/-- `_configure_tdm_path`: allocates exactly `nxt_pid`, bumps the pid
counter, records the new path, and leaves everything else except the
table mirror and the command log unchanged. -/
theorem configure_tdm_path_spec (c : CtrlModClient) (path : List Int) (slots : List Nat)
    (es ed link : Nat) :
    (c.configure_tdm_path path slots es ed link).1 = c.nxt_pid ∧
    (c.configure_tdm_path path slots es ed link).2.nxt_pid = c.nxt_pid + 1 ∧
    (c.configure_tdm_path path slots es ed link).2.nxt_chid = c.nxt_chid ∧
    (c.configure_tdm_path path slots es ed link).2.tdm_channels = c.tdm_channels ∧
    (c.configure_tdm_path path slots es ed link).2.tdm_paths =
      (fun k => if k = c.nxt_pid then some (TDMPath.init path slots link es ed)
        else c.tdm_paths k) ∧
    (c.configure_tdm_path path slots es ed link).2.x_dim = c.x_dim ∧
    (c.configure_tdm_path path slots es ed link).2.y_dim = c.y_dim ∧
    (c.configure_tdm_path path slots es ed link).2.slot_table_size = c.slot_table_size ∧
    (c.configure_tdm_path path slots es ed link).2.tdm_info.x_dim = c.tdm_info.x_dim ∧
    (c.configure_tdm_path path slots es ed link).2.tdm_info.y_dim = c.tdm_info.y_dim ∧
    (c.configure_tdm_path path slots es ed link).2.tdm_info.num_ep = c.tdm_info.num_ep ∧
    (c.configure_tdm_path path slots es ed link).2.tdm_info.slot_table_size =
      c.tdm_info.slot_table_size ∧
    (c.configure_tdm_path path slots es ed link).2.tdm_info.nodes = c.tdm_info.nodes := by
  rw [CtrlModClient.configure_tdm_path]
  obtain ⟨h1, h2, h3, h4, h5, h6, h7, h8, h9, h10, h11, h12⟩ := apply_writes_frame
    (path_writes c.x_dim c.slot_table_size link id es ed (some c.nxt_pid) path slots)
    { c with
      tdm_paths := fun k => if k = c.nxt_pid then
        some (TDMPath.init path slots link es ed) else c.tdm_paths k,
      nxt_pid := c.nxt_pid + 1 }
  exact ⟨rfl, h1, h2, h4, h3, h5, h6, h7, h8, h9, h10, h11, h12⟩

/-- `_clear_tdm_path`: removes the path record (a no-op on an unknown
pid), never touching the counters, the channels or the endpoint table. -/
theorem clear_tdm_path_spec (c : CtrlModClient) (pid : Nat) :
    (c.clear_tdm_path pid).2.nxt_pid = c.nxt_pid ∧
    (c.clear_tdm_path pid).2.nxt_chid = c.nxt_chid ∧
    (c.clear_tdm_path pid).2.tdm_channels = c.tdm_channels ∧
    (c.clear_tdm_path pid).2.tdm_paths =
      (fun k => if k = pid then none else c.tdm_paths k) ∧
    (c.clear_tdm_path pid).2.x_dim = c.x_dim ∧
    (c.clear_tdm_path pid).2.y_dim = c.y_dim ∧
    (c.clear_tdm_path pid).2.slot_table_size = c.slot_table_size ∧
    (c.clear_tdm_path pid).2.tdm_info.x_dim = c.tdm_info.x_dim ∧
    (c.clear_tdm_path pid).2.tdm_info.y_dim = c.tdm_info.y_dim ∧
    (c.clear_tdm_path pid).2.tdm_info.num_ep = c.tdm_info.num_ep ∧
    (c.clear_tdm_path pid).2.tdm_info.slot_table_size = c.tdm_info.slot_table_size ∧
    (c.clear_tdm_path pid).2.tdm_info.nodes = c.tdm_info.nodes := by
  rw [CtrlModClient.clear_tdm_path]
  rcases hp : c.tdm_paths pid with _ | p
  · refine ⟨rfl, rfl, rfl, ?_, rfl, rfl, rfl, rfl, rfl, rfl, rfl, rfl⟩
    funext k
    by_cases hk : k = pid
    · subst hk; rw [if_pos rfl, hp]
    · rw [if_neg hk]
  · obtain ⟨h1, h2, h3, h4, h5, h6, h7, h8, h9, h10, h11, h12⟩ := apply_writes_frame
      (path_writes c.x_dim c.slot_table_size p.link (fun _ => EMPTY) EMPTY EMPTY none
        p.path p.slots)
      (c.configure_ep_link p.path.headI p.ep_src p.link false)
    refine ⟨h1, h2, h4, ?_, h5, h6, h7, h8, h9, h10, h11, h12⟩
    funext k
    simp only [h3]
    rfl

theorem clear_tdm_path_opt_counters (c : CtrlModClient) (pid? : Option Nat) :
    (c.clear_tdm_path_opt pid?).nxt_pid = c.nxt_pid ∧
    (c.clear_tdm_path_opt pid?).nxt_chid = c.nxt_chid := by
  cases pid? with
  | none => exact ⟨rfl, rfl⟩
  | some pid => exact ⟨(clear_tdm_path_spec c pid).1, (clear_tdm_path_spec c pid).2.1⟩

theorem add_auto_path_frame (c : CtrlModClient) (chid pid : Nat) :
    (c.add_auto_path chid pid).nxt_pid = c.nxt_pid ∧
    (c.add_auto_path chid pid).nxt_chid = c.nxt_chid ∧
    (c.add_auto_path chid pid).tdm_info = c.tdm_info ∧
    (c.add_auto_path chid pid).sent = c.sent := by
  rw [CtrlModClient.add_auto_path]
  rcases c.tdm_channels chid with _ | ch <;> rcases c.tdm_paths pid with _ | p <;>
    exact ⟨rfl, rfl, rfl, rfl⟩

/-- The state produced by the success branch of
`create_tdm_channel(…, autopaths=True)` with endpoints `es`/`ed`. -/
def CtrlModClient.create_auto_success (c : CtrlModClient) (src dest n es ed : Nat) :
    CtrlModClient :=
  let rA := c.configure_tdm_path (find_path_A c.x_dim src dest)
    (c.tdm_info.get_free_slots (find_path_A c.x_dim src dest) es ed 0 n) es ed 0
  let rB := rA.2.configure_tdm_path (find_path_B c.x_dim c.y_dim src dest)
    (c.tdm_info.get_free_slots (find_path_B c.x_dim c.y_dim src dest) es ed 1 n) es ed 1
  let chid := rB.2.nxt_chid
  let c3 := { rB.2 with
    tdm_channels := fun k =>
      if k = chid then some (TDMChannel.init src dest es ed n)
      else rB.2.tdm_channels k }
  let c4 := { c3 with
    tdm_info := (c3.tdm_info.assign_ep src dest es ed chid).2,
    nxt_chid := chid + 1 }
  (c4.add_auto_path chid rA.1).add_auto_path chid rB.1

/-- Unfolding of `create_tdm_channel` with `autopaths=True` once both
endpoint searches succeed. -/
theorem create_tdm_channel_autopaths_eq (c : CtrlModClient) (src dest n es ed : Nat)
    (h1 : c.tdm_info.get_free_ep src true = some es)
    (h2 : c.tdm_info.get_free_ep dest false = some ed) :
    c.create_tdm_channel src dest n true =
      if (c.tdm_info.get_free_slots (find_path_A c.x_dim src dest) es ed 0 n).length = 0 ∨
          (c.tdm_info.get_free_slots (find_path_B c.x_dim c.y_dim src dest) es ed 1
            n).length = 0
      then (-2, c)
      else
        ((((c.configure_tdm_path (find_path_A c.x_dim src dest)
              (c.tdm_info.get_free_slots (find_path_A c.x_dim src dest) es ed 0 n)
              es ed 0).2.configure_tdm_path (find_path_B c.x_dim c.y_dim src dest)
              (c.tdm_info.get_free_slots (find_path_B c.x_dim c.y_dim src dest) es ed 1 n)
              es ed 1).2.nxt_chid : Int),
          c.create_auto_success src dest n es ed) := by
  rw [CtrlModClient.create_tdm_channel, h1, h2]
  exact rfl

/-- `create_tdm_channel` on success returns the current `nxt_chid`, bumps
it by one, and never decreases the pid counter. -/
theorem create_success_ids (c : CtrlModClient) (src dest n : Nat) (a : Bool)
    (h : 0 ≤ (c.create_tdm_channel src dest n a).1) :
    (c.create_tdm_channel src dest n a).1 = (c.nxt_chid : Int) ∧
    (c.create_tdm_channel src dest n a).2.nxt_chid = c.nxt_chid + 1 ∧
    c.nxt_pid ≤ (c.create_tdm_channel src dest n a).2.nxt_pid := by
  rcases h1 : c.tdm_info.get_free_ep src true with _ | es
  · rw [CtrlModClient.create_tdm_channel, h1] at h ⊢
    exact absurd h (by norm_num)
  · rcases h2 : c.tdm_info.get_free_ep dest false with _ | ed
    · rw [CtrlModClient.create_tdm_channel, h1, h2] at h ⊢
      exact absurd h (by norm_num)
    · cases a with
      | false =>
          rw [CtrlModClient.create_tdm_channel, h1, h2]
          exact ⟨rfl, rfl, Nat.le_refl _⟩
      | true =>
          rw [create_tdm_channel_autopaths_eq c src dest n es ed h1 h2] at h ⊢
          by_cases h3 : (c.tdm_info.get_free_slots (find_path_A c.x_dim src dest) es ed 0
              n).length = 0 ∨
            (c.tdm_info.get_free_slots (find_path_B c.x_dim c.y_dim src dest) es ed 1
              n).length = 0
          · rw [if_pos h3] at h
            exact absurd h (by norm_num)
          · rw [if_neg h3] at h ⊢
            obtain ⟨hcA, hpA, hchA, _⟩ :=
              configure_tdm_path_spec c (find_path_A c.x_dim src dest)
                (c.tdm_info.get_free_slots (find_path_A c.x_dim src dest) es ed 0 n) es ed 0
            obtain ⟨hcB, hpB, hchB, _⟩ :=
              configure_tdm_path_spec
                (c.configure_tdm_path (find_path_A c.x_dim src dest)
                  (c.tdm_info.get_free_slots (find_path_A c.x_dim src dest) es ed 0 n)
                  es ed 0).2
                (find_path_B c.x_dim c.y_dim src dest)
                (c.tdm_info.get_free_slots (find_path_B c.x_dim c.y_dim src dest) es ed 1 n)
                es ed 1
            refine ⟨?_, ?_, ?_⟩
            · show ((_ : Nat) : Int) = _
              rw [hchB, hchA]
            · rw [CtrlModClient.create_auto_success]
              obtain ⟨_, hb2, _, _⟩ := add_auto_path_frame _ _ _
              rw [hb2]
              obtain ⟨_, ha2, _, _⟩ := add_auto_path_frame _ _ _
              rw [ha2]
              show _ + 1 = c.nxt_chid + 1
              rw [hchB, hchA]
            · rw [CtrlModClient.create_auto_success]
              obtain ⟨hb1, _, _, _⟩ := add_auto_path_frame _ _ _
              rw [hb1]
              obtain ⟨ha1, _, _, _⟩ := add_auto_path_frame _ _ _
              rw [ha1]
              show c.nxt_pid ≤ _
              rw [hpB, hpA]
              omega

theorem attach_new_path_spec (c1 : CtrlModClient) (chid pid : Nat) :
    (c1.attach_new_path chid pid).2.nxt_chid = c1.nxt_chid ∧
    (c1.attach_new_path chid pid).2.nxt_pid = c1.nxt_pid ∧
    (c1.attach_new_path chid pid).2.tdm_info = c1.tdm_info ∧
    (c1.attach_new_path chid pid).2.tdm_paths = c1.tdm_paths ∧
    (c1.attach_new_path chid pid).2.x_dim = c1.x_dim ∧
    (c1.attach_new_path chid pid).2.y_dim = c1.y_dim ∧
    (c1.attach_new_path chid pid).2.slot_table_size = c1.slot_table_size ∧
    (c1.attach_new_path chid pid).2.sent = c1.sent := by
  rcases hc : c1.tdm_channels chid with _ | ch1 <;>
    rcases hp : c1.tdm_paths pid with _ | pnew <;>
      simp [CtrlModClient.attach_new_path, hc, hp]

theorem add_path_finish_counters (c1 : CtrlModClient) (ch : TDMChannel)
    (chid idx pid : Nat) :
    (c1.add_path_finish ch chid idx pid).2.nxt_chid = c1.nxt_chid ∧
    (c1.add_path_finish ch chid idx pid).2.nxt_pid = c1.nxt_pid := by
  obtain ⟨ha1, ha2, _⟩ := attach_new_path_spec c1 chid pid
  rw [CtrlModClient.add_path_finish]
  split_ifs
  · constructor
    · rw [(clear_tdm_path_spec _ pid).2.1, ha1]
    · rw [(clear_tdm_path_spec _ pid).1, ha2]
  · exact ⟨ha1, ha2⟩
  · constructor
    · rw [(clear_tdm_path_spec _ pid).2.1]
    · rw [(clear_tdm_path_spec _ pid).1]

theorem add_path_to_channel_counters (c : CtrlModClient) (chid idx : Nat)
    (route : List Int) :
    (c.add_path_to_channel chid idx route).2.nxt_chid = c.nxt_chid ∧
    c.nxt_pid ≤ (c.add_path_to_channel chid idx route).2.nxt_pid := by
  rcases hch : c.tdm_channels chid with _ | ch
  · simp only [CtrlModClient.add_path_to_channel, hch]
    constructor <;> simp
  · simp only [CtrlModClient.add_path_to_channel, hch]
    by_cases hfree : getPair ch.paths idx = none
    · rw [if_pos hfree]
      by_cases hlen : 0 < (c.tdm_info.get_free_slots route ch.ep_src ch.ep_dest idx
          ch.numslots).length
      · rw [if_pos hlen]
        obtain ⟨hf1, hf2⟩ := add_path_finish_counters
          (c.configure_tdm_path route
            (c.tdm_info.get_free_slots route ch.ep_src ch.ep_dest idx ch.numslots)
            ch.ep_src ch.ep_dest idx).2 ch chid idx
          (c.configure_tdm_path route
            (c.tdm_info.get_free_slots route ch.ep_src ch.ep_dest idx ch.numslots)
            ch.ep_src ch.ep_dest idx).1
        obtain ⟨_, hc2, hc3, _⟩ := configure_tdm_path_spec c route
          (c.tdm_info.get_free_slots route ch.ep_src ch.ep_dest idx ch.numslots)
          ch.ep_src ch.ep_dest idx
        refine ⟨?_, ?_⟩
        · rw [hf1, hc3]
        · rw [hf2, hc2]
          omega
      · rw [if_neg hlen]
        constructor <;> simp
    · rw [if_neg hfree]
      constructor <;> simp

theorem remove_path_from_channel_counters (c : CtrlModClient) (chid idx : Nat) :
    (c.remove_path_from_channel chid idx).nxt_chid = c.nxt_chid ∧
    (c.remove_path_from_channel chid idx).nxt_pid = c.nxt_pid := by
  rcases hch : c.tdm_channels chid with _ | ch
  · simp only [CtrlModClient.remove_path_from_channel, hch]
    constructor <;> simp
  · simp only [CtrlModClient.remove_path_from_channel, hch]
    obtain ⟨h1, h2⟩ := clear_tdm_path_opt_counters
      { c with tdm_channels := fun k => if k = chid then some (ch.clear_path idx).2
        else c.tdm_channels k } (ch.clear_path idx).1
    exact ⟨h2, h1⟩

theorem delete_tdm_channel_counters (c : CtrlModClient) (chid : Nat) :
    (c.delete_tdm_channel chid).nxt_chid = c.nxt_chid ∧
    (c.delete_tdm_channel chid).nxt_pid = c.nxt_pid := by
  rcases hch : c.tdm_channels chid with _ | ch
  · simp only [CtrlModClient.delete_tdm_channel, hch]
    constructor <;> simp
  · simp only [CtrlModClient.delete_tdm_channel, hch]
    obtain ⟨hp1, hc1⟩ := clear_tdm_path_opt_counters c ch.pids.1
    obtain ⟨hp2, hc2⟩ := clear_tdm_path_opt_counters (c.clear_tdm_path_opt ch.pids.1) ch.pids.2
    constructor
    · show ((c.clear_tdm_path_opt ch.pids.1).clear_tdm_path_opt ch.pids.2).nxt_chid = c.nxt_chid
      rw [hc2, hc1]
    · show ((c.clear_tdm_path_opt ch.pids.1).clear_tdm_path_opt ch.pids.2).nxt_pid = c.nxt_pid
      rw [hp2, hp1]

theorem create_fail_state (c : CtrlModClient) (src dest n : Nat) (a : Bool)
    (h : (c.create_tdm_channel src dest n a).1 < 0) :
    (c.create_tdm_channel src dest n a).2 = c := by
  rcases h1 : c.tdm_info.get_free_ep src true with _ | es
  · rw [CtrlModClient.create_tdm_channel, h1]
  · rcases h2 : c.tdm_info.get_free_ep dest false with _ | ed
    · rw [CtrlModClient.create_tdm_channel, h1, h2]
    · cases a with
      | false =>
          rw [CtrlModClient.create_tdm_channel, h1, h2] at h
          exact absurd h (by simp [Int.natCast_nonneg])
      | true =>
          rw [create_tdm_channel_autopaths_eq c src dest n es ed h1 h2] at h ⊢
          by_cases h3 : (c.tdm_info.get_free_slots (find_path_A c.x_dim src dest) es ed 0
              n).length = 0 ∨
            (c.tdm_info.get_free_slots (find_path_B c.x_dim c.y_dim src dest) es ed 1
              n).length = 0
          · rw [if_pos h3]
          · rw [if_neg h3] at h
            exact absurd h (by simp [Int.natCast_nonneg])

theorem step_counters_mono (c : CtrlModClient) (op : Op) :
    c.nxt_chid ≤ (c.step op).nxt_chid ∧ c.nxt_pid ≤ (c.step op).nxt_pid := by
  cases op with
  | create src dest n a =>
      rw [CtrlModClient.step]
      by_cases h : 0 ≤ (c.create_tdm_channel src dest n a).1
      · obtain ⟨_, h2, h3⟩ := create_success_ids c src dest n a h
        rw [h2]
        exact ⟨by omega, h3⟩
      · rw [create_fail_state c src dest n a (by omega)]
        exact ⟨Nat.le_refl _, Nat.le_refl _⟩
  | addPath chid idx route =>
      rw [CtrlModClient.step]
      obtain ⟨h1, h2⟩ := add_path_to_channel_counters c chid idx route
      exact ⟨by rw [h1], h2⟩
  | removePath chid idx =>
      rw [CtrlModClient.step]
      obtain ⟨h1, h2⟩ := remove_path_from_channel_counters c chid idx
      exact ⟨by rw [h1], by rw [h2]⟩
  | delete chid =>
      rw [CtrlModClient.step]
      obtain ⟨h1, h2⟩ := delete_tdm_channel_counters c chid
      exact ⟨by rw [h1], by rw [h2]⟩

theorem exec_counters_mono (ops : List Op) : ∀ c : CtrlModClient,
    c.nxt_chid ≤ (c.exec ops).nxt_chid ∧ c.nxt_pid ≤ (c.exec ops).nxt_pid := by
  induction ops with
  | nil => intro c; exact ⟨Nat.le_refl _, Nat.le_refl _⟩
  | cons op ops ih =>
      intro c
      obtain ⟨h1, h2⟩ := step_counters_mono c op
      obtain ⟨h3, h4⟩ := ih (c.step op)
      exact ⟨Nat.le_trans h1 h3, Nat.le_trans h2 h4⟩

/-- C10: channel and path ids are never reused.  Every CRUD operation
leaves both counters non-decreasing, a successful `create_tdm_channel`
returns the current `nxt_chid` and bumps it, `_configure_tdm_path`
allocates the current `nxt_pid` and bumps it, and any channel id handed
out after further operations is strictly larger than any id handed out
before. -/
theorem C10_ids_never_reused :
    (∀ (c : CtrlModClient) (op : Op),
      c.nxt_chid ≤ (c.step op).nxt_chid ∧ c.nxt_pid ≤ (c.step op).nxt_pid) ∧
    (∀ (c : CtrlModClient) (ops : List Op),
      c.nxt_chid ≤ (c.exec ops).nxt_chid ∧ c.nxt_pid ≤ (c.exec ops).nxt_pid) ∧
    (∀ (c : CtrlModClient) (src dest n : Nat) (a : Bool),
      0 ≤ (c.create_tdm_channel src dest n a).1 →
        (c.create_tdm_channel src dest n a).1 = (c.nxt_chid : Int) ∧
        (c.create_tdm_channel src dest n a).2.nxt_chid = c.nxt_chid + 1) ∧
    (∀ (c : CtrlModClient) (path : List Int) (slots : List Nat) (es ed link : Nat),
      (c.configure_tdm_path path slots es ed link).1 = c.nxt_pid ∧
      (c.configure_tdm_path path slots es ed link).2.nxt_pid = c.nxt_pid + 1) ∧
    (∀ (c : CtrlModClient) (src dest n src2 dest2 n2 : Nat) (ops : List Op),
      0 ≤ (c.create_tdm_channel src dest n true).1 →
      0 ≤ ((((c.create_tdm_channel src dest n true).2.exec ops).create_tdm_channel
            src2 dest2 n2 true).1) →
      (c.create_tdm_channel src dest n true).1 <
        ((((c.create_tdm_channel src dest n true).2.exec ops).create_tdm_channel
            src2 dest2 n2 true).1)) := by
  refine ⟨step_counters_mono, fun c ops => exec_counters_mono ops c, ?_, ?_, ?_⟩
  · intro c src dest n a h
    obtain ⟨h1, h2, _⟩ := create_success_ids c src dest n a h
    exact ⟨h1, h2⟩
  · intro c path slots es ed link
    obtain ⟨h1, h2, _⟩ := configure_tdm_path_spec c path slots es ed link
    exact ⟨h1, h2⟩
  · intro c src dest n src2 dest2 n2 ops h1 h2
    obtain ⟨e1, e2, _⟩ := create_success_ids c src dest n true h1
    obtain ⟨e3, _, _⟩ := create_success_ids _ src2 dest2 n2 true h2
    rw [e1, e3]
    obtain ⟨e4, _⟩ := exec_counters_mono ops (c.create_tdm_channel src dest n true).2
    rw [e2] at e4
    exact_mod_cast (by omega : c.nxt_chid <
      ((c.create_tdm_channel src dest n true).2.exec ops).nxt_chid)


def BE : Nat := 0
def TDM : Nat := 1

theorem and_255 (n : Nat) : n &&& 0xff = n % 256 := by
  have h := Nat.and_pow_two_sub_one_eq_mod n 8
  norm_num at h
  exact h

theorem shr8 (n : Nat) : n >>> 8 = n / 256 := by
  have h := Nat.shiftRight_eq_div_pow n 8
  norm_num at h
  exact h

theorem and_65535 (n : Nat) : n &&& 0xffff = n % 65536 := by
  have h := Nat.and_pow_two_sub_one_eq_mod n 16
  norm_num at h
  exact h

theorem shr16 (n : Nat) : n >>> 16 = n / 65536 := by
  have h := Nat.shiftRight_eq_div_pow n 16
  norm_num at h
  exact h

theorem flit_pack8 (a b : Nat) (ha : a < 256) : (b <<< 8) ||| a = b * 256 + a := by
  rw [Nat.shiftLeft_eq, Nat.mul_comm b (2 ^ 8),
    ← Nat.mul_add_lt_is_or (show a < 2 ^ 8 by omega) b]

theorem flit_pack32 (v : Nat) (hv : v < 2 ^ 32) :
    (v &&& 0xffff) ||| (((v >>> 16) &&& 0xffff) <<< 16) = v := by
  rw [and_65535, shr16, and_65535, Nat.shiftLeft_eq, Nat.lor_comm]
  rw [Nat.mul_comm _ (2 ^ 16), ← Nat.mul_add_lt_is_or (show v % 65536 < 2 ^ 16 by omega) _]
  norm_num
  omega

/-- Value clamping at the start of NoCBridgeClient packetization: for widths 8
and 16, out-of-range values are replaced by the largest representable value. -/
def check_values (width : Nat) (payload : List Nat) : List Nat :=
  if width = 8 ∨ width = 16 then
    let maxval := if width = 8 then 0xff else 0xffff
    payload.map (fun v => if v > maxval then maxval else v)
  else payload

/-- One step of the DI-packet splitting loop of the packetization: append the
value to the current (last) packet, first starting a fresh packet when the
current one already holds max_num_words words. -/
def split_step (max_num_words : Nat) (st : List (List Nat) × List Nat) (v : Nat) :
    List (List Nat) × List Nat :=
  if st.2.length = max_num_words then (st.1 ++ [st.2], [v]) else (st.1, st.2 ++ [v])

/-- NoCBridgeClient packetization (noc_bridge_cl.py). The finished packets and
the current (last) packet of packed_payload are kept as a pair and reassembled
at the end. -/
def packetize (noc_width : Nat) (payload : List Nat) (width maxlen : Nat) :
    List (List Nat) :=
  let payload := check_values width payload
  let num_bytes := payload.length * (width / 8)
  let max_num_words := maxlen * (noc_width / 16)
  if width = 8 then
    let pairs := (List.range (payload.length / 2)).map
      (fun i => ((payload.getD (i * 2 + 1) 0) <<< 8) ||| payload.getD (i * 2) 0)
    let st := pairs.foldl (split_step max_num_words) ([], [num_bytes])
    let st := if payload.length % 2 = 1 then
        split_step max_num_words st (payload.getLastD 0)
      else st
    st.1 ++ [st.2]
  else if width = 16 then
    let st := payload.foldl (split_step max_num_words) ([], [num_bytes])
    st.1 ++ [st.2]
  else
    let chunks := payload.flatMap
      (fun v => (List.range (width / 16)).map (fun w => (v >>> (w * 16)) &&& 0xffff))
    let st := chunks.foldl (split_step max_num_words) ([], [num_bytes, 0])
    st.1 ++ [st.2]

/-- 8-bit split of one 16-bit flit, as in the width-8 loop of the payload
unpacking. -/
def u8 (v : Nat) : List Nat := [v &&& 0xff, (v >>> 8) &&& 0xff]

/-- Width-32 recombination loop of the payload unpacking, stepping by two
flits. An odd residual length raises IndexError in the source before a lone
element could be appended. -/
def u32pairs : List Nat → List Nat
  | [] => []
  | [_] => []
  | lo :: hi :: rest => (lo ||| (hi <<< 16)) :: u32pairs rest

/-- NoCGateway payload unpacking (noc_gateway.py). -/
def unpack_payload (payload : List Nat) (type : Nat) (width : Nat) : List Nat :=
  if width % 8 ≠ 0 then []
  else
    let unpacked : List Nat :=
      if type = BE then [((payload.getD 1 0) <<< 16) ||| payload.getD 0 0] else []
    let idx := if type = BE then 2 else 0
    if width = 8 then
      unpacked ++ (payload.drop idx).flatMap u8
    else if width = 16 then
      unpacked ++ payload.drop idx
    else if width = 32 then
      unpacked ++ u32pairs (payload.drop idx)
    else
      unpacked

/-- Recursive two-at-a-time form of the width-8 packing loop. -/
def pack8 : List Nat → List Nat
  | [] => []
  | [_] => []
  | a :: b :: rest => ((b <<< 8) ||| a) :: pack8 rest

theorem pack8_eq (p : List Nat) :
    (List.range (p.length / 2)).map
      (fun i => ((p.getD (i * 2 + 1) 0) <<< 8) ||| p.getD (i * 2) 0) = pack8 p := by
  induction p using pack8.induct with
  | case1 => simp [pack8]
  | case2 a => simp [pack8]
  | case3 a b rest ih =>
    have hlen : (a :: b :: rest).length / 2 = rest.length / 2 + 1 := by
      simp only [List.length_cons]
      omega
    rw [pack8, hlen, List.range_succ_eq_map, List.map_cons, List.map_map]
    congr 1
    rw [← ih]
    apply List.map_congr_left
    intro i _
    have h1 : (i + 1) * 2 + 1 = (i * 2 + 1) + 2 := by ring
    have h2 : (i + 1) * 2 = i * 2 + 2 := by ring
    simp only [Function.comp_apply, h1, h2, List.getD_cons_succ]

theorem flat_cons (st : List (List Nat) × List Nat) :
    (st.1 ++ [st.2]).flatten = st.1.flatten ++ st.2 := by
  simp

theorem flat_step (mnw v : Nat) (st : List (List Nat) × List Nat) :
    (split_step mnw st v).1.flatten ++ (split_step mnw st v).2 =
      st.1.flatten ++ st.2 ++ [v] := by
  by_cases h : st.2.length = mnw <;> simp [split_step, h]

theorem flat_foldl (mnw : Nat) (vs : List Nat) (st : List (List Nat) × List Nat) :
    (vs.foldl (split_step mnw) st).1.flatten ++ (vs.foldl (split_step mnw) st).2 =
      st.1.flatten ++ st.2 ++ vs := by
  induction vs generalizing st with
  | nil => simp
  | cons v vs ih =>
    rw [List.foldl_cons, ih, flat_step]
    simp

theorem u8_pack8_even (p : List Nat) (hv : ∀ v ∈ p, v < 256) (he : p.length % 2 = 0) :
    (pack8 p).flatMap u8 = p := by
  induction p using pack8.induct with
  | case1 => simp [pack8]
  | case2 a => simp at he
  | case3 a b rest ih =>
    have ha : a < 256 := hv a (by simp)
    have hb : b < 256 := hv b (by simp)
    have he' : rest.length % 2 = 0 := by
      simp only [List.length_cons] at he
      omega
    rw [pack8, List.flatMap_cons, ih (fun v hm => hv v (by simp [hm])) he']
    have h1 : ((b <<< 8) ||| a) &&& 0xff = a := by
      rw [flit_pack8 a b ha, and_255]
      omega
    have h2 : (((b <<< 8) ||| a) >>> 8) &&& 0xff = b := by
      rw [flit_pack8 a b ha, shr8, and_255]
      omega
    simp [u8, h1, h2]

theorem pack8_snoc_even (p : List Nat) (x : Nat) (he : p.length % 2 = 0) :
    pack8 (p ++ [x]) = pack8 p := by
  induction p using pack8.induct with
  | case1 => simp [pack8]
  | case2 a => simp at he
  | case3 a b rest ih =>
    have he' : rest.length % 2 = 0 := by
      simp only [List.length_cons] at he
      omega
    rw [List.cons_append, List.cons_append, pack8, pack8, ih he']

theorem u32_chunks (p : List Nat) (hv : ∀ v ∈ p, v < 2 ^ 32) :
    u32pairs (p.flatMap (fun v => [v &&& 0xffff, (v >>> 16) &&& 0xffff])) = p := by
  induction p with
  | nil => simp [u32pairs]
  | cons v rest ih =>
    have hb : v < 2 ^ 32 := hv v (by simp)
    rw [List.flatMap_cons]
    show u32pairs ((v &&& 0xffff) :: ((v >>> 16) &&& 0xffff) ::
      rest.flatMap (fun v => [v &&& 0xffff, (v >>> 16) &&& 0xffff])) = v :: rest
    rw [u32pairs, ih (fun w hm => hv w (by simp [hm])), flit_pack32 v hb]

/-- C5 (amended): packetization round trip. For width 8, 16 or 32 and any
payload of values fitting the width, unpacking the concatenated flit stream
produced by the packetization at the same width yields the byte-count prefix
(two byte values for width 8, one flit otherwise), then the original payload,
then - only for width 8 with an odd number of values - one extra trailing 0. -/
theorem C5_amended (p : List Nat) (maxlen noc_width width : Nat)
    (hw : width = 8 ∨ width = 16 ∨ width = 32)
    (hv : ∀ v ∈ p, v < 2 ^ width) :
    unpack_payload (List.flatten (packetize noc_width p width maxlen)) TDM width =
      (if width = 8 then [p.length % 256, p.length / 256 % 256]
       else [p.length * (width / 8)]) ++ p ++
      (if width = 8 ∧ p.length % 2 = 1 then [0] else []) := by
  rcases hw with h8 | h16 | h32
  · subst h8
    have hv' : ∀ v ∈ p, v < 256 := by
      intro v hm
      have := hv v hm
      norm_num at this
      exact this
    have hc : check_values 8 p = p := by
      rw [check_values, if_pos (by norm_num)]
      rw [show p.map (fun v => if v > (if (8:Nat) = 8 then 0xff else 0xffff) then
          (if (8:Nat) = 8 then 0xff else 0xffff) else v) = p.map id from
        List.map_congr_left (fun v hm => by
          have := hv' v hm
          norm_num
          omega), List.map_id]
    have h88 : p.length * (8 / 8) = p.length := by norm_num
    have e1 : p.length &&& 0xff = p.length % 256 := and_255 _
    have e2 : (p.length >>> 8) &&& 0xff = p.length / 256 % 256 := by
      rw [shr8, and_255]
    simp only [packetize, hc, h88, reduceIte, if_true, if_false, true_and]
    rcases Nat.even_or_odd p.length with he | ho
    · have he2 : p.length % 2 = 0 := Nat.even_iff.mp he
      rw [if_neg (show ¬(p.length % 2 = 1) by omega),
        if_neg (show ¬(p.length % 2 = 1) by omega)]
      rw [flat_cons, flat_foldl, pack8_eq]
      simp only [unpack_payload, TDM, BE]
      norm_num [u8_pack8_even p hv' he2, u8, e1, e2]
    · have ho2 : p.length % 2 = 1 := Nat.odd_iff.mp ho
      have hne : p ≠ [] := by
        intro h
        rw [h] at ho2
        simp at ho2
      have hdecomp : p.dropLast ++ [p.getLast hne] = p :=
        List.dropLast_append_getLast hne
      have hdl : p.dropLast.length % 2 = 0 := by
        have := List.length_dropLast p
        omega
      have hvp : ∀ v ∈ p.dropLast, v < 256 :=
        fun v hm => hv' v (List.dropLast_subset p hm)
      have hx : p.getLastD 0 = p.getLast hne := by
        rw [List.getLastD_eq_getLast?, List.getLast?_eq_getLast p hne]
        rfl
      have hxb : p.getLast hne < 256 := hv' _ (List.getLast_mem hne)
      have hlen1 : p.length - 1 + 1 = p.length := by
        have := List.length_pos.mpr hne
        omega
      have hu8x : u8 (p.getLast hne) = [p.getLast hne, 0] := by
        rw [u8, and_255, shr8, and_255, Nat.mod_eq_of_lt hxb,
          Nat.div_eq_of_lt hxb]
      rw [if_pos ho2, if_pos ho2]
      rw [flat_cons, flat_step, flat_foldl, pack8_eq]
      rw [show pack8 p = pack8 p.dropLast by
        conv_lhs => rw [← hdecomp]
        rw [pack8_snoc_even _ _ hdl]]
      simp only [unpack_payload, TDM, BE]
      conv_rhs => rw [← hdecomp]
      norm_num [u8_pack8_even p.dropLast hvp hdl, List.getLast?_eq_getLast p hne,
        hu8x, u8, e1, e2, and_255, shr8, hlen1, Nat.mod_eq_of_lt hxb,
        Nat.div_eq_of_lt hxb]
  · subst h16
    have hv' : ∀ v ∈ p, v < 65536 := by
      intro v hm
      have := hv v hm
      norm_num at this
      exact this
    have hc : check_values 16 p = p := by
      rw [check_values, if_pos (by norm_num)]
      rw [show p.map (fun v => if v > (if (16:Nat) = 8 then 0xff else 0xffff) then
          (if (16:Nat) = 8 then 0xff else 0xffff) else v) = p.map id from
        List.map_congr_left (fun v hm => by
          have := hv' v hm
          norm_num
          omega), List.map_id]
    simp only [packetize, hc, reduceIte, if_true, if_false, Nat.reduceEqDiff]
    rw [flat_cons, flat_foldl]
    simp only [unpack_payload, TDM, BE]
    norm_num
  · subst h32
    have hc : check_values 32 p = p := by
      rw [check_values, if_neg (by norm_num)]
    have hfun : (fun v => (List.range (32 / 16)).map
        (fun w => (v >>> (w * 16)) &&& 0xffff)) =
        (fun v => [v &&& 0xffff, (v >>> 16) &&& 0xffff]) := by
      funext v
      rfl
    simp only [packetize, hc, reduceIte, if_true, if_false, Nat.reduceEqDiff]
    rw [hfun, flat_cons, flat_foldl]
    simp only [unpack_payload, TDM, BE]
    norm_num [u32pairs, u32_chunks p hv, Nat.zero_shiftLeft]

/-- C5 counterexample: at width 8 a single-value payload [1] packetizes to the
flit stream [1, 1], which unpacks to [1, 0, 1, 0]; the original value sequence
[1] is not a suffix of the result, so the unpacked stream is not the byte-count
prefix followed by the payload and nothing else - an extra 0 trails it. -/
theorem C5_counterexample :
    unpack_payload (List.flatten (packetize 32 [1] 8 8)) TDM 8 = [1, 0, 1, 0] ∧
      List.isSuffixOf [1] [1, 0, 1, 0] = false := by
  constructor
  · rfl
  · rfl

/-- Witness for C5_amended: width 8 payload [1, 2, 3] evaluates concretely. -/
theorem C5_amended_witness :
    ((8:Nat) = 8 ∨ (8:Nat) = 16 ∨ (8:Nat) = 32) ∧ (∀ v ∈ [1,2,3], v < 2 ^ 8) ∧
      unpack_payload (List.flatten (packetize 32 [1,2,3] 8 2)) TDM 8 =
        (if (8:Nat) = 8 then [[1,2,3].length % 256, [1,2,3].length / 256 % 256]
         else [[1,2,3].length * (8 / 8)]) ++ [1,2,3] ++
        (if (8:Nat) = 8 ∧ [1,2,3].length % 2 = 1 then [0] else []) :=
  ⟨Or.inl rfl, by decide, C5_amended [1,2,3] 2 32 8 (Or.inl rfl) (by decide)⟩

def CTRL_MSG : Nat := 7

/-- Optional filter fields a client binds for one traffic type. -/
structure BindFilter where
  fEp : Option Nat
  fClass : Option Nat
  fSrc : Option Int
deriving DecidableEq

/-- One client's bind dictionary: the mandatory width and at most one
traffic-type entry with its filter fields. -/
structure ClBind where
  width : Nat
  tfilter : Option (Nat × BindFilter)
deriving DecidableEq

structure Delivery where
  cid : Nat
  dtype : Nat
  ep : Nat
  data : List Nat
  src : Option Int
deriving DecidableEq

structure NoCGateway where
  x_dim : Nat
  tile : Int
  dr_enabled : Bool
  nxt_cid : Nat
  cl_binds : List (Nat × Option ClBind)
  remote_enabled : Nat → Int → Bool

def NoCGateway.register_client (g : NoCGateway) : NoCGateway × Nat :=
  ({ g with cl_binds := g.cl_binds ++ [(g.nxt_cid, none)], nxt_cid := g.nxt_cid + 1 },
    g.nxt_cid)

def NoCGateway.bind_traffic (g : NoCGateway) (cid : Nat) (type : Option Nat)
    (ep pkt_class : Option Nat) (src : Option Int) (width : Nat) : NoCGateway :=
  if (g.cl_binds.map Prod.fst).contains cid = false then g
  else
    { g with cl_binds := g.cl_binds.map (fun cb =>
        if cb.1 = cid then
          (cb.1, some (ClBind.mk width (type.map (fun t => (t, ⟨ep, pkt_class, src⟩)))))
        else cb) }

/-- Source-route walk of the gateway. The source's while loop is unbounded; a
24-bit source-route field holds at most eight 3-bit hop codes and every
well-formed path reaches an endpoint code among them, so the caller passes
fuel 8; exhausted fuel or an invalid hop code gives none. -/
def find_source (x_dim : Nat) : Int → Nat → Nat → Option (Int × Nat)
  | _, _, 0 => none
  | tile, sr_path, fuel + 1 =>
    let nhop := sr_path &&& 0x7
    if nhop = 0 then find_source x_dim (tile - x_dim) (sr_path >>> 3) fuel
    else if nhop = 1 then find_source x_dim (tile + 1) (sr_path >>> 3) fuel
    else if nhop = 2 then find_source x_dim (tile + x_dim) (sr_path >>> 3) fuel
    else if nhop = 3 then find_source x_dim (tile - 1) (sr_path >>> 3) fuel
    else if nhop = 4 then some (tile, 0)
    else if nhop = 5 then some (tile, 1)
    else none

/-- Delivery condition for a best-effort packet, from the receive loop:
absence of the BE key in the bind is a full disjunct, otherwise every present
field must match. -/
def be_cond (ep pkt_class : Nat) (src : Int) (b : ClBind) : Bool :=
  match b.tfilter with
  | none => true
  | some (t, f) =>
    if t = BE then
      (match f.fEp with | none => true | some e => e == ep) &&
      (match f.fClass with | none => true | some c => c == pkt_class) &&
      (match f.fSrc with | none => true | some s => s == src)
    else true

/-- Delivery condition for a TDM packet, from the receive loop. -/
def tdm_cond (ep : Nat) (b : ClBind) : Bool :=
  match b.tfilter with
  | none => true
  | some (t, f) =>
    if t = TDM then
      (match f.fEp with | none => true | some e => e == ep)
    else true

/-- Best-effort delivery loop over the registered clients. A client entry with
no bind makes the source raise inside the loop, aborting the remaining
deliveries (the handler swallows the exception). -/
def be_deliver (ep pkt_class : Nat) (src : Int) (payload_lst : List Nat) :
    List (Nat × Option ClBind) → List Delivery
  | [] => []
  | (_, none) :: _ => []
  | (cl, some b) :: rest =>
    (if be_cond ep pkt_class src b then
      [⟨cl, BE, ep, unpack_payload payload_lst BE b.width, some src⟩]
    else []) ++ be_deliver ep pkt_class src payload_lst rest

/-- TDM delivery loop over the registered clients. -/
def tdm_deliver (ep : Nat) (payload_lst : List Nat) :
    List (Nat × Option ClBind) → List Delivery
  | [] => []
  | (_, none) :: _ => []
  | (cl, some b) :: rest =>
    (if tdm_cond ep b then
      [⟨cl, TDM, ep, unpack_payload payload_lst TDM b.width, none⟩]
    else []) ++ tdm_deliver ep payload_lst rest

/-- NoCGateway.receive_event (noc_gateway.py): dispatch one DI event packet,
returning the updated gateway and the deliveries made to clients. -/
def NoCGateway.receive_event (g : NoCGateway) (payload : List Nat) :
    NoCGateway × List Delivery :=
  if payload.length < 3 then (g, [])
  else if (payload.length - 1) % 2 ≠ 0 then (g, [])
  else
    let ptype := (payload.getD 0 0 >>> 15) &&& 1
    let ep := payload.getD 0 0 &&& 0x7fff
    let payload_lst := payload.drop 1
    if ptype = BE then
      let header := ((payload.getD 2 0) <<< 16) ||| payload.getD 1 0
      let pkt_class := header >>> 29
      let srcEp : Option (Int × Nat) :=
        if g.dr_enabled then some (((header >>> 10) &&& 0x3ff : Nat), ep)
        else find_source g.x_dim g.tile (header &&& 0xffffff) 8
      match srcEp with
      | none => (g, [])
      | some (src, ep) =>
        if pkt_class = CTRL_MSG then
          ({ g with remote_enabled := fun e t =>
              if e = ep ∧ t = src then true else g.remote_enabled e t }, [])
        else
          (g, be_deliver ep pkt_class src payload_lst g.cl_binds)
    else if ptype = TDM then
      (g, tdm_deliver ep payload_lst g.cl_binds)
    else
      (g, [])

/-- Modelled from the spec, as amended: a data packet is delivered to a bound
client when its bind carries no entry for the packet's traffic type (absence
of the type key is a full wildcard, so a client bound only to the other
traffic type still receives the packet), or when every field present in that
entry (endpoint, and for best-effort also class and source) equals the
packet's. -/
def matches_amended (ptype ep pkt_class : Nat) (src : Int) (b : ClBind) : Bool :=
  match b.tfilter with
  | none => true
  | some (t, f) =>
    if t = ptype then
      (f.fEp.all (fun e => e == ep)) &&
      (decide (ptype ≠ BE) ||
        ((f.fClass.all (fun c => c == pkt_class)) && (f.fSrc.all (fun s => s == src))))
    else true

theorem be_cond_eq (ep pkt_class : Nat) (src : Int) (b : ClBind) :
    be_cond ep pkt_class src b = matches_amended BE ep pkt_class src b := by
  rcases b with ⟨w, tf⟩
  rcases tf with _ | ⟨t, f⟩
  · rfl
  · rcases f with ⟨fe, fc, fs⟩
    by_cases ht : t = BE
    · subst ht
      rcases fe with _ | e <;> rcases fc with _ | c <;> rcases fs with _ | s <;>
        simp [be_cond, matches_amended, Option.all, BE, Bool.and_assoc]
    · rcases fe with _ | e <;> rcases fc with _ | c <;> rcases fs with _ | s <;>
        simp [be_cond, matches_amended, ht, BE, Option.all, Bool.and_assoc]

theorem tdm_cond_eq (ep pkt_class : Nat) (src : Int) (b : ClBind) :
    tdm_cond ep b = matches_amended TDM ep pkt_class src b := by
  rcases b with ⟨w, tf⟩
  rcases tf with _ | ⟨t, f⟩
  · rfl
  · rcases f with ⟨fe, fc, fs⟩
    by_cases ht : t = TDM
    · subst ht
      rcases fe with _ | e <;> simp [tdm_cond, matches_amended, Option.all, TDM, BE]
    · rcases fe with _ | e <;> rcases fc with _ | c <;> rcases fs with _ | s <;>
        simp [tdm_cond, matches_amended, ht, TDM, BE, Option.all]

theorem be_deliver_filterMap (ep pkt_class : Nat) (src : Int) (pl : List Nat)
    (bs : List (Nat × Option ClBind)) (hb : ∀ cb ∈ bs, cb.2 ≠ none) :
    be_deliver ep pkt_class src pl bs = bs.filterMap (fun cb =>
      match cb.2 with
      | none => none
      | some b =>
        if matches_amended BE ep pkt_class src b then
          some ⟨cb.1, BE, ep, unpack_payload pl BE b.width, some src⟩
        else none) := by
  induction bs with
  | nil => rfl
  | cons cb rest ih =>
    rcases cb with ⟨cl, _ | b⟩
    · exact absurd rfl (hb (cl, none) (by simp))
    · simp only [be_deliver, List.filterMap_cons]
      rw [ih (fun x hx => hb x (by simp [hx]))]
      by_cases h : be_cond ep pkt_class src b
      · have h' : matches_amended BE ep pkt_class src b = true := by
          rw [← be_cond_eq]
          exact h
        simp [h, h']
      · have h' : ¬ matches_amended BE ep pkt_class src b = true := by
          rw [← be_cond_eq]
          exact h
        simp [h, h']

theorem tdm_deliver_filterMap (ep pkt_class : Nat) (src : Int) (pl : List Nat)
    (bs : List (Nat × Option ClBind)) (hb : ∀ cb ∈ bs, cb.2 ≠ none) :
    tdm_deliver ep pl bs = bs.filterMap (fun cb =>
      match cb.2 with
      | none => none
      | some b =>
        if matches_amended TDM ep pkt_class src b then
          some ⟨cb.1, TDM, ep, unpack_payload pl TDM b.width, none⟩
        else none) := by
  induction bs with
  | nil => rfl
  | cons cb rest ih =>
    rcases cb with ⟨cl, _ | b⟩
    · exact absurd rfl (hb (cl, none) (by simp))
    · simp only [tdm_deliver, List.filterMap_cons]
      rw [ih (fun x hx => hb x (by simp [hx]))]
      by_cases h : tdm_cond ep b
      · have h' : matches_amended TDM ep pkt_class src b = true := by
          rw [← tdm_cond_eq ep pkt_class src]
          exact h
        simp [h, h']
      · have h' : ¬ matches_amended TDM ep pkt_class src b = true := by
          rw [← tdm_cond_eq ep pkt_class src]
          exact h
        simp [h, h']

/-- C6 (amended): for a direct-routed gateway whose registered clients all
hold a bind, a well-formed non-control data packet leaves the gateway state
unchanged and is delivered exactly to the clients whose bind matches under the
code's rule: a bind with no entry for the packet's traffic type is a full
wildcard (so a client bound only to the other type still receives the packet),
and an entry for the packet's type must agree on every present field
(endpoint, and for best-effort also class and source). -/
theorem C6_amended (g : NoCGateway) (payload : List Nat)
    (pt ep pkt_class : Nat) (src : Int)
    (hdr : g.dr_enabled = true)
    (hbound : ∀ cb ∈ g.cl_binds, cb.2 ≠ none)
    (hlen : 3 ≤ payload.length)
    (hodd : (payload.length - 1) % 2 = 0)
    (hpt : pt = (payload.getD 0 0 >>> 15) &&& 1)
    (hep : ep = payload.getD 0 0 &&& 0x7fff)
    (hcls : pkt_class = (((payload.getD 2 0) <<< 16) ||| payload.getD 1 0) >>> 29)
    (hsrc : src = (((((payload.getD 2 0) <<< 16) ||| payload.getD 1 0) >>> 10) &&& 0x3ff : Nat))
    (hnc : pt = BE → pkt_class ≠ CTRL_MSG) :
    (g.receive_event payload).1 = g ∧
    (g.receive_event payload).2 = g.cl_binds.filterMap (fun cb =>
      match cb.2 with
      | none => none
      | some b =>
        if matches_amended pt ep pkt_class src b then
          some ⟨cb.1, pt, ep, unpack_payload (payload.drop 1) pt b.width,
            if pt = BE then some src else none⟩
        else none) := by
  have hpt01 : pt = 0 ∨ pt = 1 := by
    have h : (payload.getD 0 0 >>> 15) &&& 1 = (payload.getD 0 0 >>> 15) % 2 :=
      Nat.and_one_is_mod _
    rw [hpt, h]
    omega
  rw [NoCGateway.receive_event]
  rw [if_neg (by omega), if_neg (by omega)]
  simp only [hdr, if_true]
  rcases hpt01 with hpt0 | hpt1
  · rw [if_pos (show (payload.getD 0 0 >>> 15) &&& 1 = BE by rw [← hpt, hpt0]; rfl)]
    rw [if_neg (show ¬((((payload.getD 2 0) <<< 16) ||| payload.getD 1 0) >>> 29 = CTRL_MSG) by
      rw [← hcls]; exact hnc (by rw [hpt0]; rfl))]
    refine ⟨rfl, ?_⟩
    rw [be_deliver_filterMap _ _ _ _ _ hbound]
    rw [← hep, ← hcls, ← hsrc, hpt0]
    simp [BE]
  · rw [if_neg (show ¬((payload.getD 0 0 >>> 15) &&& 1 = BE) by rw [← hpt, hpt1]; simp [BE]),
      if_pos (show (payload.getD 0 0 >>> 15) &&& 1 = TDM by rw [← hpt, hpt1]; rfl)]
    refine ⟨rfl, ?_⟩
    rw [tdm_deliver_filterMap _ pkt_class src _ _ hbound]
    rw [← hep, hpt1]
    simp [TDM, BE]

/-- C6 counterexample: a client registered and bound via bind_traffic to TDM
traffic on endpoint 3 nevertheless receives an arriving best-effort packet
(class 1, endpoint 3), because the receive loop treats the absence of the BE
key in the bind as a full wildcard; the claim says a client whose bind names
only the other traffic type does not receive the packet. -/
theorem C6_counterexample :
    ((((NoCGateway.mk 2 0 true 0 [] (fun _ _ => false)).register_client).1.bind_traffic 0
        (some TDM) (some 3) none none 16).cl_binds =
      [(0, some ⟨16, some (TDM, ⟨some 3, none, none⟩)⟩)]) ∧
    ((((NoCGateway.mk 2 0 true 0 [] (fun _ _ => false)).register_client).1.bind_traffic 0
        (some TDM) (some 3) none none 16).receive_event [3, 0, 0x2000]).2 =
      [⟨0, BE, 3, [0x20000000], some 0⟩] := by
  constructor
  · decide
  · decide


/-- Witness for C6_amended at a concrete gateway and packet. -/
theorem C6_amended_witness :
    (NoCGateway.mk 1 0 true 1 [(0, some (ClBind.mk 32 none))]
      (fun _ _ => false)).dr_enabled = true ∧
    (∀ cb ∈ (NoCGateway.mk 1 0 true 1 [(0, some (ClBind.mk 32 none))]
      (fun _ _ => false)).cl_binds, cb.2 ≠ none) ∧
    3 ≤ [5, 0, 0x2000].length ∧
    ([5, 0, 0x2000].length - 1) % 2 = 0 ∧
    (0 : Nat) = ([5, 0, 0x2000].getD 0 0 >>> 15) &&& 1 ∧
    (5 : Nat) = [5, 0, 0x2000].getD 0 0 &&& 0x7fff ∧
    (1 : Nat) = ((([5, 0, 0x2000].getD 2 0) <<< 16) ||| [5, 0, 0x2000].getD 1 0) >>> 29 ∧
    (0 : Int) = ((((([5, 0, 0x2000].getD 2 0) <<< 16) ||| [5, 0, 0x2000].getD 1 0) >>> 10) &&& 0x3ff : Nat) ∧
    ((0 : Nat) = BE → (1 : Nat) ≠ CTRL_MSG) ∧
    ((NoCGateway.mk 1 0 true 1 [(0, some (ClBind.mk 32 none))]
        (fun _ _ => false)).receive_event [5, 0, 0x2000]).1 =
      NoCGateway.mk 1 0 true 1 [(0, some (ClBind.mk 32 none))] (fun _ _ => false) ∧
    ((NoCGateway.mk 1 0 true 1 [(0, some (ClBind.mk 32 none))]
        (fun _ _ => false)).receive_event [5, 0, 0x2000]).2 =
      (NoCGateway.mk 1 0 true 1 [(0, some (ClBind.mk 32 none))]
        (fun _ _ => false)).cl_binds.filterMap (fun cb =>
        match cb.2 with
        | none => none
        | some b =>
          if matches_amended 0 5 1 0 b then
            some ⟨cb.1, 0, 5, unpack_payload ([5, 0, 0x2000].drop 1) 0 b.width,
              if (0 : Nat) = BE then some (0 : Int) else none⟩
          else none) := by
  refine ⟨rfl, by decide, by decide, by decide, by decide, by decide, by decide,
    by decide, by decide, ?_, ?_⟩
  · exact (C6_amended (NoCGateway.mk 1 0 true 1 [(0, some (ClBind.mk 32 none))]
      (fun _ _ => false)) [5, 0, 0x2000] 0 5 1 0 rfl (by decide) (by decide)
      (by decide) (by decide) (by decide) (by decide) (by decide) (by decide)).1
  · exact (C6_amended (NoCGateway.mk 1 0 true 1 [(0, some (ClBind.mk 32 none))]
      (fun _ _ => false)) [5, 0, 0x2000] 0 5 1 0 rfl (by decide) (by decide)
      (by decide) (by decide) (by decide) (by decide) (by decide) (by decide)).2

/-! ### Configure followed by clear restores the table (C3, C1) -/

theorem get_free_slots_mem_check (s : TDMinfo) (path : List Int) (es ed link k : Nat) :
    (∀ sl ∈ s.get_free_slots path es ed link k,
      s.check_path path sl link es ed = true) ∧
    (0 < (s.get_free_slots path es ed link k).length →
      (s.get_free_slots path es ed link k).length = k) := by
  rw [get_free_slots_eq]
  by_cases hc : k ≤ ((List.range s.slot_table_size).filter
      fun sl => s.check_path path sl link es ed).length
  · rw [if_pos hc]
    refine ⟨fun sl hsl => (List.mem_filter.mp (List.take_subset k _ hsl)).2, fun _ => ?_⟩
    rw [List.length_take]
    omega
  · rw [if_neg hc]
    exact ⟨fun sl hsl => absurd hsl (List.not_mem_nil sl), fun h => absurd h (by simp)⟩

theorem apply_writes_cons (c : CtrlModClient) (w : Write) (ws : List Write) :
    apply_writes c (w :: ws) =
      apply_writes (c.configure_slot_table w.node w.port w.slot w.config w.pid w.ni) ws := rfl

/-- A location no write in the list touches keeps its table entry. -/
theorem apply_writes_untouched (n : Int) (b : Bool) (p sl : Nat) :
    ∀ (ws : List Write) (c : CtrlModClient),
      (∀ w ∈ ws, ¬(w.node = n ∧ w.ni = b ∧ w.port = p ∧ w.slot = sl)) →
      (apply_writes c ws).tdm_info.table_config n b p sl =
        c.tdm_info.table_config n b p sl := by
  intro ws
  induction ws with
  | nil => intro c _; rfl
  | cons w ws ih =>
    intro c hw
    rw [apply_writes_cons, ih _ (fun x hx => hw x (List.mem_cons_of_mem w hx))]
    have hnw := hw w (List.mem_cons_self w ws)
    simp only [CtrlModClient.configure_slot_table, TDMinfo.set_table_entry]
    rw [if_neg (fun hcon => hnw ⟨hcon.1.symm, hcon.2.1.symm, hcon.2.2.1.symm, hcon.2.2.2.symm⟩)]

/-- After a list of writes that all write `(EMPTY, none)`, a touched
location holds `(EMPTY, none)`. -/
theorem apply_writes_cleared (n : Int) (b : Bool) (p sl : Nat) :
    ∀ (ws : List Write) (c : CtrlModClient),
      (∀ w ∈ ws, w.config = EMPTY ∧ w.pid = none) →
      (∃ w ∈ ws, w.node = n ∧ w.ni = b ∧ w.port = p ∧ w.slot = sl) →
      (apply_writes c ws).tdm_info.table_config n b p sl = (EMPTY, none) := by
  intro ws
  induction ws with
  | nil => intro c _ hex; exact absurd hex (by simp)
  | cons w ws ih =>
    intro c hall hex
    by_cases hex2 : ∃ w' ∈ ws, w'.node = n ∧ w'.ni = b ∧ w'.port = p ∧ w'.slot = sl
    · rw [apply_writes_cons]
      exact ih _ (fun x hx => hall x (List.mem_cons_of_mem w hx)) hex2
    · obtain ⟨w', hw', hh⟩ := hex
      rcases List.mem_cons.mp hw' with he | hm
      · subst he
        rw [apply_writes_cons,
          apply_writes_untouched n b p sl ws _ (fun x hx hcon => hex2 ⟨x, hx, hcon⟩)]
        obtain ⟨hc, hp⟩ := hall w' (List.mem_cons_self _ _)
        simp only [CtrlModClient.configure_slot_table, TDMinfo.set_table_entry]
        rw [if_pos ⟨hh.1.symm, hh.2.1.symm, hh.2.2.1.symm, hh.2.2.2.symm⟩, hc, hp]
      · exact absurd ⟨w', hm, hh⟩ hex2

/-- The locations and the final slot of `hop_writes` do not depend on the
written config or pid. -/
theorem hop_writes_locs (X : Int) (st link : Nat) (f g : Nat → Nat)
    (pid pid' : Option Nat) :
    ∀ (path : List Int) (slot ip ip' : Nat),
      (hop_writes X st link f pid path slot ip).1.map
          (fun w => (w.node, w.ni, w.port, w.slot)) =
        (hop_writes X st link g pid' path slot ip').1.map
          (fun w => (w.node, w.ni, w.port, w.slot)) ∧
      (hop_writes X st link f pid path slot ip).2 =
        (hop_writes X st link g pid' path slot ip').2 := by
  intro path
  induction path with
  | nil => intro slot ip ip'; exact ⟨rfl, rfl⟩
  | cons a tail ih =>
    intro slot ip ip'
    cases tail with
    | nil => exact ⟨rfl, rfl⟩
    | cons b rest =>
      obtain ⟨h1, h2⟩ := ih ((slot + 1) % st) (flip_port (out_port X a b))
        (flip_port (out_port X a b))
      simp only [hop_writes, List.map_cons]
      exact ⟨by rw [h1], h2⟩

theorem slot_writes_locs (X : Int) (st link : Nat) (f g : Nat → Nat)
    (cs cd cs' cd' : Nat) (pid pid' : Option Nat) (path : List Int) (slot : Nat) :
    (slot_writes X st link f cs cd pid path slot).map
        (fun w => (w.node, w.ni, w.port, w.slot)) =
      (slot_writes X st link g cs' cd' pid' path slot).map
        (fun w => (w.node, w.ni, w.port, w.slot)) := by
  obtain ⟨h1, h2⟩ := hop_writes_locs X st link f g pid pid' path slot (link + 4) (link + 4)
  simp only [slot_writes, List.map_cons, List.map_append]
  rw [h1, h2]

theorem path_writes_locs (X : Int) (st link : Nat) (f g : Nat → Nat)
    (cs cd cs' cd' : Nat) (pid pid' : Option Nat) (path : List Int) :
    ∀ slots : List Nat,
      (path_writes X st link f cs cd pid path slots).map
          (fun w => (w.node, w.ni, w.port, w.slot)) =
        (path_writes X st link g cs' cd' pid' path slots).map
          (fun w => (w.node, w.ni, w.port, w.slot)) := by
  intro slots
  induction slots with
  | nil => rfl
  | cons s0 slots ih =>
    simp only [path_writes, List.flatMap_cons, List.map_append]
    simp only [path_writes] at ih
    rw [slot_writes_locs X st link f g cs cd cs' cd' pid pid' path s0, ih]

theorem hit_iff_of_locs (ws ws' : List Write)
    (h : ws.map (fun w => (w.node, w.ni, w.port, w.slot)) =
      ws'.map (fun w => (w.node, w.ni, w.port, w.slot)))
    (n : Int) (b : Bool) (p sl : Nat) :
    (∃ w ∈ ws, w.node = n ∧ w.ni = b ∧ w.port = p ∧ w.slot = sl) ↔
    (∃ w ∈ ws', w.node = n ∧ w.ni = b ∧ w.port = p ∧ w.slot = sl) := by
  have H : ∀ (l1 l2 : List Write),
      l1.map (fun w => (w.node, w.ni, w.port, w.slot)) =
        l2.map (fun w => (w.node, w.ni, w.port, w.slot)) →
      (∃ w ∈ l1, w.node = n ∧ w.ni = b ∧ w.port = p ∧ w.slot = sl) →
      (∃ w ∈ l2, w.node = n ∧ w.ni = b ∧ w.port = p ∧ w.slot = sl) := by
    rintro l1 l2 hmap ⟨w, hw, h1, h2, h3, h4⟩
    have hm : ((n, b, p, sl) : Int × Bool × Nat × Nat) ∈
        l1.map (fun w => (w.node, w.ni, w.port, w.slot)) :=
      List.mem_map.mpr ⟨w, hw, by rw [h1, h2, h3, h4]⟩
    rw [hmap] at hm
    obtain ⟨w', hw', he⟩ := List.mem_map.mp hm
    simp only [Prod.mk.injEq] at he
    exact ⟨w', hw', he.1, he.2.1, he.2.2.1, he.2.2.2⟩
  exact ⟨H ws ws' h, H ws' ws h.symm⟩

/-- Every location the hop loop writes was checked free by
`check_path_go`, and so was the final NI ingress location. -/
theorem hop_writes_pre_empty (s : TDMinfo) (link : Nat) (f : Nat → Nat)
    (pid : Option Nat) :
    ∀ (path : List Int) (slot ip : Nat),
      check_path_go s link path slot = true →
      (∀ w ∈ (hop_writes s.x_dim s.slot_table_size link f pid path slot ip).1,
        (s.table_config w.node w.ni w.port w.slot).1 = EMPTY) ∧
      (path ≠ [] →
        (s.table_config path.getLastI true (link + 2)
          (hop_writes s.x_dim s.slot_table_size link f pid path slot ip).2).1 = EMPTY) := by
  intro path
  induction path with
  | nil =>
    intro slot ip _
    exact ⟨by simp [hop_writes], fun h => absurd rfl h⟩
  | cons a tail ih =>
    intro slot ip hgo
    cases tail with
    | nil =>
      rw [check_path_go, Bool.and_eq_true, beq_iff_eq, beq_iff_eq] at hgo
      refine ⟨?_, fun _ => ?_⟩
      · intro w hw
        simp only [hop_writes, List.mem_singleton] at hw
        subst hw
        exact hgo.1
      · simp only [hop_writes, List.getLastI]
        exact hgo.2
    | cons b rest =>
      rw [check_path_go, Bool.and_eq_true, beq_iff_eq] at hgo
      obtain ⟨ih1, ih2⟩ := ih ((slot + 1) % s.slot_table_size)
        (flip_port (out_port s.x_dim a b)) hgo.2
      refine ⟨?_, fun _ => ?_⟩
      · intro w hw
        simp only [hop_writes, List.mem_cons] at hw
        rcases hw with he | hm
        · subst he
          exact hgo.1
        · exact ih1 w hm
      · simp only [hop_writes]
        rw [List.getLastI_eq_getLast?, List.getLast?_cons_cons,
          ← List.getLastI_eq_getLast?]
        exact ih2 (by simp)

/-- Every location `slot_writes` touches for a start slot passing
`check_path` holds `EMPTY` beforehand. -/
theorem slot_writes_pre_empty (s : TDMinfo) (link es ed : Nat) (f : Nat → Nat)
    (cs cd : Nat) (pid : Option Nat) (path : List Int) (slot : Nat)
    (hne : path ≠ [])
    (hchk : s.check_path path slot link es ed = true) :
    ∀ w ∈ slot_writes s.x_dim s.slot_table_size link f cs cd pid path slot,
      (s.table_config w.node w.ni w.port w.slot).1 = EMPTY := by
  simp only [TDMinfo.check_path, Bool.and_eq_true, beq_iff_eq] at hchk
  obtain ⟨⟨hegress, _⟩, hgo⟩ := hchk
  obtain ⟨hmid, hfin⟩ := hop_writes_pre_empty s link f pid path slot (link + 4) hgo
  intro w hw
  simp only [slot_writes, List.mem_cons, List.mem_append, List.mem_singleton] at hw
  rcases hw with he | hm | he2 | he3
  · subst he
    exact hegress
  · exact hmid w hm
  · subst he2
    exact hfin hne
  · exact absurd he3 (List.not_mem_nil w)

theorem path_writes_pre_empty (s : TDMinfo) (link es ed : Nat) (f : Nat → Nat)
    (cs cd : Nat) (pid : Option Nat) (path : List Int) (slots : List Nat)
    (hne : path ≠ [])
    (hslots : ∀ sl ∈ slots, s.check_path path sl link es ed = true) :
    ∀ w ∈ path_writes s.x_dim s.slot_table_size link f cs cd pid path slots,
      (s.table_config w.node w.ni w.port w.slot).1 = EMPTY := by
  intro w hw
  rw [path_writes, List.mem_flatMap] at hw
  obtain ⟨sl, hsl, hw⟩ := hw
  exact slot_writes_pre_empty s link es ed f cs cd pid path sl hne (hslots sl hsl) w hw

theorem hop_writes_clear_fields (X : Int) (st link : Nat) :
    ∀ (path : List Int) (slot ip : Nat),
      ∀ w ∈ (hop_writes X st link (fun _ => EMPTY) none path slot ip).1,
        w.config = EMPTY ∧ w.pid = none := by
  intro path
  induction path with
  | nil => intro slot ip w hw; simp [hop_writes] at hw
  | cons a tail ih =>
    intro slot ip w hw
    cases tail with
    | nil =>
      simp only [hop_writes, List.mem_singleton] at hw
      subst hw
      exact ⟨rfl, rfl⟩
    | cons b rest =>
      simp only [hop_writes, List.mem_cons] at hw
      rcases hw with he | hm
      · subst he
        exact ⟨rfl, rfl⟩
      · exact ih _ _ w hm

theorem path_writes_clear_fields (X : Int) (st link : Nat) (path : List Int)
    (slots : List Nat) :
    ∀ w ∈ path_writes X st link (fun _ => EMPTY) EMPTY EMPTY none path slots,
      w.config = EMPTY ∧ w.pid = none := by
  intro w hw
  rw [path_writes, List.mem_flatMap] at hw
  obtain ⟨sl, hsl, hw⟩ := hw
  simp only [slot_writes, List.mem_cons, List.mem_append, List.mem_singleton] at hw
  rcases hw with he | hm | he2 | he3
  · subst he
    exact ⟨rfl, rfl⟩
  · exact hop_writes_clear_fields X st link path sl (link + 4) w hm
  · subst he2
    exact ⟨rfl, rfl⟩
  · exact absurd he3 (List.not_mem_nil w)

/-- Writing a path's slot-table entries with `_configure_tdm_path` and
immediately unwinding with `_clear_tdm_path` restores every slot-table
entry, provided every start slot passed `check_path` beforehand and
`EMPTY` entries carry no owner pid. -/
theorem configure_clear_restore (c : CtrlModClient) (path : List Int)
    (slots : List Nat) (es ed link : Nat)
    (hx : c.x_dim = c.tdm_info.x_dim)
    (hst : c.slot_table_size = c.tdm_info.slot_table_size)
    (hwf : ∀ (n : Int) (b : Bool) (p sl : Nat),
      (c.tdm_info.table_config n b p sl).1 = EMPTY →
      (c.tdm_info.table_config n b p sl).2 = none)
    (hne : path ≠ [])
    (hslots : ∀ sl ∈ slots, c.tdm_info.check_path path sl link es ed = true) :
    ∀ (n : Int) (b : Bool) (p sl : Nat),
      ((c.configure_tdm_path path slots es ed link).2.clear_tdm_path
          (c.configure_tdm_path path slots es ed link).1).2.tdm_info.table_config
        n b p sl =
      c.tdm_info.table_config n b p sl := by
  intro n b p sl
  have huf : c.configure_tdm_path path slots es ed link =
      (c.nxt_pid,
        (apply_writes
          { c with
            tdm_paths := fun k => if k = c.nxt_pid then
              some (TDMPath.init path slots link es ed) else c.tdm_paths k,
            nxt_pid := c.nxt_pid + 1 }
          (path_writes (c.x_dim : Int) c.slot_table_size link id es ed
            (some c.nxt_pid) path slots)).configure_ep_link path.headI es link
          true) := rfl
  rw [huf]
  have hscrut : ((apply_writes
      { c with
        tdm_paths := fun k => if k = c.nxt_pid then
          some (TDMPath.init path slots link es ed) else c.tdm_paths k,
        nxt_pid := c.nxt_pid + 1 }
      (path_writes (c.x_dim : Int) c.slot_table_size link id es ed
        (some c.nxt_pid) path slots)).configure_ep_link path.headI es link
      true).tdm_paths c.nxt_pid =
      some (TDMPath.init path slots link es ed) := by
    show (apply_writes _ _).tdm_paths c.nxt_pid = _
    rw [(apply_writes_frame _ _).2.2.1]
    simp
  rw [CtrlModClient.clear_tdm_path]
  rw [hscrut]
  have hx3 : ((apply_writes
      { c with
        tdm_paths := fun k => if k = c.nxt_pid then
          some (TDMPath.init path slots link es ed) else c.tdm_paths k,
        nxt_pid := c.nxt_pid + 1 }
      (path_writes (c.x_dim : Int) c.slot_table_size link id es ed
        (some c.nxt_pid) path slots)).configure_ep_link path.headI es link
      true).x_dim = c.x_dim := by
    show (apply_writes _ _).x_dim = c.x_dim
    rw [(apply_writes_frame _ _).2.2.2.2.1]
  have hst3 : ((apply_writes
      { c with
        tdm_paths := fun k => if k = c.nxt_pid then
          some (TDMPath.init path slots link es ed) else c.tdm_paths k,
        nxt_pid := c.nxt_pid + 1 }
      (path_writes (c.x_dim : Int) c.slot_table_size link id es ed
        (some c.nxt_pid) path slots)).configure_ep_link path.headI es link
      true).slot_table_size = c.slot_table_size := by
    show (apply_writes _ _).slot_table_size = c.slot_table_size
    rw [(apply_writes_frame _ _).2.2.2.2.2.2.1]
  rw [hx3, hst3]
  simp only [TDMPath.init]
  show (apply_writes _
      (path_writes (c.x_dim : Int) c.slot_table_size link (fun _ => EMPTY)
        EMPTY EMPTY none path slots)).tdm_info.table_config n b p sl = _
  have hlocs := path_writes_locs (c.x_dim : Int) c.slot_table_size link id
    (fun _ => EMPTY) es ed EMPTY EMPTY (some c.nxt_pid) none path slots
  by_cases hhit : ∃ w ∈ path_writes (c.x_dim : Int) c.slot_table_size link id es
      ed (some c.nxt_pid) path slots,
      w.node = n ∧ w.ni = b ∧ w.port = p ∧ w.slot = sl
  · have hhit2 : ∃ w ∈ path_writes (c.x_dim : Int) c.slot_table_size link
        (fun _ => EMPTY) EMPTY EMPTY none path slots,
        w.node = n ∧ w.ni = b ∧ w.port = p ∧ w.slot = sl :=
      (hit_iff_of_locs _ _ hlocs n b p sl).mp hhit
    rw [apply_writes_cleared n b p sl _ _
      (path_writes_clear_fields (c.x_dim : Int) c.slot_table_size link path slots)
      hhit2]
    obtain ⟨w, hw, h1, h2, h3, h4⟩ := hhit
    rw [hx, hst] at hw
    have hE := path_writes_pre_empty c.tdm_info link es ed id es ed
      (some c.nxt_pid) path slots hne hslots w hw
    rw [h1, h2, h3, h4] at hE
    have hN := hwf n b p sl hE
    exact (Prod.ext_iff.mpr ⟨hE, hN⟩).symm
  · have hhit2 : ∀ w ∈ path_writes (c.x_dim : Int) c.slot_table_size link
        (fun _ => EMPTY) EMPTY EMPTY none path slots,
        ¬(w.node = n ∧ w.ni = b ∧ w.port = p ∧ w.slot = sl) :=
      fun w hw hcon => hhit ((hit_iff_of_locs _ _ hlocs n b p sl).mpr ⟨w, hw, hcon⟩)
    rw [apply_writes_untouched n b p sl _ _ hhit2]
    show (apply_writes _
        (path_writes (c.x_dim : Int) c.slot_table_size link id es ed
          (some c.nxt_pid) path slots)).tdm_info.table_config n b p sl = _
    rw [apply_writes_untouched n b p sl _ _
      (fun w hw hcon => hhit ⟨w, hw, hcon⟩)]

/-- A path whose route equals another's (with at least one hop) is never a
valid alternative: either a parameter differs (early `False`) or the two
share their first directed hop. -/
theorem valid_alternative_same_route (p1 p2 : TDMPath) (h : p1.path = p2.path)
    (hl : 2 ≤ p2.path.length) : p1.valid_alternative_path p2 = false := by
  rw [TDMPath.valid_alternative_path]
  split_ifs with hcond
  · rfl
  · have hany : ((List.range (p1.path.length - 1)).any fun hop_self =>
        (List.range (p2.path.length - 1)).any fun hop_other =>
          (p1.path.getD hop_self 0 == p2.path.getD hop_other 0) &&
          (p1.path.getD (hop_self + 1) 0 == p2.path.getD (hop_other + 1) 0)) = true := by
      rw [List.any_eq_true]
      refine ⟨0, List.mem_range.mpr (by rw [h]; omega), ?_⟩
      rw [List.any_eq_true]
      refine ⟨0, List.mem_range.mpr (by omega), ?_⟩
      rw [h]
      simp
    rw [hany]
    rfl

/-- C3 (amended): adding a route identical to the already-attached path of a
channel returns the Overlaps value 1 and restores every slot-table entry -
provided the slot search actually finds start slots (with a slot table of
size 1 it does not, and the call returns 2 instead; see the counterexample).
The state hypotheses say: the channel exists, the requested path slot is
free, the other slot holds a pid whose recorded path has the same route
(at least two nodes), that pid is not the next fresh pid, the client and
mirror agree on the mesh parameters, and `EMPTY` table entries carry no
owner. -/
theorem C3_amended (c : CtrlModClient) (chid path_idx : Nat) (ch : TDMChannel)
    (path : List Int) (pid_alt : Nat) (palt : TDMPath)
    (hch : c.tdm_channels chid = some ch)
    (hfree : getPair ch.paths path_idx = none)
    (hocc : getPair ch.pids ((path_idx + 1) % 2) = some pid_alt)
    (halt : c.tdm_paths pid_alt = some palt)
    (hroute : palt.path = path)
    (hlen : 2 ≤ path.length)
    (hpa : pid_alt ≠ c.nxt_pid)
    (hx : c.x_dim = c.tdm_info.x_dim)
    (hst : c.slot_table_size = c.tdm_info.slot_table_size)
    (hwf : ∀ (n : Int) (b : Bool) (p sl : Nat),
      (c.tdm_info.table_config n b p sl).1 = EMPTY →
      (c.tdm_info.table_config n b p sl).2 = none)
    (hslots : 0 < (c.tdm_info.get_free_slots path ch.ep_src ch.ep_dest path_idx
      ch.numslots).length) :
    (c.add_path_to_channel chid path_idx path).1 = 1 ∧
    (∀ (n : Int) (b : Bool) (p sl : Nat),
      (c.add_path_to_channel chid path_idx path).2.tdm_info.table_config n b p sl =
        c.tdm_info.table_config n b p sl) ∧
    (c.add_path_to_channel chid path_idx path).2.tdm_channels = c.tdm_channels := by
  have hne : path ≠ [] := by
    intro h0
    rw [h0] at hlen
    simp at hlen
  obtain ⟨s1, s2, s3, s4, s5, s6, s7, s8, s9, s10, s11, s12, s13⟩ :=
    configure_tdm_path_spec c path
      (c.tdm_info.get_free_slots path ch.ep_src ch.ep_dest path_idx ch.numslots)
      ch.ep_src ch.ep_dest path_idx
  have hdis : (c.configure_tdm_path path
      (c.tdm_info.get_free_slots path ch.ep_src ch.ep_dest path_idx ch.numslots)
      ch.ep_src ch.ep_dest path_idx).2.disjoint_check ch path_idx
      (c.configure_tdm_path path
        (c.tdm_info.get_free_slots path ch.ep_src ch.ep_dest path_idx ch.numslots)
        ch.ep_src ch.ep_dest path_idx).1 = false := by
    simp only [CtrlModClient.disjoint_check, hocc, s1, s5, if_neg hpa,
      eq_self_iff_true, if_true, halt]
    exact valid_alternative_same_route palt _ hroute hlen
  simp only [CtrlModClient.add_path_to_channel, hch]
  rw [if_pos hfree, if_pos hslots]
  rw [CtrlModClient.add_path_finish, hdis]
  simp only [Bool.false_eq_true, if_false]
  refine ⟨trivial, ?_, ?_⟩
  · intro n b p sl
    exact configure_clear_restore c path
      (c.tdm_info.get_free_slots path ch.ep_src ch.ep_dest path_idx ch.numslots)
      ch.ep_src ch.ep_dest path_idx hx hst hwf hne
      (get_free_slots_mem_check c.tdm_info path ch.ep_src ch.ep_dest path_idx
        ch.numslots).1 n b p sl
  · exact ((clear_tdm_path_spec _ _).2.2.1).trans s4

/-- Concrete client for the C3 witness: a 2x1 mesh with slot-table size 2,
one channel (id 0) holding a single attached path (pid 5, route 0 -> 1) in
slot 1, path slot 0 free, and an otherwise empty mirror. -/
def c3wit_palt : TDMPath := ⟨[0, 1], [0], 1, 0, 0, some 0, some 1⟩

def c3wit_ch : TDMChannel :=
  ⟨(none, some c3wit_palt), (none, some 5), (some false, none), 0, 1, 0, 0, 1⟩

def c3wit_client : CtrlModClient :=
  ⟨2, 1, 2, ⟨2, 1, fun _ => 1, 2, fun _ _ => (none, none), fun _ _ _ _ => (EMPTY, none)⟩,
    6, (fun k => if k = 5 then some c3wit_palt else none), 1,
    (fun k => if k = 0 then some c3wit_ch else none), []⟩

/-- Witness for C3_amended at the concrete client `c3wit_client`. -/
theorem C3_amended_witness :
    c3wit_client.tdm_channels 0 = some c3wit_ch ∧
    getPair c3wit_ch.paths 0 = none ∧
    getPair c3wit_ch.pids ((0 + 1) % 2) = some 5 ∧
    c3wit_client.tdm_paths 5 = some c3wit_palt ∧
    c3wit_palt.path = [0, 1] ∧
    2 ≤ [(0 : Int), 1].length ∧
    (5 : Nat) ≠ c3wit_client.nxt_pid ∧
    c3wit_client.x_dim = c3wit_client.tdm_info.x_dim ∧
    c3wit_client.slot_table_size = c3wit_client.tdm_info.slot_table_size ∧
    (∀ (n : Int) (b : Bool) (p sl : Nat),
      (c3wit_client.tdm_info.table_config n b p sl).1 = EMPTY →
      (c3wit_client.tdm_info.table_config n b p sl).2 = none) ∧
    0 < (c3wit_client.tdm_info.get_free_slots [0, 1] c3wit_ch.ep_src c3wit_ch.ep_dest 0
      c3wit_ch.numslots).length ∧
    (c3wit_client.add_path_to_channel 0 0 [0, 1]).1 = 1 ∧
    (∀ (n : Int) (b : Bool) (p sl : Nat),
      (c3wit_client.add_path_to_channel 0 0 [0, 1]).2.tdm_info.table_config n b p sl =
        c3wit_client.tdm_info.table_config n b p sl) ∧
    (c3wit_client.add_path_to_channel 0 0 [0, 1]).2.tdm_channels =
      c3wit_client.tdm_channels := by
  have h := C3_amended c3wit_client 0 0 c3wit_ch [0, 1] 5 c3wit_palt rfl rfl rfl rfl
    rfl (by decide) (by decide) rfl rfl (fun n b p sl _ => rfl) (by decide)
  exact ⟨rfl, rfl, rfl, rfl, rfl, by decide, by decide, rfl, rfl,
    fun n b p sl _ => rfl, by decide, h.1, h.2.1, h.2.2⟩

/-- C3 counterexample: on a 2x2 mesh with a slot table of a single slot, a
channel is created with both auto paths (route A 0-1-3 on link 0, route B
0-2-3 on link 1), path A is removed, and then a route identical to the
remaining path B is offered for the free slot 0.  The slot search finds no
free start slot (the single slot is taken by path B's router entries), so
the call returns 2 - not the Overlaps value 1 the claim promises for an
identical route. -/
theorem C3_counterexample :
    (((CtrlModClient.init 2 2 (fun _ => 1) 1).create_tdm_channel 0 3 1 true).1 = 0) ∧
    (((((CtrlModClient.init 2 2 (fun _ => 1) 1).create_tdm_channel 0 3 1
        true).2.remove_path_from_channel 0 0).tdm_channels 0).map
      (fun ch => getPair ch.paths 0) = some none) ∧
    (((((CtrlModClient.init 2 2 (fun _ => 1) 1).create_tdm_channel 0 3 1
        true).2.remove_path_from_channel 0 0).tdm_channels 0).map
      (fun ch => getPair ch.pids 1) = some (some 1)) ∧
    (((((CtrlModClient.init 2 2 (fun _ => 1) 1).create_tdm_channel 0 3 1
        true).2.remove_path_from_channel 0 0).tdm_paths 1).map TDMPath.path =
      some [0, 2, 3]) ∧
    (((((CtrlModClient.init 2 2 (fun _ => 1) 1).create_tdm_channel 0 3 1
        true).2.remove_path_from_channel 0 0).add_path_to_channel 0 0
      [0, 2, 3]).1 = 2) := by
  have hA : find_path_A 2 0 3 = [0, 1, 3] := by
    simp [find_path_A, find_path_x_y]
  have hB : find_path_B 2 2 0 3 = [0, 2, 3] := by
    simp [find_path_B, find_path_x_y, find_path_y_x]
  rw [create_tdm_channel_autopaths_eq _ 0 3 1 0 0 (by decide) (by decide)]
  simp only [CtrlModClient.init, CtrlModClient.create_auto_success]
  rw [hA, hB]
  rw [if_neg (by decide)]
  exact ⟨by decide, by decide, by decide, by decide, by decide⟩

/-! ### Heads and tails of the automatic routes (C1) -/

theorem find_path_A_ne_nil (X src dest : Nat) : find_path_A X src dest ≠ [] := by
  rw [find_path_A]
  exact find_path_x_y_ne_nil _ _ _ _ _

theorem find_path_A_head (X src dest : Nat) :
    (find_path_A X src dest).headI = (src : Int) := by
  rw [find_path_A]
  obtain ⟨t, ht⟩ := find_path_x_y_cons (X : Int) ((src % X : Nat) : Int)
    ((src / X : Nat) : Int) ((dest % X : Nat) : Int) ((dest / X : Nat) : Int)
  rw [ht]
  show (X : Int) * ((src / X : Nat) : Int) + ((src % X : Nat) : Int) = (src : Int)
  exact_mod_cast Nat.div_add_mod src X

theorem find_path_A_last (X src dest : Nat) :
    (find_path_A X src dest).getLastI = (dest : Int) := by
  rw [find_path_A, List.getLastI_eq_getLast?, find_path_x_y_last]
  show (X : Int) * ((dest / X : Nat) : Int) + ((dest % X : Nat) : Int) = (dest : Int)
  exact_mod_cast Nat.div_add_mod dest X

theorem find_path_B_ne_nil (X Y src dest : Nat) : find_path_B X Y src dest ≠ [] := by
  by_cases hc : ((src % X : Nat) : Int) = ((dest % X : Nat) : Int)
  · by_cases hr : ((src / X : Nat) : Int) = ((dest / X : Nat) : Int)
    · simp only [find_path_B]
      rw [if_neg (fun h => h.1 hc), if_pos ⟨hc, hr⟩]
      simp
    · rw [find_path_B_col X Y src dest hc hr]
      simp
  · by_cases hr : ((src / X : Nat) : Int) = ((dest / X : Nat) : Int)
    · rw [find_path_B_row X Y src dest hc hr]
      simp
    · rw [find_path_B_diff X Y src dest hc hr]
      exact find_path_y_x_ne_nil _ _ _ _ _

theorem find_path_B_head (X Y src dest : Nat) :
    (find_path_B X Y src dest).headI = (src : Int) := by
  have hsrc : (X : Int) * ((src / X : Nat) : Int) + ((src % X : Nat) : Int) = (src : Int) := by
    exact_mod_cast Nat.div_add_mod src X
  by_cases hc : ((src % X : Nat) : Int) = ((dest % X : Nat) : Int)
  · by_cases hr : ((src / X : Nat) : Int) = ((dest / X : Nat) : Int)
    · simp only [find_path_B]
      rw [if_neg (fun h => h.1 hc), if_pos ⟨hc, hr⟩]
      simpa using hsrc
    · rw [find_path_B_col X Y src dest hc hr]
      simpa using hsrc
  · by_cases hr : ((src / X : Nat) : Int) = ((dest / X : Nat) : Int)
    · rw [find_path_B_row X Y src dest hc hr]
      simpa using hsrc
    · rw [find_path_B_diff X Y src dest hc hr]
      obtain ⟨t, ht⟩ := find_path_y_x_cons (X : Int) ((src % X : Nat) : Int)
        ((src / X : Nat) : Int) ((dest % X : Nat) : Int) ((dest / X : Nat) : Int)
      rw [ht]
      simpa using hsrc

theorem find_path_B_last (X Y src dest : Nat) :
    (find_path_B X Y src dest).getLastI = (dest : Int) := by
  have hdest : (X : Int) * ((dest / X : Nat) : Int) + ((dest % X : Nat) : Int) =
      (dest : Int) := by
    exact_mod_cast Nat.div_add_mod dest X
  by_cases hc : ((src % X : Nat) : Int) = ((dest % X : Nat) : Int)
  · by_cases hr : ((src / X : Nat) : Int) = ((dest / X : Nat) : Int)
    · simp only [find_path_B]
      rw [if_neg (fun h => h.1 hc), if_pos ⟨hc, hr⟩]
      simp only [List.getLastI]
      rw [hc, hr]
      exact hdest
    · rw [find_path_B_col X Y src dest hc hr, List.getLastI_eq_getLast?,
        last?_cons (find_path_y_x_ne_nil _ _ _ _ _), find_path_y_x_last]
      exact hdest
  · by_cases hr : ((src / X : Nat) : Int) = ((dest / X : Nat) : Int)
    · rw [find_path_B_row X Y src dest hc hr, List.getLastI_eq_getLast?,
        last?_cons (find_path_x_y_ne_nil _ _ _ _ _), find_path_x_y_last]
      exact hdest
    · rw [find_path_B_diff X Y src dest hc hr, List.getLastI_eq_getLast?,
        find_path_y_x_last]
      exact hdest

/-- `get_free_ep` returns a free endpoint in the requested direction. -/
theorem get_free_ep_free (s : TDMinfo) (node : Int) (out : Bool) (ep : Nat)
    (h : s.get_free_ep node out = some ep) :
    (if out then (s.nodes node ep).1 else (s.nodes node ep).2) = none := by
  rw [TDMinfo.get_free_ep] at h
  have h2 := List.find?_some h
  rwa [Option.isNone_iff_eq_none] at h2

/-- `assign_ep` never changes the slot-table mirror. -/
theorem assign_ep_table (s : TDMinfo) (src dest : Int) (es ed chid : Nat) :
    (s.assign_ep src dest es ed chid).2.table_config = s.table_config := by
  rw [TDMinfo.assign_ep]
  split_ifs <;> rfl

/-- On free endpoints `assign_ep` claims the outbound endpoint at the
source and the inbound endpoint at the destination. -/
theorem assign_ep_claims (s : TDMinfo) (src dest : Int) (es ed chid : Nat)
    (h1 : (s.nodes src es).1 = none) (h2 : (s.nodes dest ed).2 = none) :
    ((s.assign_ep src dest es ed chid).2.nodes src es).1 = some chid ∧
    ((s.assign_ep src dest es ed chid).2.nodes dest ed).2 = some chid := by
  rw [TDMinfo.assign_ep, if_pos ⟨h1, h2⟩]
  refine ⟨?_, ?_⟩
  · show (if src = dest ∧ es = ed then
        ((if src = src ∧ es = es then (some chid, (s.nodes src es).2)
          else s.nodes src es).1, some chid)
      else (if src = src ∧ es = es then (some chid, (s.nodes src es).2)
        else s.nodes src es)).1 = some chid
    rw [if_pos (show src = src ∧ es = es from ⟨rfl, rfl⟩)]
    split_ifs <;> rfl
  · show (if dest = dest ∧ ed = ed then
        ((if dest = src ∧ ed = es then (some chid, (s.nodes dest ed).2)
          else s.nodes dest ed).1, some chid)
      else (if dest = src ∧ ed = es then (some chid, (s.nodes dest ed).2)
        else s.nodes dest ed)).2 = some chid
    rw [if_pos (show dest = dest ∧ ed = ed from ⟨rfl, rfl⟩)]

/-- `add_auto_path` when the channel's first path slot is free and the
parameter check passes: the path is attached at index 0. -/
theorem add_auto_path_succ0 (c : CtrlModClient) (chid pid : Nat) (ch : TDMChannel)
    (p : TDMPath)
    (hch : c.tdm_channels chid = some ch) (hp : c.tdm_paths pid = some p)
    (hok : ch.check_valid_path_parameters p = true) (hfree : ch.paths.1 = none) :
    c.add_auto_path chid pid = { c with
      tdm_channels := fun k => if k = chid then
        some (TDMChannel.mk (some p, ch.paths.2) (some pid, ch.pids.2)
          (none, ch.errors.2) ch.src ch.dest ch.ep_src ch.ep_dest ch.numslots)
        else c.tdm_channels k,
      tdm_paths := fun k => if k = pid then some (p.assign_channel chid 0)
        else c.tdm_paths k } := by
  simp only [CtrlModClient.add_auto_path, hch, hp]
  rw [TDMChannel.add_path, if_pos hok, if_pos hfree]

/-- `add_auto_path` when the first path slot is taken and the second is
free: the path is attached at index 1. -/
theorem add_auto_path_succ1 (c : CtrlModClient) (chid pid : Nat) (ch : TDMChannel)
    (p : TDMPath)
    (hch : c.tdm_channels chid = some ch) (hp : c.tdm_paths pid = some p)
    (hok : ch.check_valid_path_parameters p = true) (hsome : ¬ch.paths.1 = none)
    (hfree : ch.paths.2 = none) :
    c.add_auto_path chid pid = { c with
      tdm_channels := fun k => if k = chid then
        some (TDMChannel.mk (ch.paths.1, some p) (ch.pids.1, some pid)
          (ch.errors.1, none) ch.src ch.dest ch.ep_src ch.ep_dest ch.numslots)
        else c.tdm_channels k,
      tdm_paths := fun k => if k = pid then some (p.assign_channel chid 1)
        else c.tdm_paths k } := by
  simp only [CtrlModClient.add_auto_path, hch, hp]
  rw [TDMChannel.add_path, if_pos hok, if_neg hsome, if_pos hfree]

/-- `apply_writes` transforms the `TDMinfo` mirror as a function of the
starting mirror alone. -/
theorem apply_writes_tdm_info_eq (ws : List Write) :
    ∀ (c1 c2 : CtrlModClient), c1.tdm_info = c2.tdm_info →
      (apply_writes c1 ws).tdm_info = (apply_writes c2 ws).tdm_info := by
  induction ws with
  | nil => intro c1 c2 h; exact h
  | cons w ws ih =>
    intro c1 c2 h
    rw [apply_writes_cons, apply_writes_cons]
    apply ih
    show (c1.tdm_info.set_table_entry _ _ _ _ _ _) = (c2.tdm_info.set_table_entry _ _ _ _ _ _)
    rw [h]

/-- The slot-table effect of `_clear_tdm_path` on a recorded path. -/
theorem clear_tdm_path_table (c' : CtrlModClient) (pid : Nat) (P : TDMPath)
    (hp : c'.tdm_paths pid = some P) :
    (c'.clear_tdm_path pid).2.tdm_info.table_config =
      (apply_writes c' (path_writes (c'.x_dim : Int) c'.slot_table_size P.link
        (fun _ => EMPTY) EMPTY EMPTY none P.path P.slots)).tdm_info.table_config := by
  simp only [CtrlModClient.clear_tdm_path, hp]
  show (apply_writes (c'.configure_ep_link P.path.headI P.ep_src P.link false)
      _).tdm_info.table_config = _
  rw [apply_writes_tdm_info_eq _ (c'.configure_ep_link P.path.headI P.ep_src P.link false)
    c' rfl]

/-- `add_auto_path` keeps the mesh and table-size parameters. -/
theorem add_auto_path_meta (c : CtrlModClient) (chid pid : Nat) :
    (c.add_auto_path chid pid).x_dim = c.x_dim ∧
    (c.add_auto_path chid pid).slot_table_size = c.slot_table_size := by
  rw [CtrlModClient.add_auto_path]
  rcases c.tdm_channels chid with _ | ch <;> rcases c.tdm_paths pid with _ | p <;>
    exact ⟨rfl, rfl⟩

/-- `delete_tdm_channel` on a channel with two attached pids: clear both
paths in order, then drop the channel record. -/
theorem delete_tdm_channel_two (c' : CtrlModClient) (chid pidA pidB : Nat)
    (ch : TDMChannel)
    (hch : c'.tdm_channels chid = some ch)
    (hpids : ch.pids = (some pidA, some pidB)) :
    c'.delete_tdm_channel chid =
      { ((c'.clear_tdm_path pidA).2.clear_tdm_path pidB).2 with
        tdm_channels := fun k => if k = chid then none
          else ((c'.clear_tdm_path pidA).2.clear_tdm_path pidB).2.tdm_channels k } := by
  simp only [CtrlModClient.delete_tdm_channel, hch, hpids,
    CtrlModClient.clear_tdm_path_opt]

/-- The success path of creating a channel with both auto paths and then
deleting it, stated over abstract routes and start-slot lists: the slot
table is restored pointwise, while both endpoints remain claimed by the
deleted channel id - `delete_tdm_channel` never frees them. -/
theorem create_then_delete_spec (c : CtrlModClient) (src dest n es ed : Nat)
    (pA pB : List Int) (sA sB : List Nat)
    (hx : c.x_dim = c.tdm_info.x_dim)
    (hst : c.slot_table_size = c.tdm_info.slot_table_size)
    (hwf : ∀ (nd : Int) (b : Bool) (p sl : Nat),
      (c.tdm_info.table_config nd b p sl).1 = EMPTY →
      (c.tdm_info.table_config nd b p sl).2 = none)
    (hneA : pA ≠ []) (hneB : pB ≠ [])
    (hheadA : pA.headI = (src : Int)) (hlastA : pA.getLastI = (dest : Int))
    (hheadB : pB.headI = (src : Int)) (hlastB : pB.getLastI = (dest : Int))
    (hlenA : sA.length = n) (hlenB : sB.length = n)
    (hchkA : ∀ sl ∈ sA, c.tdm_info.check_path pA sl 0 es ed = true)
    (hchkB : ∀ sl ∈ sB, c.tdm_info.check_path pB sl 1 es ed = true)
    (hepS : (c.tdm_info.nodes src es).1 = none)
    (hepD : (c.tdm_info.nodes dest ed).2 = none) :
    (∀ (nd : Int) (b : Bool) (p sl : Nat),
      (((({ ((c.configure_tdm_path pA sA es ed 0).2.configure_tdm_path pB sB es ed 1).2 with
      tdm_channels := fun k => if k = ((c.configure_tdm_path pA sA es ed 0).2.configure_tdm_path pB sB es ed 1).2.nxt_chid then
        some (TDMChannel.init src dest es ed n) else ((c.configure_tdm_path pA sA es ed 0).2.configure_tdm_path pB sB es ed 1).2.tdm_channels k,
      tdm_info := (((c.configure_tdm_path pA sA es ed 0).2.configure_tdm_path pB sB es ed 1).2.tdm_info.assign_ep (src : Int) (dest : Int) es ed
        ((c.configure_tdm_path pA sA es ed 0).2.configure_tdm_path pB sB es ed 1).2.nxt_chid).2,
      nxt_chid := ((c.configure_tdm_path pA sA es ed 0).2.configure_tdm_path pB sB es ed 1).2.nxt_chid + 1 }).add_auto_path
      ((c.configure_tdm_path pA sA es ed 0).2.configure_tdm_path pB sB es ed 1).2.nxt_chid (c.configure_tdm_path pA sA es ed 0).1).add_auto_path ((c.configure_tdm_path pA sA es ed 0).2.configure_tdm_path pB sB es ed 1).2.nxt_chid
      ((c.configure_tdm_path pA sA es ed 0).2.configure_tdm_path pB sB es ed 1).1).delete_tdm_channel c.nxt_chid).tdm_info.table_config nd b p sl =
        c.tdm_info.table_config nd b p sl) ∧
    ((((({ ((c.configure_tdm_path pA sA es ed 0).2.configure_tdm_path pB sB es ed 1).2 with
      tdm_channels := fun k => if k = ((c.configure_tdm_path pA sA es ed 0).2.configure_tdm_path pB sB es ed 1).2.nxt_chid then
        some (TDMChannel.init src dest es ed n) else ((c.configure_tdm_path pA sA es ed 0).2.configure_tdm_path pB sB es ed 1).2.tdm_channels k,
      tdm_info := (((c.configure_tdm_path pA sA es ed 0).2.configure_tdm_path pB sB es ed 1).2.tdm_info.assign_ep (src : Int) (dest : Int) es ed
        ((c.configure_tdm_path pA sA es ed 0).2.configure_tdm_path pB sB es ed 1).2.nxt_chid).2,
      nxt_chid := ((c.configure_tdm_path pA sA es ed 0).2.configure_tdm_path pB sB es ed 1).2.nxt_chid + 1 }).add_auto_path
      ((c.configure_tdm_path pA sA es ed 0).2.configure_tdm_path pB sB es ed 1).2.nxt_chid (c.configure_tdm_path pA sA es ed 0).1).add_auto_path ((c.configure_tdm_path pA sA es ed 0).2.configure_tdm_path pB sB es ed 1).2.nxt_chid
      ((c.configure_tdm_path pA sA es ed 0).2.configure_tdm_path pB sB es ed 1).1).delete_tdm_channel c.nxt_chid).tdm_info.nodes src es).1 =
      some c.nxt_chid ∧
    ((((({ ((c.configure_tdm_path pA sA es ed 0).2.configure_tdm_path pB sB es ed 1).2 with
      tdm_channels := fun k => if k = ((c.configure_tdm_path pA sA es ed 0).2.configure_tdm_path pB sB es ed 1).2.nxt_chid then
        some (TDMChannel.init src dest es ed n) else ((c.configure_tdm_path pA sA es ed 0).2.configure_tdm_path pB sB es ed 1).2.tdm_channels k,
      tdm_info := (((c.configure_tdm_path pA sA es ed 0).2.configure_tdm_path pB sB es ed 1).2.tdm_info.assign_ep (src : Int) (dest : Int) es ed
        ((c.configure_tdm_path pA sA es ed 0).2.configure_tdm_path pB sB es ed 1).2.nxt_chid).2,
      nxt_chid := ((c.configure_tdm_path pA sA es ed 0).2.configure_tdm_path pB sB es ed 1).2.nxt_chid + 1 }).add_auto_path
      ((c.configure_tdm_path pA sA es ed 0).2.configure_tdm_path pB sB es ed 1).2.nxt_chid (c.configure_tdm_path pA sA es ed 0).1).add_auto_path ((c.configure_tdm_path pA sA es ed 0).2.configure_tdm_path pB sB es ed 1).2.nxt_chid
      ((c.configure_tdm_path pA sA es ed 0).2.configure_tdm_path pB sB es ed 1).1).delete_tdm_channel c.nxt_chid).tdm_info.nodes dest ed).2 =
      some c.nxt_chid := by
  obtain ⟨a1, a2, a3, a4, a5, a6, a7, a8, a9, a10, a11, a12, a13⟩ :=
    configure_tdm_path_spec c pA sA es ed 0
  obtain ⟨b1, b2, b3, b4, b5, b6, b7, b8, b9, b10, b11, b12, b13⟩ :=
    configure_tdm_path_spec (c.configure_tdm_path pA sA es ed 0).2 pB sB es ed 1
  have hchid : ((c.configure_tdm_path pA sA es ed 0).2.configure_tdm_path pB sB es ed 1).2.nxt_chid = c.nxt_chid := b3.trans a3
  have hpidA : (c.configure_tdm_path pA sA es ed 0).1 = c.nxt_pid := a1
  have hpidB : ((c.configure_tdm_path pA sA es ed 0).2.configure_tdm_path pB sB es ed 1).1 = c.nxt_pid + 1 := b1.trans a2
  rw [hchid, hpidA, hpidB]
  have hch4 : ({ ((c.configure_tdm_path pA sA es ed 0).2.configure_tdm_path pB sB es ed 1).2 with
      tdm_channels := fun k => if k = c.nxt_chid then
        some (TDMChannel.init src dest es ed n) else ((c.configure_tdm_path pA sA es ed 0).2.configure_tdm_path pB sB es ed 1).2.tdm_channels k,
      tdm_info := (((c.configure_tdm_path pA sA es ed 0).2.configure_tdm_path pB sB es ed 1).2.tdm_info.assign_ep (src : Int) (dest : Int) es ed
        c.nxt_chid).2,
      nxt_chid := c.nxt_chid + 1 }).tdm_channels c.nxt_chid = some (TDMChannel.init src dest es ed n) := by
    show (if c.nxt_chid = c.nxt_chid then some (TDMChannel.init src dest es ed n)
      else ((c.configure_tdm_path pA sA es ed 0).2.configure_tdm_path pB sB es ed 1).2.tdm_channels c.nxt_chid) = some (TDMChannel.init src dest es ed n)
    rw [if_pos rfl]
  have hp4 : ({ ((c.configure_tdm_path pA sA es ed 0).2.configure_tdm_path pB sB es ed 1).2 with
      tdm_channels := fun k => if k = c.nxt_chid then
        some (TDMChannel.init src dest es ed n) else ((c.configure_tdm_path pA sA es ed 0).2.configure_tdm_path pB sB es ed 1).2.tdm_channels k,
      tdm_info := (((c.configure_tdm_path pA sA es ed 0).2.configure_tdm_path pB sB es ed 1).2.tdm_info.assign_ep (src : Int) (dest : Int) es ed
        c.nxt_chid).2,
      nxt_chid := c.nxt_chid + 1 }).tdm_paths c.nxt_pid = some (TDMPath.init pA sA 0 es ed) := by
    show ((c.configure_tdm_path pA sA es ed 0).2.configure_tdm_path pB sB es ed 1).2.tdm_paths c.nxt_pid = some (TDMPath.init pA sA 0 es ed)
    simp only [b5, a5, a2]
    rw [if_neg (by omega)]
    simp
  have hp4b : ({ ((c.configure_tdm_path pA sA es ed 0).2.configure_tdm_path pB sB es ed 1).2 with
      tdm_channels := fun k => if k = c.nxt_chid then
        some (TDMChannel.init src dest es ed n) else ((c.configure_tdm_path pA sA es ed 0).2.configure_tdm_path pB sB es ed 1).2.tdm_channels k,
      tdm_info := (((c.configure_tdm_path pA sA es ed 0).2.configure_tdm_path pB sB es ed 1).2.tdm_info.assign_ep (src : Int) (dest : Int) es ed
        c.nxt_chid).2,
      nxt_chid := c.nxt_chid + 1 }).tdm_paths (c.nxt_pid + 1) = some (TDMPath.init pB sB 1 es ed) := by
    show ((c.configure_tdm_path pA sA es ed 0).2.configure_tdm_path pB sB es ed 1).2.tdm_paths (c.nxt_pid + 1) = some (TDMPath.init pB sB 1 es ed)
    simp [b5, a2]
  have hinfo4 : ({ ((c.configure_tdm_path pA sA es ed 0).2.configure_tdm_path pB sB es ed 1).2 with
      tdm_channels := fun k => if k = c.nxt_chid then
        some (TDMChannel.init src dest es ed n) else ((c.configure_tdm_path pA sA es ed 0).2.configure_tdm_path pB sB es ed 1).2.tdm_channels k,
      tdm_info := (((c.configure_tdm_path pA sA es ed 0).2.configure_tdm_path pB sB es ed 1).2.tdm_info.assign_ep (src : Int) (dest : Int) es ed
        c.nxt_chid).2,
      nxt_chid := c.nxt_chid + 1 }).tdm_info =
      (((c.configure_tdm_path pA sA es ed 0).2.configure_tdm_path pB sB es ed 1).2.tdm_info.assign_ep (src : Int) (dest : Int) es ed c.nxt_chid).2 := rfl
  have hx4 : ({ ((c.configure_tdm_path pA sA es ed 0).2.configure_tdm_path pB sB es ed 1).2 with
      tdm_channels := fun k => if k = c.nxt_chid then
        some (TDMChannel.init src dest es ed n) else ((c.configure_tdm_path pA sA es ed 0).2.configure_tdm_path pB sB es ed 1).2.tdm_channels k,
      tdm_info := (((c.configure_tdm_path pA sA es ed 0).2.configure_tdm_path pB sB es ed 1).2.tdm_info.assign_ep (src : Int) (dest : Int) es ed
        c.nxt_chid).2,
      nxt_chid := c.nxt_chid + 1 }).x_dim = c.x_dim := b6.trans a6
  have hst4 : ({ ((c.configure_tdm_path pA sA es ed 0).2.configure_tdm_path pB sB es ed 1).2 with
      tdm_channels := fun k => if k = c.nxt_chid then
        some (TDMChannel.init src dest es ed n) else ((c.configure_tdm_path pA sA es ed 0).2.configure_tdm_path pB sB es ed 1).2.tdm_channels k,
      tdm_info := (((c.configure_tdm_path pA sA es ed 0).2.configure_tdm_path pB sB es ed 1).2.tdm_info.assign_ep (src : Int) (dest : Int) es ed
        c.nxt_chid).2,
      nxt_chid := c.nxt_chid + 1 }).slot_table_size = c.slot_table_size := b8.trans a8
  generalize hg : ({ ((c.configure_tdm_path pA sA es ed 0).2.configure_tdm_path pB sB es ed 1).2 with
      tdm_channels := fun k => if k = c.nxt_chid then
        some (TDMChannel.init src dest es ed n) else ((c.configure_tdm_path pA sA es ed 0).2.configure_tdm_path pB sB es ed 1).2.tdm_channels k,
      tdm_info := (((c.configure_tdm_path pA sA es ed 0).2.configure_tdm_path pB sB es ed 1).2.tdm_info.assign_ep (src : Int) (dest : Int) es ed
        c.nxt_chid).2,
      nxt_chid := c.nxt_chid + 1 } : CtrlModClient) = c4
  rw [hg] at hch4 hp4 hp4b hinfo4 hx4 hst4
  have hokA : (TDMChannel.init src dest es ed n).check_valid_path_parameters (TDMPath.init pA sA 0 es ed) = true := by
    simp [TDMChannel.check_valid_path_parameters, TDMChannel.init, TDMPath.init,
      hheadA, hlastA, hlenA]
  have hstep1 := add_auto_path_succ0 c4 c.nxt_chid c.nxt_pid (TDMChannel.init src dest es ed n) (TDMPath.init pA sA 0 es ed)
    hch4 hp4 hokA rfl
  have hch5 : (c4.add_auto_path c.nxt_chid c.nxt_pid).tdm_channels c.nxt_chid =
      some (TDMChannel.mk (some (TDMPath.init pA sA 0 es ed), none) (some c.nxt_pid, none) (none, some false) src dest es ed n) := by
    rw [hstep1]
    show (if c.nxt_chid = c.nxt_chid then _ else c4.tdm_channels c.nxt_chid) = _
    rw [if_pos rfl]
    rfl
  have hp5 : (c4.add_auto_path c.nxt_chid c.nxt_pid).tdm_paths (c.nxt_pid + 1) =
      some (TDMPath.init pB sB 1 es ed) := by
    rw [hstep1]
    show (if c.nxt_pid + 1 = c.nxt_pid then _ else c4.tdm_paths (c.nxt_pid + 1)) = _
    rw [if_neg (by omega)]
    exact hp4b
  have hok5 : (TDMChannel.mk (some (TDMPath.init pA sA 0 es ed), none) (some c.nxt_pid, none) (none, some false) src dest es ed n).check_valid_path_parameters (TDMPath.init pB sB 1 es ed) = true := by
    simp [TDMChannel.check_valid_path_parameters, TDMPath.init,
      hheadB, hlastB, hlenB]
  have hstep2 := add_auto_path_succ1 (c4.add_auto_path c.nxt_chid c.nxt_pid)
    c.nxt_chid (c.nxt_pid + 1) (TDMChannel.mk (some (TDMPath.init pA sA 0 es ed), none) (some c.nxt_pid, none) (none, some false) src dest es ed n) (TDMPath.init pB sB 1 es ed) hch5 hp5 hok5 (by simp) rfl
  have hch6 : ((c4.add_auto_path c.nxt_chid c.nxt_pid).add_auto_path c.nxt_chid
      (c.nxt_pid + 1)).tdm_channels c.nxt_chid = some (TDMChannel.mk (some (TDMPath.init pA sA 0 es ed), some (TDMPath.init pB sB 1 es ed)) (some c.nxt_pid, some (c.nxt_pid + 1)) (none, none) src dest es ed n) := by
    rw [hstep2]
    show (if c.nxt_chid = c.nxt_chid then _
      else (c4.add_auto_path c.nxt_chid c.nxt_pid).tdm_channels c.nxt_chid) = _
    rw [if_pos rfl]
  have hSp0 : ((c4.add_auto_path c.nxt_chid c.nxt_pid).add_auto_path c.nxt_chid
      (c.nxt_pid + 1)).tdm_paths c.nxt_pid =
      some ((TDMPath.init pA sA 0 es ed).assign_channel c.nxt_chid 0) := by
    rw [hstep2]
    show (if c.nxt_pid = c.nxt_pid + 1 then _
      else (c4.add_auto_path c.nxt_chid c.nxt_pid).tdm_paths c.nxt_pid) = _
    rw [if_neg (by omega), hstep1]
    show (if c.nxt_pid = c.nxt_pid then _ else c4.tdm_paths c.nxt_pid) = _
    rw [if_pos rfl]
  have hSinfo : ((c4.add_auto_path c.nxt_chid c.nxt_pid).add_auto_path c.nxt_chid
      (c.nxt_pid + 1)).tdm_info =
      (((c.configure_tdm_path pA sA es ed 0).2.configure_tdm_path pB sB es ed 1).2.tdm_info.assign_ep (src : Int) (dest : Int) es ed c.nxt_chid).2 :=
    ((add_auto_path_frame _ _ _).2.2.1).trans
      (((add_auto_path_frame _ _ _).2.2.1).trans hinfo4)
  have hSx : ((c4.add_auto_path c.nxt_chid c.nxt_pid).add_auto_path c.nxt_chid
      (c.nxt_pid + 1)).x_dim = c.x_dim :=
    ((add_auto_path_meta _ _ _).1).trans (((add_auto_path_meta _ _ _).1).trans hx4)
  have hSst : ((c4.add_auto_path c.nxt_chid c.nxt_pid).add_auto_path c.nxt_chid
      (c.nxt_pid + 1)).slot_table_size = c.slot_table_size :=
    ((add_auto_path_meta _ _ _).2).trans (((add_auto_path_meta _ _ _).2).trans hst4)
  have hD1p : (((c4.add_auto_path c.nxt_chid c.nxt_pid).add_auto_path c.nxt_chid
      (c.nxt_pid + 1)).clear_tdm_path c.nxt_pid).2.tdm_paths (c.nxt_pid + 1) =
      some ((TDMPath.init pB sB 1 es ed).assign_channel c.nxt_chid 1) := by
    rw [(clear_tdm_path_spec _ _).2.2.2.1]
    show (if c.nxt_pid + 1 = c.nxt_pid then none
      else ((c4.add_auto_path c.nxt_chid c.nxt_pid).add_auto_path c.nxt_chid
        (c.nxt_pid + 1)).tdm_paths (c.nxt_pid + 1)) = _
    rw [if_neg (by omega), hstep2]
    show (if c.nxt_pid + 1 = c.nxt_pid + 1 then _
      else (c4.add_auto_path c.nxt_chid c.nxt_pid).tdm_paths (c.nxt_pid + 1)) = _
    rw [if_pos rfl]
  have hD1x : (((c4.add_auto_path c.nxt_chid c.nxt_pid).add_auto_path c.nxt_chid
      (c.nxt_pid + 1)).clear_tdm_path c.nxt_pid).2.x_dim = c.x_dim :=
    ((clear_tdm_path_spec _ _).2.2.2.2.1).trans hSx
  have hD1st : (((c4.add_auto_path c.nxt_chid c.nxt_pid).add_auto_path c.nxt_chid
      (c.nxt_pid + 1)).clear_tdm_path c.nxt_pid).2.slot_table_size =
      c.slot_table_size :=
    ((clear_tdm_path_spec _ _).2.2.2.2.2.2.1).trans hSst
  rw [delete_tdm_channel_two _ c.nxt_chid c.nxt_pid (c.nxt_pid + 1) (TDMChannel.mk (some (TDMPath.init pA sA 0 es ed), some (TDMPath.init pB sB 1 es ed)) (some c.nxt_pid, some (c.nxt_pid + 1)) (none, none) src dest es ed n)
    hch6 rfl]
  have hlocsB := path_writes_locs (c.x_dim : Int) c.slot_table_size 1 id
    (fun _ => EMPTY) es ed EMPTY EMPTY (some (c.nxt_pid + 1)) none pB sB
  have hlocsA := path_writes_locs (c.x_dim : Int) c.slot_table_size 0 id
    (fun _ => EMPTY) es ed EMPTY EMPTY (some c.nxt_pid) none pA sA
  refine ⟨?_, ?_, ?_⟩
  · intro nd b p sl
    show ((((c4.add_auto_path c.nxt_chid c.nxt_pid).add_auto_path c.nxt_chid
      (c.nxt_pid + 1)).clear_tdm_path c.nxt_pid).2.clear_tdm_path
      (c.nxt_pid + 1)).2.tdm_info.table_config nd b p sl =
      c.tdm_info.table_config nd b p sl
    rw [clear_tdm_path_table _ _ _ hD1p, hD1x, hD1st]
    simp only [TDMPath.assign_channel, TDMPath.init]
    by_cases hitB : ∃ w ∈ path_writes (c.x_dim : Int) c.slot_table_size 1 id es ed
        (some (c.nxt_pid + 1)) pB sB,
        w.node = nd ∧ w.ni = b ∧ w.port = p ∧ w.slot = sl
    · rw [apply_writes_cleared nd b p sl _ _
        (path_writes_clear_fields _ _ _ pB sB)
        ((hit_iff_of_locs _ _ hlocsB nd b p sl).mp hitB)]
      obtain ⟨w, hw, e1, e2, e3, e4⟩ := hitB
      rw [hx, hst] at hw
      have hE := path_writes_pre_empty c.tdm_info 1 es ed id es ed
        (some (c.nxt_pid + 1)) pB sB hneB hchkB w hw
      rw [e1, e2, e3, e4] at hE
      exact (Prod.ext_iff.mpr ⟨hE, hwf nd b p sl hE⟩).symm
    · rw [apply_writes_untouched nd b p sl _ _
        (fun w hw hcon => hitB ((hit_iff_of_locs _ _ hlocsB nd b p sl).mpr
          ⟨w, hw, hcon⟩))]
      rw [clear_tdm_path_table _ _ _ hSp0, hSx, hSst]
      simp only [TDMPath.assign_channel, TDMPath.init]
      by_cases hitA : ∃ w ∈ path_writes (c.x_dim : Int) c.slot_table_size 0 id es
          ed (some c.nxt_pid) pA sA,
          w.node = nd ∧ w.ni = b ∧ w.port = p ∧ w.slot = sl
      · rw [apply_writes_cleared nd b p sl _ _
          (path_writes_clear_fields _ _ _ pA sA)
          ((hit_iff_of_locs _ _ hlocsA nd b p sl).mp hitA)]
        obtain ⟨w, hw, e1, e2, e3, e4⟩ := hitA
        rw [hx, hst] at hw
        have hE := path_writes_pre_empty c.tdm_info 0 es ed id es ed
          (some c.nxt_pid) pA sA hneA hchkA w hw
        rw [e1, e2, e3, e4] at hE
        exact (Prod.ext_iff.mpr ⟨hE, hwf nd b p sl hE⟩).symm
      · rw [apply_writes_untouched nd b p sl _ _
          (fun w hw hcon => hitA ((hit_iff_of_locs _ _ hlocsA nd b p sl).mpr
            ⟨w, hw, hcon⟩))]
        rw [hSinfo, assign_ep_table]
        show (apply_writes
          { (c.configure_tdm_path pA sA es ed 0).2 with
            tdm_paths := fun k => if k = (c.configure_tdm_path pA sA es ed 0).2.nxt_pid then some (TDMPath.init pB sB 1 es ed)
              else (c.configure_tdm_path pA sA es ed 0).2.tdm_paths k,
            nxt_pid := (c.configure_tdm_path pA sA es ed 0).2.nxt_pid + 1 }
          (path_writes ((c.configure_tdm_path pA sA es ed 0).2.x_dim : Int) (c.configure_tdm_path pA sA es ed 0).2.slot_table_size 1 id es ed
            (some (c.configure_tdm_path pA sA es ed 0).2.nxt_pid) pB sB)).tdm_info.table_config nd b p sl =
          c.tdm_info.table_config nd b p sl
        rw [a6, a8, a2]
        rw [apply_writes_untouched nd b p sl _ _
          (fun w hw hcon => hitB ⟨w, hw, hcon⟩)]
        show (apply_writes
          { c with
            tdm_paths := fun k => if k = c.nxt_pid then some (TDMPath.init pA sA 0 es ed)
              else c.tdm_paths k,
            nxt_pid := c.nxt_pid + 1 }
          (path_writes (c.x_dim : Int) c.slot_table_size 0 id es ed
            (some c.nxt_pid) pA sA)).tdm_info.table_config nd b p sl =
          c.tdm_info.table_config nd b p sl
        rw [apply_writes_untouched nd b p sl _ _
          (fun w hw hcon => hitA ⟨w, hw, hcon⟩)]
  · show (((((c4.add_auto_path c.nxt_chid c.nxt_pid).add_auto_path c.nxt_chid
      (c.nxt_pid + 1)).clear_tdm_path c.nxt_pid).2.clear_tdm_path
      (c.nxt_pid + 1)).2.tdm_info.nodes src es).1 = some c.nxt_chid
    rw [(clear_tdm_path_spec _ _).2.2.2.2.2.2.2.2.2.2.2]
    rw [(clear_tdm_path_spec _ _).2.2.2.2.2.2.2.2.2.2.2]
    rw [hSinfo]
    have hgs : (((c.configure_tdm_path pA sA es ed 0).2.configure_tdm_path pB sB es ed 1).2.tdm_info.nodes src es).1 = none := by
      rw [b13, a13]; exact hepS
    have hgd : (((c.configure_tdm_path pA sA es ed 0).2.configure_tdm_path pB sB es ed 1).2.tdm_info.nodes dest ed).2 = none := by
      rw [b13, a13]; exact hepD
    exact (assign_ep_claims _ _ _ _ _ _ hgs hgd).1
  · show (((((c4.add_auto_path c.nxt_chid c.nxt_pid).add_auto_path c.nxt_chid
      (c.nxt_pid + 1)).clear_tdm_path c.nxt_pid).2.clear_tdm_path
      (c.nxt_pid + 1)).2.tdm_info.nodes dest ed).2 = some c.nxt_chid
    rw [(clear_tdm_path_spec _ _).2.2.2.2.2.2.2.2.2.2.2]
    rw [(clear_tdm_path_spec _ _).2.2.2.2.2.2.2.2.2.2.2]
    rw [hSinfo]
    have hgs : (((c.configure_tdm_path pA sA es ed 0).2.configure_tdm_path pB sB es ed 1).2.tdm_info.nodes src es).1 = none := by
      rw [b13, a13]; exact hepS
    have hgd : (((c.configure_tdm_path pA sA es ed 0).2.configure_tdm_path pB sB es ed 1).2.tdm_info.nodes dest ed).2 = none := by
      rw [b13, a13]; exact hepD
    exact (assign_ep_claims _ _ _ _ _ _ hgs hgd).2

/-! ### C1: delete after create restores the table but never frees endpoints -/

/-- C1 (amended): when `create_tdm_channel(src, dest, n, autopaths=True)`
succeeds, an immediate `delete_tdm_channel` of the returned id restores
every slot-table entry to its prior value, but both endpoints stay claimed
by the deleted channel id: `delete_tdm_channel` never touches the endpoint
allocation table, so the claim's "frees both endpoints" part - and with it
the guaranteed success of an immediately repeated identical create - fails. -/
theorem C1_amended (c : CtrlModClient) (src dest n es ed : Nat)
    (hx : c.x_dim = c.tdm_info.x_dim)
    (hst : c.slot_table_size = c.tdm_info.slot_table_size)
    (hwf : ∀ (nd : Int) (b : Bool) (p sl : Nat),
      (c.tdm_info.table_config nd b p sl).1 = EMPTY →
      (c.tdm_info.table_config nd b p sl).2 = none)
    (h1 : c.tdm_info.get_free_ep src true = some es)
    (h2 : c.tdm_info.get_free_ep dest false = some ed)
    (hsA : 0 < (c.tdm_info.get_free_slots (find_path_A c.x_dim src dest) es ed 0 n).length)
    (hsB : 0 < (c.tdm_info.get_free_slots (find_path_B c.x_dim c.y_dim src dest) es ed 1 n).length) :
    (c.create_tdm_channel src dest n true).1 = (c.nxt_chid : Int) ∧
    (∀ (nd : Int) (b : Bool) (p sl : Nat),
      ((c.create_tdm_channel src dest n true).2.delete_tdm_channel c.nxt_chid).tdm_info.table_config nd b p sl =
        c.tdm_info.table_config nd b p sl) ∧
    (((c.create_tdm_channel src dest n true).2.delete_tdm_channel c.nxt_chid).tdm_info.nodes src es).1 =
      some c.nxt_chid ∧
    (((c.create_tdm_channel src dest n true).2.delete_tdm_channel c.nxt_chid).tdm_info.nodes dest ed).2 =
      some c.nxt_chid := by
  have hchid : ((c.configure_tdm_path (find_path_A c.x_dim src dest) (c.tdm_info.get_free_slots (find_path_A c.x_dim src dest) es ed 0 n) es ed
      0).2.configure_tdm_path (find_path_B c.x_dim c.y_dim src dest) (c.tdm_info.get_free_slots (find_path_B c.x_dim c.y_dim src dest) es ed 1 n) es ed 1).2.nxt_chid = c.nxt_chid :=
    ((configure_tdm_path_spec _ (find_path_B c.x_dim c.y_dim src dest) (c.tdm_info.get_free_slots (find_path_B c.x_dim c.y_dim src dest) es ed 1 n) es ed 1).2.2.1).trans
      ((configure_tdm_path_spec c (find_path_A c.x_dim src dest) (c.tdm_info.get_free_slots (find_path_A c.x_dim src dest) es ed 0 n) es ed 0).2.2.1)
  have hmain := create_then_delete_spec c src dest n es ed (find_path_A c.x_dim src dest) (find_path_B c.x_dim c.y_dim src dest)
    (c.tdm_info.get_free_slots (find_path_A c.x_dim src dest) es ed 0 n) (c.tdm_info.get_free_slots (find_path_B c.x_dim c.y_dim src dest) es ed 1 n) hx hst hwf
    (find_path_A_ne_nil _ _ _) (find_path_B_ne_nil _ _ _ _)
    (find_path_A_head _ _ _) (find_path_A_last _ _ _)
    (find_path_B_head _ _ _ _) (find_path_B_last _ _ _ _)
    ((get_free_slots_mem_check _ _ _ _ _ _).2 hsA)
    ((get_free_slots_mem_check _ _ _ _ _ _).2 hsB)
    (fun sl hsl => (get_free_slots_mem_check _ _ _ _ _ _).1 sl hsl)
    (fun sl hsl => (get_free_slots_mem_check _ _ _ _ _ _).1 sl hsl)
    (by simpa using get_free_ep_free c.tdm_info src true es h1)
    (by simpa using get_free_ep_free c.tdm_info dest false ed h2)
  rw [create_tdm_channel_autopaths_eq c src dest n es ed h1 h2]
  rw [if_neg (by simp only [not_or]; exact ⟨by omega, by omega⟩)]
  exact ⟨congrArg (fun m : Nat => (m : Int)) hchid, hmain.1, hmain.2.1, hmain.2.2⟩

/-- C1 counterexample: on a 2x2 mesh with one endpoint per direction and a
one-slot table, a channel (id 0) is created with both auto paths and then
deleted.  The deletion leaves the outbound endpoint of node 0 still claimed
by channel 0 (`delete_tdm_channel` clears paths but never calls anything
that frees endpoints), so the immediately repeated identical
`create_tdm_channel` fails with -1 instead of succeeding as claimed. -/
theorem C1_counterexample :
    (((CtrlModClient.init 2 2 (fun _ => 1) 1).create_tdm_channel 0 3 1 true).1 = 0) ∧
    ((((CtrlModClient.init 2 2 (fun _ => 1) 1).create_tdm_channel 0 3 1
      true).2.delete_tdm_channel 0).tdm_info.nodes 0 0).1 = some 0 ∧
    ((((CtrlModClient.init 2 2 (fun _ => 1) 1).create_tdm_channel 0 3 1
      true).2.delete_tdm_channel 0).tdm_info.nodes 3 0).2 = some 0 ∧
    ((((CtrlModClient.init 2 2 (fun _ => 1) 1).create_tdm_channel 0 3 1
      true).2.delete_tdm_channel 0).create_tdm_channel 0 3 1 true).1 = -1 := by
  have hA : find_path_A 2 0 3 = [0, 1, 3] := by
    simp [find_path_A, find_path_x_y]
  have hB : find_path_B 2 2 0 3 = [0, 2, 3] := by
    simp [find_path_B, find_path_x_y, find_path_y_x]
  rw [create_tdm_channel_autopaths_eq _ 0 3 1 0 0 (by decide) (by decide)]
  simp only [CtrlModClient.init, CtrlModClient.create_auto_success]
  rw [hA, hB]
  rw [if_neg (by decide)]
  exact ⟨by decide, by decide, by decide, by decide⟩

/-- Witness for C1_amended on the 2x2 one-endpoint client. -/
theorem C1_amended_witness :
    (CtrlModClient.init 2 2 (fun _ => 1) 1).tdm_info.get_free_ep 0 true = some 0 ∧
    (CtrlModClient.init 2 2 (fun _ => 1) 1).tdm_info.get_free_ep 3 false = some 0 ∧
    0 < ((CtrlModClient.init 2 2 (fun _ => 1) 1).tdm_info.get_free_slots (find_path_A 2 0 3) 0 0 0 1).length ∧
    0 < ((CtrlModClient.init 2 2 (fun _ => 1) 1).tdm_info.get_free_slots (find_path_B 2 2 0 3) 0 0 1 1).length ∧
    (((CtrlModClient.init 2 2 (fun _ => 1) 1).create_tdm_channel 0 3 1 true).1 = ((CtrlModClient.init 2 2 (fun _ => 1) 1).nxt_chid : Int) ∧
     (∀ (nd : Int) (b : Bool) (p sl : Nat),
       (((CtrlModClient.init 2 2 (fun _ => 1) 1).create_tdm_channel 0 3 1 true).2.delete_tdm_channel
         (CtrlModClient.init 2 2 (fun _ => 1) 1).nxt_chid).tdm_info.table_config nd b p sl =
         (CtrlModClient.init 2 2 (fun _ => 1) 1).tdm_info.table_config nd b p sl) ∧
     ((((CtrlModClient.init 2 2 (fun _ => 1) 1).create_tdm_channel 0 3 1 true).2.delete_tdm_channel
         (CtrlModClient.init 2 2 (fun _ => 1) 1).nxt_chid).tdm_info.nodes 0 0).1 = some (CtrlModClient.init 2 2 (fun _ => 1) 1).nxt_chid ∧
     ((((CtrlModClient.init 2 2 (fun _ => 1) 1).create_tdm_channel 0 3 1 true).2.delete_tdm_channel
         (CtrlModClient.init 2 2 (fun _ => 1) 1).nxt_chid).tdm_info.nodes 3 0).2 = some (CtrlModClient.init 2 2 (fun _ => 1) 1).nxt_chid) := by
  have hA : find_path_A 2 0 3 = [0, 1, 3] := by
    simp [find_path_A, find_path_x_y]
  have hB : find_path_B 2 2 0 3 = [0, 2, 3] := by
    simp [find_path_B, find_path_x_y, find_path_y_x]
  have hsA : 0 < ((CtrlModClient.init 2 2 (fun _ => 1) 1).tdm_info.get_free_slots (find_path_A 2 0 3) 0 0 0
      1).length := by
    rw [hA]; decide
  have hsB : 0 < ((CtrlModClient.init 2 2 (fun _ => 1) 1).tdm_info.get_free_slots (find_path_B 2 2 0 3) 0 0 1
      1).length := by
    rw [hB]; decide
  exact ⟨by decide, by decide, hsA, hsB,
    C1_amended (CtrlModClient.init 2 2 (fun _ => 1) 1) 0 3 1 0 0 rfl rfl (fun nd b p sl _ => rfl)
      (by decide) (by decide) hsA hsB⟩


example : find_path_A 3 3 5 = [3, 4, 5] := by
  simp [find_path_A, find_path_x_y]
example : find_path_B 3 3 3 5 = [3, 0, 1, 2, 5] := by
  simp [find_path_B, find_path_x_y, find_path_y_x]
example : find_path_A 1 0 1 = [0, 1] := by
  simp [find_path_A, find_path_x_y]
example : find_path_B 1 2 0 1 = [0, -1, 0, 1] := by
  simp [find_path_B, find_path_x_y, find_path_y_x]
example : find_path_B 5 2 3 8 = [3, 4, 9, 8] := by
  simp [find_path_B, find_path_x_y, find_path_y_x]

end Demonstrator
